import Mathlib

/-!
Verification development for the DDL codec repository
(`src/orm/ddl/ddl_to_sql.py`, `src/orm/ddl/sql_to_ddl.py`).

The Python code is shallowly embedded:
* Python `dict`-shaped field/table records become Lean structures whose
  `Option` fields model presence/absence of a dict key.
* Python `str` helpers (`strip`, `rstrip`, `split`, `replace`, `isdigit`,
  `isidentifier`, `upper`, `lower`) are re-implemented on `List Char`
  (ASCII semantics; all inputs relevant to the claims are ASCII).
* The `re` patterns of the parser are embedded as an explicit regex AST
  (`RE`) together with a backtracking matcher `reM` implementing Python's
  leftmost / greedy / lazy disambiguation and backreferences.  Every
  pattern of the source is transliterated constructor by constructor.
* `raise ValueError(msg)` becomes `Except.error msg` with the exact
  message strings of the source.

All definitions are structurally recursive so that the kernel can
evaluate them on concrete inputs.
-/

/-! ## Python string primitives -/

/-- Python `\s` (ASCII): space, tab, newline, carriage return, vertical tab, form feed. -/
def isSpaceChar (c : Char) : Bool :=
  c == ' ' || c == '\t' || c == '\n' || c == '\r' || c == '\x0b' || c == '\x0c'

/-- Python `\w` (ASCII): letters, digits, underscore. -/
def isWordChar (c : Char) : Bool :=
  c.isAlphanum || c == '_'

/-- Leading-strip of all characters satisfying `p`. -/
def lstripP (p : Char → Bool) : List Char → List Char
  | [] => []
  | c :: rest => if p c then lstripP p rest else c :: rest

/-- Trailing-strip of all characters satisfying `p`. -/
def rstripP (p : Char → Bool) (s : List Char) : List Char :=
  (lstripP p s.reverse).reverse

/-- Python `str.strip()` (whitespace at both ends). -/
def pyStripL (s : List Char) : List Char :=
  rstripP isSpaceChar (lstripP isSpaceChar s)

def pyStrip (s : String) : String := ⟨pyStripL s.data⟩

/-- Python `str.strip(chars)` restricted to a single character, both ends. -/
def pyStripChar (c : Char) (s : String) : String :=
  ⟨(rstripP (fun x => x == c) (lstripP (fun x => x == c) s.data))⟩

/-- Python `str.rstrip(chars)` restricted to a single character. -/
def pyRstripChar (c : Char) (s : String) : String :=
  ⟨rstripP (fun x => x == c) s.data⟩

/-- Python `str.split(sep)` for a one-character separator. -/
def splitGo (sep : Char) : List Char → List Char → List (List Char)
  | [], cur => [cur.reverse]
  | c :: rest, cur =>
    if c == sep then cur.reverse :: splitGo sep rest []
    else splitGo sep rest (c :: cur)

def pySplit (sep : Char) (s : String) : List String :=
  (splitGo sep s.data []).map (fun l => ⟨l⟩)

/-- Whether `pat` is a prefix of `s` (Boolean, by direct recursion). -/
def isPrefixList : List Char → List Char → Bool
  | [], _ => true
  | _ :: _, [] => false
  | p :: ps, c :: cs => p == c && isPrefixList ps cs

/-- Whether `pat` occurs as a contiguous substring of `s` (Python `in`). -/
def containsSubL (pat : List Char) : List Char → Bool
  | [] => isPrefixList pat []
  | c :: rest => isPrefixList pat (c :: rest) || containsSubL pat rest

def containsSub (pat s : String) : Bool := containsSubL pat.data s.data

/-- Python `str.replace(pat, rep)` (left-to-right, non-overlapping).
`skip > 0` means we are still inside an already-replaced region. -/
def replGo (pat rep : List Char) : List Char → Nat → List Char
  | [], _ => []
  | _ :: rest, skip + 1 => replGo pat rep rest skip
  | c :: rest, 0 =>
    if isPrefixList pat (c :: rest) then rep ++ replGo pat rep rest (pat.length - 1)
    else c :: replGo pat rep rest 0

def pyReplace (s pat rep : String) : String :=
  ⟨replGo pat.data rep.data s.data 0⟩

/-- Python `str.isdigit()` (ASCII): non-empty and all decimal digits. -/
def pyIsdigit (s : String) : Bool :=
  !s.data.isEmpty && s.data.all Char.isDigit

/-- Python `str.isidentifier()` (ASCII): non-empty, first char a letter or
underscore, remaining chars letters, digits or underscore. -/
def pyIsIdentifier (s : String) : Bool :=
  match s.data with
  | [] => false
  | c :: rest => (c.isAlpha || c == '_') && rest.all isWordChar

/-- Python `str.upper()` (ASCII). -/
def pyUpper (s : String) : String := ⟨s.data.map Char.toUpper⟩

/-- Python `str.lower()` (ASCII). -/
def pyLower (s : String) : String := ⟨s.data.map Char.toLower⟩

/-- Value of a list of decimal digit characters (Python `int(...)` on the
digit strings produced by the regexes; non-digits contribute 0, an input
shape that cannot reach `int()` in the source because the regexes only
capture digits there). -/
def natFromDigitsL : List Char → Nat → Nat
  | [], acc => acc
  | c :: rest, acc => natFromDigitsL rest (acc * 10 + (c.toNat - 48))

/-- Python `int(s)` on the (regex-validated, digits-only) strings of the
source; leading/trailing whitespace tolerated as in Python. -/
def pyInt (s : String) : Nat := natFromDigitsL (pyStrip s).data 0

/-- Decimal digit character for `d < 10`. -/
def digitChar (d : Nat) : Char :=
  match d with
  | 0 => '0' | 1 => '1' | 2 => '2' | 3 => '3' | 4 => '4'
  | 5 => '5' | 6 => '6' | 7 => '7' | 8 => '8' | _ + 9 => '9'

/-- Decimal rendering of a natural number, fuel-indexed so that it is
structurally recursive (fuel `n` suffices for value `n`). -/
def decGo : Nat → Nat → List Char
  | 0, _ => []
  | fuel + 1, n => if n < 10 then [digitChar n] else decGo fuel (n / 10) ++ [digitChar (n % 10)]

/-- Decimal rendering of a natural number (Python `f"{n}"`); fuel `n + 1`
suffices and makes `natToDec 0 = "0"`. -/
def natToDec (n : Nat) : String := ⟨decGo (n + 1) n⟩

/-- Python `str(i)` for integers (only naturals are produced by the parser,
but serializer inputs may carry negative defaults). -/
def intToDec (i : Int) : String :=
  match i with
  | .ofNat n => natToDec n
  | .negSucc n => "-" ++ natToDec (n + 1)

/-- Python `'sep'.join(items)`. -/
def joinSep (sep : String) : List String → String
  | [] => ""
  | [x] => x
  | x :: y :: rest => x ++ sep ++ joinSep sep (y :: rest)

/-! ## Regex engine

Embeds the subset of Python `re` used by `sql_to_ddl.py`: literals
(case-sensitive or `re.IGNORECASE`), single-character classes, greedy and
lazy star/plus over a character class, alternation, greedy option,
numbered capture groups and backreferences.  `reM` is a backtracking
matcher in continuation-passing style; on success it returns the capture
list (most recent capture of a group first, as Python keeps the last). -/

abbrev Caps := List (Nat × List Char)

def capsGet (caps : Caps) (i : Nat) : Option (List Char) :=
  match caps with
  | [] => none
  | (j, v) :: rest => if j == i then some v else capsGet rest i

inductive RE where
  | lit (ci : Bool) (s : List Char)
  | cls (p : Char → Bool)
  | starC (p : Char → Bool) (lazy : Bool)
  | plusC (p : Char → Bool) (lazy : Bool)
  | seq (a b : RE)
  | alt (a b : RE)
  | opt (r : RE)
  | group (i : Nat) (r : RE)
  | backref (ci : Bool) (i : Nat)

def charEqCI (ci : Bool) (a b : Char) : Bool :=
  if ci then a.toLower == b.toLower else a == b

def matchLit (ci : Bool) : List Char → List Char → Option (List Char)
  | [], cs => some cs
  | _ :: _, [] => none
  | p :: ps, c :: cs => if charEqCI ci p c then matchLit ci ps cs else none

/-- Greedy star over a character class: prefer consuming more characters. -/
def starGreedy (p : Char → Bool) : Nat → List Char → Caps →
    (List Char → Caps → Option Caps) → Option Caps
  | 0, cs, caps, k => k cs caps
  | fuel + 1, cs, caps, k =>
    match cs with
    | [] => k [] caps
    | c :: rest =>
      if p c then
        match starGreedy p fuel rest caps k with
        | some r => some r
        | none => k (c :: rest) caps
      else k (c :: rest) caps

/-- Lazy star over a character class: prefer consuming fewer characters. -/
def starLazy (p : Char → Bool) : Nat → List Char → Caps →
    (List Char → Caps → Option Caps) → Option Caps
  | 0, cs, caps, k => k cs caps
  | fuel + 1, cs, caps, k =>
    match k cs caps with
    | some r => some r
    | none =>
      match cs with
      | [] => none
      | c :: rest => if p c then starLazy p fuel rest caps k else none

def reM : RE → List Char → Caps → (List Char → Caps → Option Caps) → Option Caps
  | .lit ci s, cs, caps, k =>
    match matchLit ci s cs with
    | some rest => k rest caps
    | none => none
  | .cls p, cs, caps, k =>
    match cs with
    | [] => none
    | c :: rest => if p c then k rest caps else none
  | .starC p lz, cs, caps, k =>
    if lz then starLazy p cs.length cs caps k else starGreedy p cs.length cs caps k
  | .plusC p lz, cs, caps, k =>
    match cs with
    | [] => none
    | c :: rest =>
      if p c then
        if lz then starLazy p rest.length rest caps k
        else starGreedy p rest.length rest caps k
      else none
  | .seq a b, cs, caps, k => reM a cs caps (fun cs2 caps2 => reM b cs2 caps2 k)
  | .alt a b, cs, caps, k =>
    match reM a cs caps k with
    | some r => some r
    | none => reM b cs caps k
  | .opt r, cs, caps, k =>
    match reM r cs caps k with
    | some r2 => some r2
    | none => k cs caps
  | .group i r, cs, caps, k =>
    reM r cs caps (fun cs2 caps2 => k cs2 ((i, cs.take (cs.length - cs2.length)) :: caps2))
  | .backref ci i, cs, caps, k =>
    match capsGet caps i with
    | none => none
    | some v =>
      match matchLit ci v cs with
      | some rest => k rest caps
      | none => none

/-- Python `re.match`: anchored at the start, the rest of the input may
remain unconsumed.  Returns the captures on success. -/
def reMatchL (r : RE) (cs : List Char) : Option Caps :=
  reM r cs [] (fun _ caps => some caps)

def reMatch (r : RE) (s : String) : Option Caps := reMatchL r s.data

/-- Python `re.search`: try each start position from the left. -/
def reSearchL (r : RE) : List Char → Option Caps
  | [] => reM r [] [] (fun _ caps => some caps)
  | c :: rest =>
    match reM r (c :: rest) [] (fun _ caps => some caps) with
    | some caps => some caps
    | none => reSearchL r rest

def reSearch (r : RE) (s : String) : Option Caps := reSearchL r s.data

/-- Captured text of group `i` as a `String` (`None` if the group did not
participate in the match). -/
def capStr (caps : Caps) (i : Nat) : Option String :=
  (capsGet caps i).map (fun l => ⟨l⟩)

/-- Sequence of a list of regexes (right-nested, empty list accepts). -/
def reSeqs : List RE → RE
  | [] => .lit false []
  | [r] => r
  | r :: s :: rest => .seq r (reSeqs (s :: rest))

def litS (ci : Bool) (s : String) : RE := .lit ci s.data

/-! ## Data model

Lean structures for the Python dict records.  An `Option` field models
presence/absence of the corresponding dict key (`none` = key absent); a
flag of `some true` corresponds to a key stored as `True` by the parser.
`name`/`type`/`table_name` are accessed unconditionally by the source and
are modelled as total fields. -/

namespace Ddl

/-- A Python default value: the serializer distinguishes `str` defaults
(quoted unless all digits) from other scalars (rendered via `str()`). -/
inductive DefaultV where
  | str (s : String)
  | num (n : Int)
deriving DecidableEq, Repr

structure Field where
  name : String
  type : String
  length : Option Nat := none
  max_length : Option Nat := none
  precision : Option Nat := none
  scale : Option Nat := none
  enum_values : Option (List String) := none
  unsigned : Option Bool := none
  not_null : Option Bool := none
  required : Option Bool := none
  auto_increment : Option Bool := none
  default : Option DefaultV := none
  comment : Option String := none
deriving DecidableEq, Repr

structure PrimaryKey where
  fields : List String
  type : String := "primary"
  index_type : String := ""
deriving DecidableEq, Repr

structure UniqueKey where
  name : String
  fields : List String
deriving DecidableEq, Repr

structure IndexSpec where
  name : String
  fields : List String
  type : String := "normal"
  comment : String := ""
deriving DecidableEq, Repr

structure TableConfig where
  table_name : String
  table_comment : String := ""
  id_fields : List Field := []
  key_fields : List Field := []
  value_fields : List Field := []
  status_fields : List Field := []
  primary_key : Option PrimaryKey := none
  unique_keys : List UniqueKey := []
  indexes : List IndexSpec := []
deriving DecidableEq, Repr

deriving instance DecidableEq for Except

/-! ## Serializer (`src/orm/ddl/ddl_to_sql.py`)

`raise ValueError(msg)` is modelled as `Except.error msg` with the exact
message text of the source. -/

def IntTypeHandler.convert (field : Field) : Except String String :=
  match field.length with
  | none => .error ("解析字段 " ++ field.name ++ " 时未指定 length")
  | some length => .ok ("int(" ++ natToDec length ++ ")")

def BigIntTypeHandler.convert (field : Field) : Except String String :=
  match field.length with
  | none => .error ("解析字段 " ++ field.name ++ " 时未指定 length")
  | some length => .ok ("bigint(" ++ natToDec length ++ ")")

def SmallIntTypeHandler.convert (field : Field) : Except String String :=
  match field.length with
  | none => .error ("解析字段 " ++ field.name ++ " 时未指定 length")
  | some length => .ok ("smallint(" ++ natToDec length ++ ")")

def TinyIntTypeHandler.convert (field : Field) : Except String String :=
  match field.length with
  | none => .error ("解析字段 " ++ field.name ++ " 时未指定 length")
  | some length => .ok ("tinyint(" ++ natToDec length ++ ")")

def StringTypeHandler.convert (field : Field) : Except String String :=
  match field.max_length with
  | none => .error ("解析字段 " ++ field.name ++ " 时未指定 max_length")
  | some max_length => .ok ("varchar(" ++ natToDec max_length ++ ")")

def DateTypeHandler.convert (field : Field) : Except String String :=
  if field.type == "datetime" then .ok "datetime" else .ok "date"

def DecimalTypeHandler.convert (field : Field) : Except String String :=
  let precision := field.precision.getD 10
  let scale := field.scale.getD 2
  .ok ("decimal(" ++ natToDec precision ++ "," ++ natToDec scale ++ ")")

def EnumTypeHandler.convert (field : Field) : Except String String :=
  let enum_values := field.enum_values.getD []
  if enum_values.isEmpty then .error "枚举类型字段必须指定枚举值"
  else
    let enum_count := enum_values.length
    if enum_count ≤ 255 then .ok "tinyint"
    else if enum_count ≤ 65535 then .ok "smallint"
    else if enum_count ≤ 16777215 then .ok "mediumint"
    else .ok "int"

def TextTypeHandler.convert (_field : Field) : Except String String := .ok "text"

def MediumTextTypeHandler.convert (_field : Field) : Except String String := .ok "mediumtext"

def JsonTypeHandler.convert (_field : Field) : Except String String := .ok "json"

/-- `TypeRegistry.get_handler(type_name).convert(field)`: dictionary
dispatch on the lowercased logical type; the default handler is the text
handler. -/
def TypeRegistry.convert (type_name : String) (field : Field) : Except String String :=
  let key := pyLower type_name
  if key == "int" then IntTypeHandler.convert field
  else if key == "bigint" then BigIntTypeHandler.convert field
  else if key == "smallint" then SmallIntTypeHandler.convert field
  else if key == "tinyint" then TinyIntTypeHandler.convert field
  else if key == "string" then StringTypeHandler.convert field
  else if key == "date" then DateTypeHandler.convert field
  else if key == "datetime" then DateTypeHandler.convert field
  else if key == "decimal" then DecimalTypeHandler.convert field
  else if key == "json" then JsonTypeHandler.convert field
  else if key == "text" then TextTypeHandler.convert field
  else if key == "mediumtext" then MediumTextTypeHandler.convert field
  else if key == "enum" then EnumTypeHandler.convert field
  else TextTypeHandler.convert field

def _convert_type (field : Field) : Except String String :=
  TypeRegistry.convert field.type field

/-- Lines 158-161 of `ddl_to_sql.py`: the converted type with the
`unsigned` qualifier appended when the field's flag is truthy. -/
def _field_type_with_unsigned (field : Field) : Except String String :=
  match _convert_type field with
  | .error e => .error e
  | .ok field_type =>
    .ok (if field.unsigned.getD false then field_type ++ " unsigned" else field_type)

/-- Lines 176-180 of `ddl_to_sql.py`: the `DEFAULT` clause (empty when no
default); a `str` default is single-quoted unless it is all digits. -/
def _default_clause (default : Option DefaultV) : String :=
  match default with
  | none => ""
  | some (.str s) => if pyIsdigit s then " DEFAULT " ++ s else " DEFAULT '" ++ s ++ "'"
  | some (.num n) => " DEFAULT " ++ intToDec n

def _format_field (field : Field) (quote_field_names : Bool := true) : Except String String :=
  let field_name := if quote_field_names then "`" ++ field.name ++ "`" else field.name
  match _field_type_with_unsigned field with
  | .error e => .error e
  | .ok field_type =>
    let comment := pyReplace (field.comment.getD "") "'" "\\'"
    let field_def := field_name ++ " " ++ field_type
    let field_def :=
      if field.not_null.getD false || field.required.getD false then field_def ++ " NOT NULL"
      else field_def
    let field_def :=
      if field.auto_increment.getD false then field_def ++ " AUTO_INCREMENT" else field_def
    let field_def := field_def ++ _default_clause field.default
    let field_def :=
      if comment != "" then field_def ++ " COMMENT '" ++ comment ++ "'" else field_def
    .ok field_def

/-- Lines 216-228 of `ddl_to_sql.py`: scan the concatenated field list
left to right; an empty/invalid name fails first at each field, then a
name already seen fails as a duplicate. -/
def validateFields (table_name : String) : List Field → List String → Except String Unit
  | [], _ => .ok ()
  | field :: rest, seen =>
    let field_name := field.name
    if field_name == "" || !(pyIsIdentifier field_name) then
      .error ("字段名 '" ++ field_name ++ "' 在表 '" ++ table_name ++ "' 中不符合规范")
    else if seen.contains field_name then
      .error ("字段 '" ++ field_name ++ "' 在表 '" ++ table_name ++ "' 中重复定义")
    else validateFields table_name rest (field_name :: seen)

def quoteName (quote_field_names : Bool) (f : String) : String :=
  if quote_field_names then "`" ++ f ++ "`" else f

def headerLine (table_name : String) : String := "create table " ++ table_name ++ " ("

/-- Lines 235-242: the `PRIMARY KEY` clause (absent when there is no
primary key or its field list is empty). -/
def pkLines (quote_field_names : Bool) (pk : Option PrimaryKey) : List String :=
  match pk with
  | none => []
  | some pk =>
    if pk.fields.isEmpty then []
    else
      let pk_fields := joinSep ", " (pk.fields.map (quoteName quote_field_names))
      let pk_line := "    PRIMARY KEY (" ++ pk_fields ++ ")"
      let pk_line :=
        if pk.index_type != "" then pk_line ++ " USING " ++ pyUpper pk.index_type else pk_line
      [pk_line ++ ","]

/-- Lines 245-249: a `UNIQUE KEY` clause; note the key name itself is
used verbatim (never backticked). -/
def ukLine (quote_field_names : Bool) (uk : UniqueKey) : String :=
  "    UNIQUE KEY " ++ uk.name ++ " (" ++
    joinSep ", " (uk.fields.map (quoteName quote_field_names)) ++ "),"

/-- Lines 252-263: a `KEY` (index) clause; the index name is backticked
when quoting is on, and a non-empty comment is escaped and appended. -/
def indexLine (quote_field_names : Bool) (index : IndexSpec) : String :=
  let index_name := if quote_field_names then "`" ++ index.name ++ "`" else index.name
  let index_fields := joinSep ", " (index.fields.map (quoteName quote_field_names))
  let index_comment := index.comment
  let index_def := "    KEY " ++ index_name ++ " (" ++ index_fields ++ ")"
  let index_def :=
    if index_comment != "" then
      index_def ++ " COMMENT '" ++ pyReplace index_comment "'" "\\'" ++ "'"
    else index_def
  index_def ++ ","

def endsWithChar (c : Char) (s : String) : Bool :=
  match s.data.reverse with
  | [] => false
  | x :: _ => x == c

def dropLastChar (s : String) : String := ⟨s.data.dropLast⟩

def modifyLast (f : String → String) : List String → List String
  | [] => []
  | [x] => [f x]
  | x :: y :: rest => x :: modifyLast f (y :: rest)

/-- Line 217 of `ddl_to_sql.py`: the concatenation of the four field groups. -/
def all_field_list (table_config : TableConfig) : List Field :=
  table_config.id_fields ++ table_config.key_fields ++
    table_config.value_fields ++ table_config.status_fields

/-- Line 231: the formatted-fields list comprehension; the first raised
error aborts, as in Python. -/
def formatAll (quote_field_names : Bool) : List Field → Except String (List String)
  | [] => .ok []
  | field :: rest =>
    match _format_field field quote_field_names with
    | .error e => .error e
    | .ok s =>
      match formatAll quote_field_names rest with
      | .error e => .error e
      | .ok ss => .ok (s :: ss)

def ddl_to_sql (table_config : TableConfig) (quote_field_names : Bool := true) :
    Except String String :=
  let table_name := table_config.table_name
  let table_comment := table_config.table_comment
  match validateFields table_name (all_field_list table_config) [] with
  | .error e => .error e
  | .ok _ =>
    match formatAll quote_field_names (all_field_list table_config) with
    | .error e => .error e
    | .ok formatted_fields =>
      let ddl_lines := [headerLine table_name] ++ formatted_fields.map (fun f => "    " ++ f ++ ",")
      let ddl_lines := ddl_lines ++ pkLines quote_field_names table_config.primary_key
      let ddl_lines := ddl_lines ++ table_config.unique_keys.map (ukLine quote_field_names)
      let ddl_lines := ddl_lines ++ table_config.indexes.map (indexLine quote_field_names)
      let ddl_lines := modifyLast (fun s => if endsWithChar ',' s then dropLastChar s else s) ddl_lines
      let ddl_lines := ddl_lines ++ [");"]
      let ddl_lines :=
        if table_comment != "" then
          modifyLast (fun s =>
            let suffix := " ENGINE=InnoDB DEFAULT CHARSET=utf8 COMMENT='" ++ table_comment ++ "';"
            if endsWithChar ';' s then dropLastChar s ++ suffix else s ++ suffix) ddl_lines
        else ddl_lines
      .ok (joinSep "\n" ddl_lines)

/-! ## Parser (`src/orm/ddl/sql_to_ddl.py`)

Each `re` pattern of the source is transliterated into the `RE` AST with
Python's group numbering (named groups numbered left to right). -/

def anyT (_ : Char) : Bool := true
def anyNoNl (c : Char) : Bool := c != '\n'
def quoteP (c : Char) : Bool := c == '\'' || c == '"'
def notRParen (c : Char) : Bool := c != ')'
def notSQuote (c : Char) : Bool := c != '\''
def notSpaceP (c : Char) : Bool := !isSpaceChar c
def upperP (c : Char) : Bool := c.isUpper
def alphaP (c : Char) : Bool := c.isAlpha

/-- Python raw pattern (IGNORECASE, `re.search`) for the table name:
`CREATE` `\s+` `TABLE` `\s+` `` `? `` `(\w+)` `` `? ``. -/
def P_tableName : RE :=
  reSeqs [litS true "CREATE", .plusC isSpaceChar false, litS true "TABLE",
    .plusC isSpaceChar false, .opt (litS true "`"),
    .group 1 (.plusC isWordChar false), .opt (litS true "`")]

/-- Pattern (DOTALL+IGNORECASE, `re.search`) for the body together with
the trailing table comment:
`\(` `(.*)` `\)` `\s*` `(ENGINE|TYPE)?` `=` `.*?` `COMMENT` `\s*` `=`
`\s*` `['"]` `(.+?)` `['"]`. -/
def P_tableDef : RE :=
  reSeqs [litS true "(", .group 1 (.starC anyT false), litS true ")",
    .starC isSpaceChar false,
    .opt (.group 2 (.alt (litS true "ENGINE") (litS true "TYPE"))),
    litS true "=", .starC anyT true, litS true "COMMENT",
    .starC isSpaceChar false, litS true "=", .starC isSpaceChar false,
    .cls quoteP, .group 3 (.plusC anyT true), .cls quoteP]

/-- Fallback body pattern (DOTALL+IGNORECASE, `re.search`): `\((.*)\)`. -/
def P_tableDefFallback : RE :=
  reSeqs [litS true "(", .group 1 (.starC anyT false), litS true ")"]

/-- Line classifier (IGNORECASE, `re.match`): `^PRIMARY\s+KEY`. -/
def P_pkHead : RE :=
  reSeqs [litS true "PRIMARY", .plusC isSpaceChar false, litS true "KEY"]

/-- Line classifier (IGNORECASE, `re.match`): `^UNIQUE\s+KEY`. -/
def P_ukHead : RE :=
  reSeqs [litS true "UNIQUE", .plusC isSpaceChar false, litS true "KEY"]

/-- Line classifier (IGNORECASE, `re.match`): `^(INDEX|KEY)`. -/
def P_idxHead : RE :=
  .group 1 (.alt (litS true "INDEX") (litS true "KEY"))

/-- Primary-key pattern (IGNORECASE, `re.search`):
`PRIMARY\s+KEY\s*\(([^)]+)\)(?:\s+USING\s+(\w+))?`. -/
def P_pk : RE :=
  reSeqs [litS true "PRIMARY", .plusC isSpaceChar false, litS true "KEY",
    .starC isSpaceChar false, litS true "(",
    .group 1 (.plusC notRParen false), litS true ")",
    .opt (reSeqs [.plusC isSpaceChar false, litS true "USING",
      .plusC isSpaceChar false, .group 2 (.plusC isWordChar false)])]

/-- Field pattern (IGNORECASE, `re.match`); groups: 1 name, 2 type,
3 not_null, 4 default, 5 auto_increment, 6 quote, 7 comment:
`` `(?P<name>\w+)` `` `\s+` `(?P<type>[A-Z]+(?:\(\d+(?:,\d+)?\))?(?:\s+unsigned)?)`
`(?P<not_null>\s+NOT\s+NULL)?` `(?:\s+DEFAULT\s+(?P<default>(?:'[^']*'|[^\s]+)))?`
`(?P<auto_increment>\s+AUTO_INCREMENT)?`
`(?:\s+COMMENT\s+(?P<quote>['"])(?P<comment>.*?)(?P=quote))?`. -/
def P_field : RE :=
  reSeqs [
    litS true "`", .group 1 (.plusC isWordChar false), litS true "`",
    .plusC isSpaceChar false,
    .group 2 (reSeqs [
      .plusC alphaP false,
      .opt (reSeqs [litS true "(", .plusC Char.isDigit false,
        .opt (reSeqs [litS true ",", .plusC Char.isDigit false]), litS true ")"]),
      .opt (reSeqs [.plusC isSpaceChar false, litS true "unsigned"])]),
    .opt (.group 3 (reSeqs [.plusC isSpaceChar false, litS true "NOT",
      .plusC isSpaceChar false, litS true "NULL"])),
    .opt (reSeqs [.plusC isSpaceChar false, litS true "DEFAULT",
      .plusC isSpaceChar false,
      .group 4 (.alt (reSeqs [litS true "'", .starC notSQuote false, litS true "'"])
        (.plusC notSpaceP false))]),
    .opt (.group 5 (reSeqs [.plusC isSpaceChar false, litS true "AUTO_INCREMENT"])),
    .opt (reSeqs [.plusC isSpaceChar false, litS true "COMMENT",
      .plusC isSpaceChar false, .group 6 (.cls quoteP),
      .group 7 (.starC anyNoNl true), .backref true 6])]

/-- Type decomposition pattern (no flags, `re.match`, applied to the
already-uppercased type string): `([A-Z]+)(?:\(([^)]+)\))?`. -/
def P_type : RE :=
  reSeqs [.group 1 (.plusC upperP false),
    .opt (reSeqs [litS false "(", .group 2 (.plusC notRParen false), litS false ")"])]

/-- Unique-key pattern (IGNORECASE, `re.search`):
`` UNIQUE\s+KEY\s+`?(\w+)`?\s*\(([^)]+)\) ``. -/
def P_uk : RE :=
  reSeqs [litS true "UNIQUE", .plusC isSpaceChar false, litS true "KEY",
    .plusC isSpaceChar false, .opt (litS true "`"),
    .group 1 (.plusC isWordChar false), .opt (litS true "`"),
    .starC isSpaceChar false, litS true "(",
    .group 2 (.plusC notRParen false), litS true ")"]

/-- Index pattern (IGNORECASE, `re.search`):
`` (?:KEY|INDEX)\s+`?(\w+)`?\s*\(([^)]+)\)\s*(?:COMMENT\s+(['"])(.*?)(\3))? ``. -/
def P_idx : RE :=
  reSeqs [.alt (litS true "KEY") (litS true "INDEX"), .plusC isSpaceChar false,
    .opt (litS true "`"), .group 1 (.plusC isWordChar false), .opt (litS true "`"),
    .starC isSpaceChar false, litS true "(",
    .group 2 (.plusC notRParen false), litS true ")",
    .starC isSpaceChar false,
    .opt (reSeqs [litS true "COMMENT", .plusC isSpaceChar false,
      .group 3 (.cls quoteP), .group 4 (.starC anyNoNl true),
      .group 5 (.backref true 3)])]

namespace SQLParser

/-- The `type_mappings` table of `SQLParser.__init__`. -/
def type_mappings : List (String × String) :=
  [("INT", "int"), ("BIGINT", "bigint"), ("TINYINT", "tinyint"),
   ("SMALLINT", "smallint"), ("MEDIUMINT", "int"), ("DATE", "date"),
   ("DATETIME", "datetime"), ("DECIMAL", "decimal"), ("VARCHAR", "string"),
   ("TEXT", "text"), ("MEDIUMTEXT", "mediumtext"), ("JSON", "json"),
   ("CHAR", "string"), ("FLOAT", "float"), ("DOUBLE", "float")]

def lookupMapping : List (String × String) → String → Option String
  | [], _ => none
  | (k, v) :: rest, key => if k == key then some v else lookupMapping rest key

/-- `SQLParser._parse_field_type`. -/
def _parse_field_type (field : Field) (type_str : String) : Field :=
  let unsigned := containsSub "UNSIGNED" type_str
  let type_str := pyStrip (pyReplace type_str "UNSIGNED" "")
  match reMatch P_type type_str with
  | none => { field with type := "string" }
  | some caps =>
    let base_type := (capStr caps 1).getD ""
    let params := capStr caps 2
    let mapped_type := (lookupMapping type_mappings base_type).getD "string"
    let field := { field with type := mapped_type }
    let field := if unsigned then { field with unsigned := some true } else field
    if base_type == "INT" || base_type == "BIGINT" || base_type == "SMALLINT" ||
        base_type == "TINYINT" || base_type == "MEDIUMINT" then
      match params with
      | some p => { field with length := some (pyInt p) }
      | none => field
    else if base_type == "VARCHAR" || base_type == "CHAR" then
      match params with
      | some p => { field with max_length := some (pyInt p) }
      | none => field
    else if base_type == "DECIMAL" then
      match params with
      | some p =>
        match pySplit ',' p with
        | [] => field
        | p0 :: restParts =>
          let field := { field with precision := some (pyInt p0) }
          match restParts with
          | [] => field
          | p1 :: _ => { field with scale := some (pyInt p1) }
      | none => field
    else field

/-- `SQLParser._parse_field`. -/
def _parse_field (line : String) : Option Field :=
  match reMatch P_field line with
  | none => none
  | some caps =>
    let field_name := (capStr caps 1).getD ""
    let field_type_str := pyUpper ((capStr caps 2).getD "")
    let comment := (capStr caps 7).getD ""
    let default := capStr caps 4
    let not_null := (capsGet caps 3).isSome
    let auto_increment := (capsGet caps 5).isSome
    let field : Field := {
      name := field_name
      type := ""
      comment := some (pyReplace (pyReplace comment "\\'" "'") "\\\"" "\"") }
    let field :=
      match default with
      | some d => { field with default := some (.str (pyStripChar '"' (pyStripChar '\'' d))) }
      | none => field
    let field := if not_null then { field with not_null := some true } else field
    let field := if auto_increment then { field with auto_increment := some true } else field
    some (_parse_field_type field field_type_str)

/-- Python list comprehension `[f.strip().strip('`') for f in s.split(',')]`. -/
def splitFieldNames (fields_str : String) : List String :=
  (pySplit ',' fields_str).map (fun f => pyStripChar '`' (pyStrip f))

/-- `SQLParser._parse_primary_key`. -/
def _parse_primary_key (line : String) : Option PrimaryKey :=
  match reSearch P_pk line with
  | none => none
  | some caps =>
    some { fields := splitFieldNames ((capStr caps 1).getD "")
           type := "primary"
           index_type := (capStr caps 2).getD "" }

/-- `SQLParser._parse_unique_key`. -/
def _parse_unique_key (line : String) : Option UniqueKey :=
  match reSearch P_uk line with
  | none => none
  | some caps =>
    some { name := (capStr caps 1).getD ""
           fields := splitFieldNames ((capStr caps 2).getD "") }

/-- `SQLParser._parse_index` (`none` models the falsy `{}` return). -/
def _parse_index (line : String) : Option IndexSpec :=
  match reSearch P_idx line with
  | none => none
  | some caps =>
    let comment := (capStr caps 4).getD ""
    some { name := (capStr caps 1).getD ""
           fields := splitFieldNames ((capStr caps 2).getD "")
           type := "normal"
           comment := pyReplace (pyReplace comment "\\'" "'") "\\\"" "\"" }

structure ParseState where
  fields : List Field := []
  unique_keys : List UniqueKey := []
  indexes : List IndexSpec := []
  pk_info : Option PrimaryKey := none
deriving DecidableEq, Repr

/-- One iteration of the line loop of `_parse_table_definition`. -/
def procLine (st : ParseState) (line : String) : ParseState :=
  let line := pyStrip line
  if line == "" then st
  else if (reMatch P_pkHead line).isSome then { st with pk_info := _parse_primary_key line }
  else if (reMatch P_ukHead line).isSome then
    match _parse_unique_key line with
    | some uk => { st with unique_keys := st.unique_keys ++ [uk] }
    | none => st
  else if (reMatch P_idxHead line).isSome then
    match _parse_index line with
    | some idx => { st with indexes := st.indexes ++ [idx] }
    | none => st
  else
    match _parse_field line with
    | some field => { st with fields := st.fields ++ [field] }
    | none => st

/-- `SQLParser._parse_table_definition`. -/
def _parse_table_definition (table_def : String) : ParseState :=
  let lines := ((pySplit '\n' table_def).filter (fun l => pyStrip l != "")).map
    (fun l => pyRstripChar ',' (pyStrip l))
  lines.foldl procLine {}

/-- Union of the field names of the `normal`-typed indexes
(the `index_fields` set of `_classify_fields`). -/
def normalIndexFields (indexes : List IndexSpec) : List String :=
  ((indexes.filter (fun idx => idx.type == "normal")).map (fun idx => idx.fields)).flatten

/-- `SQLParser._classify_fields` (returns key, value, status). -/
def _classify_fields (fields : List Field) (indexes : List IndexSpec) :
    List Field × List Field × List Field :=
  let index_fields := normalIndexFields indexes
  let key_fields := fields.filter (fun f => index_fields.contains f.name)
  let value_fields := fields.filter (fun f => !index_fields.contains f.name)
  (key_fields, value_fields, [])

/-- Table-name extraction step of `parse_create_table` (line 31). -/
def extractTableName (sql : String) : Option String :=
  match reSearch P_tableName sql with
  | none => none
  | some caps => some ((capStr caps 1).getD "")

/-- Body/table-comment extraction step of `parse_create_table`
(lines 37-49): the comment-bearing pattern first, then the fallback. -/
def extractBody (sql : String) : Option (String × String) :=
  match reSearch P_tableDef sql with
  | some caps => some ((capStr caps 1).getD "", (capStr caps 3).getD "")
  | none =>
    match reSearch P_tableDefFallback sql with
    | none => none
    | some caps => some ((capStr caps 1).getD "", "")

/-- `SQLParser.parse_create_table`. -/
def parse_create_table (sql : String) : Except String TableConfig :=
  match extractTableName sql with
  | none => .error "无法解析表名"
  | some table_name =>
    match extractBody sql with
    | none => .error "无法解析表定义"
    | some (table_def, table_comment) =>
      let st := _parse_table_definition table_def
      let pk_set :=
        match st.pk_info with
        | some pk => pk.fields
        | none => []
      let id_fields := st.fields.filter (fun f => pk_set.contains f.name)
      let non_id_fields := st.fields.filter (fun f => !pk_set.contains f.name)
      let (key_fields, value_fields, status_fields) := _classify_fields non_id_fields st.indexes
      .ok {
        table_name := table_name
        table_comment := table_comment
        id_fields := id_fields
        key_fields := key_fields
        value_fields := value_fields
        status_fields := status_fields
        unique_keys := st.unique_keys
        indexes := st.indexes
        primary_key := st.pk_info }

end SQLParser

/-- `sql_to_ddl` (module-level function of `sql_to_ddl.py`). -/
def sql_to_ddl (sql : String) : Except String TableConfig :=
  SQLParser.parse_create_table sql

/-! ## Helper lemmas -/

lemma convert_enum (f : Field) (h : f.type = "enum") :
    _convert_type f = EnumTypeHandler.convert f := by
  unfold _convert_type TypeRegistry.convert
  rw [h]
  rfl

lemma convert_int (f : Field) (h : f.type = "int") :
    _convert_type f = IntTypeHandler.convert f := by
  unfold _convert_type TypeRegistry.convert
  rw [h]
  rfl

lemma convert_bigint (f : Field) (h : f.type = "bigint") :
    _convert_type f = BigIntTypeHandler.convert f := by
  unfold _convert_type TypeRegistry.convert
  rw [h]
  rfl

lemma convert_smallint (f : Field) (h : f.type = "smallint") :
    _convert_type f = SmallIntTypeHandler.convert f := by
  unfold _convert_type TypeRegistry.convert
  rw [h]
  rfl

lemma convert_tinyint (f : Field) (h : f.type = "tinyint") :
    _convert_type f = TinyIntTypeHandler.convert f := by
  unfold _convert_type TypeRegistry.convert
  rw [h]
  rfl

lemma convert_string (f : Field) (h : f.type = "string") :
    _convert_type f = StringTypeHandler.convert f := by
  unfold _convert_type TypeRegistry.convert
  rw [h]
  rfl

lemma enum_convert_eval (f : Field) (vs : List String) (hv : f.enum_values = some vs)
    (hne : vs ≠ []) :
    EnumTypeHandler.convert f =
      (if vs.length ≤ 255 then .ok "tinyint"
        else if vs.length ≤ 65535 then .ok "smallint"
        else if vs.length ≤ 16777215 then .ok "mediumint" else .ok "int") := by
  unfold EnumTypeHandler.convert
  rw [hv]
  cases vs with
  | nil => exact absurd rfl hne
  | cons a l => rfl

lemma format_error_of_convert_error (f : Field) (q : Bool) (e : String)
    (h : _convert_type f = .error e) : _format_field f q = .error e := by
  unfold _format_field _field_type_with_unsigned
  rw [h]

lemma formatAll_error_of_mem (q : Bool) (l : List Field) (f : Field) (e : String)
    (hm : f ∈ l) (h : _format_field f q = .error e) :
    ∃ e2, formatAll q l = .error e2 := by
  induction l with
  | nil => cases hm
  | cons g rest ih =>
    rcases List.mem_cons.mp hm with rfl | hm2
    · exact ⟨e, by unfold formatAll; rw [h]⟩
    · cases hg : _format_field g q with
      | error e3 => exact ⟨e3, by unfold formatAll; rw [hg]⟩
      | ok s =>
        obtain ⟨e2, h2⟩ := ih hm2
        exact ⟨e2, by unfold formatAll; rw [hg, h2]⟩

lemma ddl_error_of_field_error (tc : TableConfig) (q : Bool) (f : Field) (e : String)
    (hm : f ∈ all_field_list tc) (h : _convert_type f = .error e) :
    ∀ out, ddl_to_sql tc q ≠ .ok out := by
  intro out h0
  simp only [ddl_to_sql] at h0
  cases hv : validateFields tc.table_name (all_field_list tc) [] with
  | error e2 => rw [hv] at h0; exact Except.noConfusion h0
  | ok u =>
    rw [hv] at h0
    obtain ⟨e2, h2⟩ :=
      formatAll_error_of_mem q _ f e hm (format_error_of_convert_error f q e h)
    rw [h2] at h0
    exact Except.noConfusion h0

lemma isPrefixList_append_self (s t : List Char) : isPrefixList s (s ++ t) = true := by
  induction s with
  | nil => rfl
  | cons c rest ih => simp [isPrefixList, ih]

lemma containsSubL_nil (b : List Char) : containsSubL [] b = true := by
  cases b <;> simp [containsSubL, isPrefixList]

lemma containsSubL_here (pat b : List Char) : containsSubL pat (pat ++ b) = true := by
  cases pat with
  | nil => exact containsSubL_nil b
  | cons p ps =>
    show containsSubL (p :: ps) (p :: (ps ++ b)) = true
    unfold containsSubL
    rw [show p :: (ps ++ b) = (p :: ps) ++ b from rfl, isPrefixList_append_self]
    simp

lemma containsSubL_append (pat a b : List Char) :
    containsSubL pat (a ++ pat ++ b) = true := by
  rw [List.append_assoc]
  induction a with
  | nil => simpa using containsSubL_here pat b
  | cons c rest ih =>
    show containsSubL pat (c :: (rest ++ (pat ++ b))) = true
    unfold containsSubL
    rw [ih]
    simp

/-! ## Concrete example records used by counterexamples and witnesses -/

/-- An enum column with a single enum value. -/
def enumField1 : Field := { name := "e", type := "enum", enum_values := some ["a"] }

/-- An `int` column lacking `length`. -/
def fIntNoLen : Field := { name := "c", type := "int" }

/-- A table containing `fIntNoLen`; its name `tbl` does not occur in the
resulting error message. -/
def tcC7 : TableConfig := { table_name := "tbl", value_fields := [fIntNoLen] }

/-- A non-numeric (text) column with the unsigned flag set. -/
def fTextUnsigned : Field := { name := "c", type := "text", unsigned := some true }

/-- Column whose comment contains a single quote. -/
def fC4 : Field := { name := "c", type := "int", length := some 11, comment := some "it's" }

/-- Integer columns with digit-string and non-digit string defaults. -/
def fDef5 : Field := { name := "c", type := "int", length := some 11, default := some (.str "5") }

def fDefAbc : Field :=
  { name := "c", type := "int", length := some 11, default := some (.str "abc") }

/-! ## Claims -/

/-- C2: for an enum column, the rendered integer keyword is determined
exactly by the cardinality of `enum_values` — ≤255 `tinyint`, 256..65535
`smallint`, 65536..16777215 `mediumint`, ≥16777216 `int` (the source
renders the keywords in lower case) — and an enum column with empty or
absent `enum_values` fails with the MissingParameter error
`枚举类型字段必须指定枚举值`. -/
theorem enum_sizing_C2 (f : Field) (h : f.type = "enum") :
    ((f.enum_values = none ∨ f.enum_values = some []) →
      _convert_type f = .error "枚举类型字段必须指定枚举值") ∧
    (∀ vs : List String, f.enum_values = some vs → vs ≠ [] →
      (vs.length ≤ 255 → _convert_type f = .ok "tinyint") ∧
      (256 ≤ vs.length → vs.length ≤ 65535 → _convert_type f = .ok "smallint") ∧
      (65536 ≤ vs.length → vs.length ≤ 16777215 → _convert_type f = .ok "mediumint") ∧
      (16777216 ≤ vs.length → _convert_type f = .ok "int")) := by
  rw [convert_enum f h]
  constructor
  · rintro (h0 | h0) <;> unfold EnumTypeHandler.convert <;> rw [h0] <;> rfl
  · intro vs hvs hne
    rw [enum_convert_eval f vs hvs hne]
    refine ⟨fun h1 => ?_, fun h1 h2 => ?_, fun h1 h2 => ?_, fun h1 => ?_⟩
    · rw [if_pos h1]
    · rw [if_neg (by omega), if_pos h2]
    · rw [if_neg (by omega), if_neg (by omega), if_pos h2]
    · rw [if_neg (by omega), if_neg (by omega), if_neg (by omega)]

/-- Witness for C2 at a concrete enum column with one value. -/
theorem enum_sizing_C2_witness : _convert_type enumField1 = .ok "tinyint" :=
  ((enum_sizing_C2 enumField1 rfl).2 ["a"] rfl (by decide)).1 (by decide)

/-- C4 (actual behaviour at the claimed round trip): the serializer does
render the comment `it's` with the quote backslash-escaped
(`COMMENT 'it\'s'`), but parsing the rendered field line recovers the
comment `it\` (the lazy `.*?` of the comment group stops at the first
quote, so the backslash escape is never undone), not `it's`. -/
theorem comment_roundtrip_C4 :
    _format_field fC4 true = .ok "`c` int(11) COMMENT 'it\\'s'" ∧
    SQLParser._parse_field "`c` int(11) COMMENT 'it\\'s'" =
      some { name := "c", type := "int", length := some 11, comment := some "it\\" } ∧
    (SQLParser._parse_field "`c` int(11) COMMENT 'it\\'s'").map Field.comment ≠
      some (some "it's") := by
  refine ⟨by decide, by decide, by decide⟩

/-- C5 counterexample: a non-numeric (`text`) column with the unsigned
flag set does receive the ` unsigned` qualifier, contradicting the claim
that only numeric columns do. -/
theorem unsigned_rendering_C5_cex :
    fTextUnsigned.type = "text" ∧
    _format_field fTextUnsigned true = .ok "`c` text unsigned" := by
  refine ⟨rfl, by decide⟩

/-- C5 as amended: the serializer appends the ` unsigned` qualifier to
the converted type exactly when the column's unsigned flag is set,
regardless of the column's type. -/
theorem unsigned_rendering_C5 (f : Field) (ct : String) (h : _convert_type f = .ok ct) :
    _field_type_with_unsigned f =
      .ok (if f.unsigned.getD false then ct ++ " unsigned" else ct) := by
  unfold _field_type_with_unsigned
  rw [h]

/-- Witness for amended C5 at the concrete text column. -/
theorem unsigned_rendering_C5_witness :
    _field_type_with_unsigned fTextUnsigned =
      .ok (if fTextUnsigned.unsigned.getD false then "text" ++ " unsigned" else "text") :=
  unsigned_rendering_C5 fTextUnsigned "text" (by decide)

/-- C7 counterexample: rendering a table `tbl` with an `int` column `c`
lacking `length` fails with the MissingParameter message, but that
message names only the field, not the table (`tbl` does not occur in it). -/
theorem missing_params_C7_cex :
    ddl_to_sql tcC7 true = .error "解析字段 c 时未指定 length" ∧
    containsSub "tbl" "解析字段 c 时未指定 length" = false := by
  refine ⟨by decide, by decide⟩

/-- C7 as amended: an integer-family column lacking `length` and a string
column lacking `max_length` fail at render time with a MissingParameter
error naming the field (not the table), and no DDL text is produced for
any table containing such a column. -/
theorem missing_params_C7 :
    (∀ f : Field,
      (f.type = "int" ∨ f.type = "bigint" ∨ f.type = "smallint" ∨ f.type = "tinyint") →
      f.length = none →
      _convert_type f = .error ("解析字段 " ++ f.name ++ " 时未指定 length") ∧
      containsSub f.name ("解析字段 " ++ f.name ++ " 时未指定 length") = true) ∧
    (∀ f : Field, f.type = "string" → f.max_length = none →
      _convert_type f = .error ("解析字段 " ++ f.name ++ " 时未指定 max_length") ∧
      containsSub f.name ("解析字段 " ++ f.name ++ " 时未指定 max_length") = true) ∧
    (∀ (tc : TableConfig) (q : Bool) (f : Field) (e : String),
      f ∈ all_field_list tc → _convert_type f = .error e →
      ∀ out, ddl_to_sql tc q ≠ .ok out) := by
  refine ⟨?_, ?_, ddl_error_of_field_error⟩
  · intro f ht hl
    constructor
    · rcases ht with h | h | h | h
      · rw [convert_int f h]; unfold IntTypeHandler.convert; rw [hl]
      · rw [convert_bigint f h]; unfold BigIntTypeHandler.convert; rw [hl]
      · rw [convert_smallint f h]; unfold SmallIntTypeHandler.convert; rw [hl]
      · rw [convert_tinyint f h]; unfold TinyIntTypeHandler.convert; rw [hl]
    · show containsSubL _ _ = true
      have : ("解析字段 " ++ f.name ++ " 时未指定 length").data =
          "解析字段 ".data ++ f.name.data ++ " 时未指定 length".data := by
        simp [String.data_append]
      rw [this]
      exact containsSubL_append _ _ _
  · intro f ht hl
    constructor
    · rw [convert_string f ht]; unfold StringTypeHandler.convert; rw [hl]
    · show containsSubL _ _ = true
      have : ("解析字段 " ++ f.name ++ " 时未指定 max_length").data =
          "解析字段 ".data ++ f.name.data ++ " 时未指定 max_length".data := by
        simp [String.data_append]
      rw [this]
      exact containsSubL_append _ _ _

/-- Witness for amended C7 at the concrete int column / table. -/
theorem missing_params_C7_witness :
    _convert_type fIntNoLen = .error ("解析字段 " ++ "c" ++ " 时未指定 length") ∧
    ddl_to_sql tcC7 true ≠ .ok "" := by
  constructor
  · exact (missing_params_C7.1 fIntNoLen (Or.inl rfl) rfl).1
  · exact missing_params_C7.2.2 tcC7 true fIntNoLen ("解析字段 " ++ "c" ++ " 时未指定 length")
      (by decide) ((missing_params_C7.1 fIntNoLen (Or.inl rfl) rfl).1) ""

/-- C9: a string default renders single-quoted unless it consists
entirely of digits; in particular default `"5"` renders as `DEFAULT 5`
and `"abc"` as `DEFAULT 'abc'` (shown on full rendered field lines). -/
theorem default_quoting_C9 :
    (∀ s : String,
      (pyIsdigit s = true → _default_clause (some (.str s)) = " DEFAULT " ++ s) ∧
      (pyIsdigit s = false → _default_clause (some (.str s)) = " DEFAULT '" ++ s ++ "'")) ∧
    _format_field fDef5 true = .ok "`c` int(11) DEFAULT 5" ∧
    _format_field fDefAbc true = .ok "`c` int(11) DEFAULT 'abc'" := by
  refine ⟨?_, by decide, by decide⟩
  intro s
  constructor <;> intro h <;> simp only [_default_clause] <;> rw [h] <;> rfl

/-- Witness for C9 at the digit-string default `"5"`. -/
theorem default_quoting_C9_witness :
    pyIsdigit "5" = true ∧ _default_clause (some (.str "5")) = " DEFAULT " ++ "5" :=
  ⟨by decide, (default_quoting_C9.1 "5").1 (by decide)⟩

/-! ## C3: field classification -/

/-- Concrete DDL statement and its expected parse, used as C3's witness. -/
def sqlC3 : String :=
  "CREATE TABLE t (\n  `a` int(3),\n  `b` date,\n  PRIMARY KEY (`a`),\n  KEY `k1` (`b`)\n);"

def cfgC3 : TableConfig :=
  { table_name := "t"
    table_comment := ""
    id_fields := [{ name := "a", type := "int", length := some 3, comment := some "" }]
    key_fields := [{ name := "b", type := "date", comment := some "" }]
    value_fields := []
    status_fields := []
    primary_key := some { fields := ["a"], type := "primary", index_type := "" }
    unique_keys := []
    indexes := [{ name := "k1", fields := ["b"], type := "normal", comment := "" }] }

/-- C3: whenever a CREATE TABLE statement parses, the columns referenced
by the primary key (in declaration order) form `id_fields`; of the
remaining columns, those referenced by a normal (non-unique) index form
`key_fields`; the rest form `value_fields`; and `status_fields` is always
empty. -/
theorem field_classification_C3 (sql : String) (cfg : TableConfig)
    (h : sql_to_ddl sql = .ok cfg) :
    ∃ body tcmt, SQLParser.extractBody sql = some (body, tcmt) ∧
      (let st := SQLParser._parse_table_definition body
      let pk_set :=
        match st.pk_info with
        | some pk => pk.fields
        | none => []
      let non_id := st.fields.filter (fun f => !pk_set.contains f.name)
      cfg.id_fields = st.fields.filter (fun f => pk_set.contains f.name) ∧
      cfg.key_fields =
        non_id.filter (fun f => (SQLParser.normalIndexFields st.indexes).contains f.name) ∧
      cfg.value_fields =
        non_id.filter (fun f => !(SQLParser.normalIndexFields st.indexes).contains f.name) ∧
      cfg.status_fields = []) := by
  unfold sql_to_ddl SQLParser.parse_create_table at h
  cases hn : SQLParser.extractTableName sql with
  | none => rw [hn] at h; exact Except.noConfusion h
  | some nm =>
    rw [hn] at h
    cases hb : SQLParser.extractBody sql with
    | none => rw [hb] at h; exact Except.noConfusion h
    | some bt =>
      obtain ⟨body, tcmt⟩ := bt
      rw [hb] at h
      refine ⟨body, tcmt, rfl, ?_⟩
      simp only [SQLParser._classify_fields] at h
      have hcfg := (Except.ok.injEq _ _).mp h
      subst hcfg
      exact ⟨rfl, rfl, rfl, rfl⟩

/-- Witness for C3 at the concrete statement `sqlC3`. -/
theorem field_classification_C3_witness :
    sql_to_ddl sqlC3 = .ok cfgC3 ∧
    (∃ body tcmt, SQLParser.extractBody sqlC3 = some (body, tcmt) ∧
      (let st := SQLParser._parse_table_definition body
      let pk_set :=
        match st.pk_info with
        | some pk => pk.fields
        | none => []
      let non_id := st.fields.filter (fun f => !pk_set.contains f.name)
      cfgC3.id_fields = st.fields.filter (fun f => pk_set.contains f.name) ∧
      cfgC3.key_fields =
        non_id.filter (fun f => (SQLParser.normalIndexFields st.indexes).contains f.name) ∧
      cfgC3.value_fields =
        non_id.filter (fun f => !(SQLParser.normalIndexFields st.indexes).contains f.name) ∧
      cfgC3.status_fields = [])) :=
  ⟨by decide, field_classification_C3 sqlC3 cfgC3 (by decide)⟩

/-! ## C6: identifier quoting -/

/-- A table with a unique key, showing which identifiers get backticks. -/
def tcC6 : TableConfig :=
  { table_name := "t"
    value_fields := [{ name := "v", type := "text" }]
    unique_keys := [{ name := "uk1", fields := ["v"] }] }

/-- C6 counterexample: with quoting on, the rendered DDL backticks the
column name `v` but neither the table name `t` nor the unique-key name
`uk1`, contradicting the claimed uniform application. -/
theorem identifier_quoting_C6_cex :
    ddl_to_sql tcC6 true =
      .ok "create table t (\n    `v` text,\n    UNIQUE KEY uk1 (`v`)\n);" ∧
    containsSub "`t`" "create table t (\n    `v` text,\n    UNIQUE KEY uk1 (`v`)\n);" = false ∧
    containsSub "`uk1`" "create table t (\n    `v` text,\n    UNIQUE KEY uk1 (`v`)\n);" = false ∧
    containsSub "`v`" "create table t (\n    `v` text,\n    UNIQUE KEY uk1 (`v`)\n);" = true := by
  refine ⟨by decide, by decide, by decide, by decide⟩

/-- C6 as amended: the quoting switch backticks column names (in field
definitions and in primary/unique/index field lists) and index names, but
the table name and unique-key names are rendered verbatim in either mode;
with the switch off nothing is backticked. -/
theorem identifier_quoting_C6 :
    (∀ n : String, headerLine n = "create table " ++ n ++ " (") ∧
    (∀ (q : Bool) (f : String), quoteName q f = if q then "`" ++ f ++ "`" else f) ∧
    (∀ (q : Bool) (pk : PrimaryKey), pk.fields.isEmpty = false →
      pkLines q (some pk) =
        ["    PRIMARY KEY (" ++ joinSep ", " (pk.fields.map (quoteName q)) ++ ")" ++
          (if pk.index_type != "" then " USING " ++ pyUpper pk.index_type else "") ++ ","]) ∧
    (∀ (q : Bool) (uk : UniqueKey),
      ukLine q uk = "    UNIQUE KEY " ++ uk.name ++ " (" ++
        joinSep ", " (uk.fields.map (quoteName q)) ++ "),") ∧
    (∀ (q : Bool) (idx : IndexSpec), ∃ rest,
      indexLine q idx = "    KEY " ++ (if q then "`" ++ idx.name ++ "`" else idx.name) ++
        " (" ++ joinSep ", " (idx.fields.map (quoteName q)) ++ ")" ++ rest) ∧
    (∀ (f : Field) (q : Bool) (s : String), _format_field f q = .ok s →
      ∃ rest, s = (if q then "`" ++ f.name ++ "`" else f.name) ++ " " ++ rest) := by
  refine ⟨fun n => rfl, fun q f => rfl, ?_, fun q uk => rfl, ?_, ?_⟩
  · intro q pk hne
    simp only [pkLines, hne, Bool.false_eq_true, if_false]
    by_cases hu : (pk.index_type != "") = true
    · rw [if_pos hu, if_pos hu]
      refine congrArg (fun s => [s]) ?_
      apply String.ext
      simp [String.data_append]
    · rw [if_neg hu, if_neg hu]
      refine congrArg (fun s => [s]) ?_
      apply String.ext
      simp [String.data_append]
  · intro q idx
    refine ⟨(if idx.comment != "" then
        " COMMENT '" ++ pyReplace idx.comment "'" "\\'" ++ "'" else "") ++ ",", ?_⟩
    simp only [indexLine]
    by_cases hc : (idx.comment != "") = true
    · rw [if_pos hc, if_pos hc]
      simp only [String.append_assoc]
    · rw [if_neg hc, if_neg hc]
      simp only [String.empty_append, String.append_empty, String.append_assoc]
  · intro f q s h
    unfold _format_field at h
    cases ht : _field_type_with_unsigned f with
    | error e => rw [ht] at h; exact Except.noConfusion h
    | ok ft =>
      rw [ht] at h
      have hs := (Except.ok.injEq _ _).mp h
      subst hs
      refine ⟨ft ++ (if f.not_null.getD false || f.required.getD false then " NOT NULL" else "") ++
        (if f.auto_increment.getD false then " AUTO_INCREMENT" else "") ++
        _default_clause f.default ++
        (if pyReplace (f.comment.getD "") "'" "\\'" != "" then
          " COMMENT '" ++ pyReplace (f.comment.getD "") "'" "\\'" ++ "'" else ""), ?_⟩
      by_cases h1 : (f.not_null.getD false || f.required.getD false) = true <;>
        by_cases h2 : f.auto_increment.getD false = true <;>
        by_cases h3 : (pyReplace (f.comment.getD "") "'" "\\'" != "") = true <;>
        simp [h1, h2, h3, String.append_assoc]

/-- Witness for amended C6 at concrete inputs. -/
theorem identifier_quoting_C6_witness :
    headerLine "t" = "create table " ++ "t" ++ " (" ∧
    ((⟨["id"], "primary", ""⟩ : PrimaryKey).fields.isEmpty = false ∧
      pkLines true (some ⟨["id"], "primary", ""⟩) = ["    PRIMARY KEY (`id`),"]) ∧
    (∃ rest, "`c` text unsigned" =
      (if true then "`" ++ fTextUnsigned.name ++ "`" else fTextUnsigned.name) ++ " " ++ rest) :=
  ⟨identifier_quoting_C6.1 "t",
   ⟨by decide,
    (identifier_quoting_C6.2.2.1 true ⟨["id"], "primary", ""⟩ (by decide)).trans (by decide)⟩,
   identifier_quoting_C6.2.2.2.2.2 fTextUnsigned true "`c` text unsigned" (by decide)⟩

/-! ## C8: duplicate and invalid-identifier detection -/

/-- The Boolean "bad name" test of line 223 of `ddl_to_sql.py`. -/
def badName (n : String) : Bool := n == "" || !(pyIsIdentifier n)

lemma validate_dup_aux (t : String) (l : List Field) :
    ∀ seen : List String, (∀ f ∈ l, badName f.name = false) →
    (¬ (l.map Field.name).Nodup ∨ ∃ n ∈ l.map Field.name, n ∈ seen) →
    ∃ n, n ∈ l.map Field.name ∧
      validateFields t l seen =
        .error ("字段 '" ++ n ++ "' 在表 '" ++ t ++ "' 中重复定义") ∧
      (2 ≤ (l.map Field.name).count n ∨ n ∈ seen) := by
  induction l with
  | nil =>
    intro seen hgood hdup
    rcases hdup with hd | ⟨n, hn, _⟩
    · exact absurd List.nodup_nil hd
    · simp at hn
  | cons f rest ih =>
    intro seen hgood hdup
    have hbad : (f.name == "" || !(pyIsIdentifier f.name)) = false :=
      hgood f (List.mem_cons_self f rest)
    simp only [validateFields]
    rw [hbad]
    simp only [Bool.false_eq_true, if_false]
    by_cases hseen : seen.contains f.name
    · exact ⟨f.name, by simp, by rw [if_pos hseen], Or.inr (by simpa using hseen)⟩
    · rw [if_neg hseen]
      have hseen2 : f.name ∉ seen := by simpa using hseen
      have hrec : (¬ (rest.map Field.name).Nodup ∨
          ∃ n ∈ rest.map Field.name, n ∈ f.name :: seen) := by
        rcases hdup with hd | ⟨n, hn, hns⟩
        · by_cases hmem : f.name ∈ rest.map Field.name
          · exact Or.inr ⟨f.name, hmem, List.mem_cons_self _ _⟩
          · refine Or.inl (fun hnd => hd ?_)
            simpa using List.Nodup.cons hmem hnd
        · rcases (by simpa using hn : n = f.name ∨ n ∈ rest.map Field.name) with heq | hmem
          · exact absurd (heq ▸ hns) hseen2
          · exact Or.inr ⟨n, hmem, List.mem_cons_of_mem _ hns⟩
      obtain ⟨n, hmem, hval, hcnt⟩ :=
        ih (f.name :: seen) (fun g hg => hgood g (List.mem_cons_of_mem _ hg)) hrec
      refine ⟨n, by simp [hmem], hval, ?_⟩
      rcases hcnt with hc | hc
      · left
        have hle : (rest.map Field.name).count n ≤ ((f :: rest).map Field.name).count n := by
          simp only [List.map_cons, List.count_cons]
          by_cases hnb : (n == f.name) = true <;> simp [hnb]
        omega
      · rcases List.mem_cons.mp hc with heq | hs
        · subst heq
          left
          have h1 : 0 < (rest.map Field.name).count f.name := List.count_pos_iff.mpr hmem
          simp only [List.map_cons, List.count_cons_self]
          omega
        · exact Or.inr hs

lemma validate_invalid_aux (t : String) (l : List Field) :
    ∀ seen : List String, (∀ n ∈ l.map Field.name, n ∉ seen) →
    (l.map Field.name).Nodup → (∃ f ∈ l, badName f.name = true) →
    ∃ n, badName n = true ∧ validateFields t l seen =
      .error ("字段名 '" ++ n ++ "' 在表 '" ++ t ++ "' 中不符合规范") := by
  induction l with
  | nil =>
    intro seen _ _ hbad
    obtain ⟨f, hf, _⟩ := hbad
    cases hf
  | cons f rest ih =>
    intro seen hns hnd hbad
    by_cases hb : badName f.name = true
    · refine ⟨f.name, hb, ?_⟩
      have hb2 : (f.name == "" || !(pyIsIdentifier f.name)) = true := hb
      simp only [validateFields]
      rw [hb2, if_pos rfl]
    · have hb2 : (f.name == "" || !(pyIsIdentifier f.name)) = false := by
        have : badName f.name = false := by
          cases hbn : badName f.name with
          | true => exact absurd hbn hb
          | false => rfl
        exact this
      simp only [validateFields]
      rw [hb2]
      simp only [Bool.false_eq_true, if_false]
      have hfs : ¬ seen.contains f.name = true := by
        have := hns f.name (by simp)
        simpa using this
      rw [if_neg hfs]
      have hnd2 : f.name ∉ rest.map Field.name ∧ (rest.map Field.name).Nodup := by
        simpa [List.nodup_cons] using hnd
      apply ih
      · intro n hn hmem
        rcases List.mem_cons.mp hmem with heq | hseen
        · exact hnd2.1 (heq ▸ hn)
        · exact hns n (by simp [hn]) hseen
      · exact hnd2.2
      · obtain ⟨g, hg, hgb⟩ := hbad
        rcases List.mem_cons.mp hg with heq | hmem
        · exact absurd (heq ▸ hgb) hb
        · exact ⟨g, hmem, hgb⟩

/-- The table with two identically-named (valid) columns. -/
def tcDup : TableConfig :=
  { table_name := "t"
    value_fields := [{ name := "x", type := "text" }, { name := "x", type := "date" }] }

/-- The table with one invalid column name. -/
def tcInv : TableConfig :=
  { table_name := "t", value_fields := [{ name := "a b", type := "text" }] }

/-- The table whose duplicated column name is itself invalid. -/
def tcC8 : TableConfig :=
  { table_name := "t"
    value_fields := [{ name := "a b", type := "text" }, { name := "a b", type := "date" }] }

/-- C8 counterexample: when the duplicated column name is not a valid
identifier, rendering fails with the InvalidIdentifier message, not the
DuplicateField one — the invalidity check runs first at each field. -/
theorem duplicate_detection_C8_cex :
    ddl_to_sql tcC8 true = .error "字段名 'a b' 在表 't' 中不符合规范" ∧
    ddl_to_sql tcC8 true ≠ .error "字段 'a b' 在表 't' 中重复定义" := by
  refine ⟨by decide, by decide⟩

/-- C8 as amended: fields are checked left to right with the
invalid-identifier test before the duplicate test; when every name in
the concatenation is a valid identifier, a duplicated name fails with
DuplicateField naming the table and the field, and when the names are
pairwise distinct, an empty/invalid name fails with InvalidIdentifier
naming the table and the field. -/
theorem duplicate_detection_C8 :
    (∀ (tc : TableConfig) (q : Bool),
      (∀ f ∈ all_field_list tc, badName f.name = false) →
      ¬ ((all_field_list tc).map Field.name).Nodup →
      ∃ n, 2 ≤ ((all_field_list tc).map Field.name).count n ∧
        ddl_to_sql tc q =
          .error ("字段 '" ++ n ++ "' 在表 '" ++ tc.table_name ++ "' 中重复定义")) ∧
    (∀ (tc : TableConfig) (q : Bool),
      ((all_field_list tc).map Field.name).Nodup →
      (∃ f ∈ all_field_list tc, badName f.name = true) →
      ∃ n, badName n = true ∧
        ddl_to_sql tc q =
          .error ("字段名 '" ++ n ++ "' 在表 '" ++ tc.table_name ++ "' 中不符合规范")) := by
  constructor
  · intro tc q hgood hdup
    obtain ⟨n, hmem, hval, hcnt⟩ :=
      validate_dup_aux tc.table_name (all_field_list tc) [] hgood (Or.inl hdup)
    refine ⟨n, ?_, ?_⟩
    · rcases hcnt with hc | hc
      · exact hc
      · cases hc
    · simp only [ddl_to_sql, hval]
  · intro tc q hnd hbad
    obtain ⟨n, hb, hval⟩ := validate_invalid_aux tc.table_name (all_field_list tc) []
      (fun n _ hmem => (List.not_mem_nil n) hmem) hnd hbad
    exact ⟨n, hb, by simp only [ddl_to_sql, hval]⟩

/-- Witness for amended C8 at the two concrete tables. -/
theorem duplicate_detection_C8_witness :
    (∃ n, 2 ≤ ((all_field_list tcDup).map Field.name).count n ∧
      ddl_to_sql tcDup true =
        .error ("字段 '" ++ n ++ "' 在表 '" ++ tcDup.table_name ++ "' 中重复定义")) ∧
    (∃ n, badName n = true ∧
      ddl_to_sql tcInv true =
        .error ("字段名 '" ++ n ++ "' 在表 '" ++ tcInv.table_name ++ "' 中不符合规范")) :=
  ⟨duplicate_detection_C8.1 tcDup true (by decide) (by decide),
   duplicate_detection_C8.2 tcInv true (by decide) (by decide)⟩

/-! ## C10: parser failure modes and permissiveness -/

/-- A table with one enum column: the serializer renders it (an accepted,
emitted statement shape), but parsing the rendered text yields a
`tinyint` column, not the original enum column. -/
def tcC1 : TableConfig :=
  { table_name := "t"
    value_fields := [{ name := "e", type := "enum", enum_values := some ["a"],
                       comment := some "" }] }

/-- What the round trip actually produces for `tcC1`. -/
def tcC1round : TableConfig :=
  { table_name := "t"
    value_fields := [{ name := "e", type := "tinyint", comment := some "" }] }

/-- C1 counterexample: for the enum table `tcC1` the serializer succeeds,
yet parsing the rendered text returns a different schema (the enum column
comes back as `tinyint` without its `enum_values`), so
`sql_to_ddl (ddl_to_sql S) = S` fails within the claimed subset. -/
theorem roundtrip_C1_cex :
    ddl_to_sql tcC1 true = .ok "create table t (\n    `e` tinyint\n);" ∧
    (ddl_to_sql tcC1 true).bind sql_to_ddl = .ok tcC1round ∧
    tcC1round ≠ tcC1 ∧
    (ddl_to_sql tcC1 true).bind sql_to_ddl ≠ .ok tcC1 := by
  refine ⟨by decide, by decide, by decide, by decide⟩

/-! ## Engine toolkit: deterministic-path lemmas

The round-trip proof drives the matcher along the unique successful
backtracking path.  Each "hit" lemma advances one pattern piece given
that the remaining continuation succeeds; each "fail" lemma rules a
piece out. -/

/-- The boundary condition of a class run: the next character (if any)
is outside the class. -/
def headNot (p : Char → Bool) : List Char → Prop
  | [] => True
  | c :: _ => p c = false

lemma matchLit_concat (ci : Bool) :
    ∀ (pt t rest : List Char), matchLit ci pt t = some [] →
    matchLit ci pt (t ++ rest) = some rest := by
  intro pt
  induction pt with
  | nil =>
    intro t rest h
    cases t with
    | nil => rfl
    | cons c cs => simp [matchLit] at h
  | cons p ps ih =>
    intro t rest h
    cases t with
    | nil => simp [matchLit] at h
    | cons c cs =>
      simp only [matchLit] at h ⊢
      by_cases hc : charEqCI ci p c = true
      · rw [hc] at h ⊢
        simpa using ih cs rest (by simpa using h)
      · rw [if_neg (by simpa using hc)] at h
        exact Option.noConfusion h

lemma reM_lit_hit (ci : Bool) (pt t rest : List Char) (caps : Caps)
    (k : List Char → Caps → Option Caps) (R : Caps)
    (hm : matchLit ci pt t = some []) (hk : k rest caps = some R) :
    reM (.lit ci pt) (t ++ rest) caps k = some R := by
  simp [reM, matchLit_concat ci pt t rest hm, hk]

lemma reM_cls_hit (p : Char → Bool) (c : Char) (rest : List Char) (caps : Caps)
    (k : List Char → Caps → Option Caps) (R : Caps)
    (hc : p c = true) (hk : k rest caps = some R) :
    reM (.cls p) (c :: rest) caps k = some R := by
  simp [reM, hc, hk]

lemma starGreedy_hit (p : Char → Bool) :
    ∀ (xs : List Char) (fuel : Nat) (rest : List Char) (caps : Caps)
      (k : List Char → Caps → Option Caps) (R : Caps),
    (∀ c ∈ xs, p c = true) → headNot p rest → xs.length ≤ fuel →
    k rest caps = some R → starGreedy p fuel (xs ++ rest) caps k = some R := by
  intro xs
  induction xs with
  | nil =>
    intro fuel rest caps k R _ hstop _ hk
    cases fuel with
    | zero => simpa [starGreedy] using hk
    | succ f =>
      cases rest with
      | nil => simpa [starGreedy] using hk
      | cons c cs =>
        have hpc : p c = false := hstop
        simpa [starGreedy, hpc] using hk
  | cons x xs2 ih =>
    intro fuel rest caps k R hall hstop hlen hk
    cases fuel with
    | zero => simp at hlen
    | succ f =>
      have hx : p x = true := hall x (by simp)
      have hrec := ih f rest caps k R (fun c hc => hall c (by simp [hc])) hstop
        (by simp only [List.length_cons] at hlen; omega) hk
      simp [starGreedy, hx, hrec]

lemma reM_starG_hit (p : Char → Bool) (xs rest : List Char) (caps : Caps)
    (k : List Char → Caps → Option Caps) (R : Caps)
    (hall : ∀ c ∈ xs, p c = true) (hstop : headNot p rest)
    (hk : k rest caps = some R) :
    reM (.starC p false) (xs ++ rest) caps k = some R := by
  simp only [reM, Bool.false_eq_true, if_false]
  exact starGreedy_hit p xs (xs ++ rest).length rest caps k R hall hstop
    (by simp) hk

lemma reM_plusG_hit (p : Char → Bool) (xs rest : List Char) (caps : Caps)
    (k : List Char → Caps → Option Caps) (R : Caps)
    (hall : ∀ c ∈ xs, p c = true) (hne : xs ≠ []) (hstop : headNot p rest)
    (hk : k rest caps = some R) :
    reM (.plusC p false) (xs ++ rest) caps k = some R := by
  cases xs with
  | nil => exact absurd rfl hne
  | cons x xs2 =>
    have hx : p x = true := hall x (by simp)
    simp only [List.cons_append, reM, hx, if_pos, Bool.false_eq_true, if_false]
    exact starGreedy_hit p xs2 (xs2 ++ rest).length rest caps k R
      (fun c hc => hall c (by simp [hc])) hstop (by simp) hk

lemma starLazy_hit (p : Char → Bool) :
    ∀ (xs : List Char) (fuel : Nat) (rest : List Char) (caps : Caps)
      (k : List Char → Caps → Option Caps) (R : Caps),
    (∀ c ∈ xs, p c = true) →
    (∀ i, i < xs.length → k (xs.drop i ++ rest) caps = none) →
    xs.length ≤ fuel → k rest caps = some R →
    starLazy p fuel (xs ++ rest) caps k = some R := by
  intro xs
  induction xs with
  | nil =>
    intro fuel rest caps k R _ _ _ hk
    cases fuel with
    | zero => simpa [starLazy] using hk
    | succ f => simp [starLazy, hk]
  | cons x xs2 ih =>
    intro fuel rest caps k R hall hfail hlen hk
    cases fuel with
    | zero => simp at hlen
    | succ f =>
      have hx : p x = true := hall x (by simp)
      have h0 : k (x :: (xs2 ++ rest)) caps = none := by
        simpa using hfail 0 (by simp)
      have hrec := ih f rest caps k R (fun c hc => hall c (by simp [hc]))
        (fun i hi => by
          have := hfail (i + 1) (by simp only [List.length_cons]; omega)
          simpa using this)
        (by simp only [List.length_cons] at hlen; omega) hk
      show starLazy p (f + 1) (x :: (xs2 ++ rest)) caps k = some R
      simp only [starLazy]
      rw [h0]
      simp [hx, hrec]

lemma reM_starL_hit (p : Char → Bool) (xs rest : List Char) (caps : Caps)
    (k : List Char → Caps → Option Caps) (R : Caps)
    (hall : ∀ c ∈ xs, p c = true)
    (hfail : ∀ i, i < xs.length → k (xs.drop i ++ rest) caps = none)
    (hk : k rest caps = some R) :
    reM (.starC p true) (xs ++ rest) caps k = some R := by
  simp only [reM, if_pos]
  exact starLazy_hit p xs (xs ++ rest).length rest caps k R hall hfail (by simp) hk

lemma reM_plusL_hit (p : Char → Bool) (x : Char) (xs2 rest : List Char) (caps : Caps)
    (k : List Char → Caps → Option Caps) (R : Caps)
    (hall : ∀ c ∈ x :: xs2, p c = true)
    (hfail : ∀ i, i < xs2.length → k (xs2.drop i ++ rest) caps = none)
    (hk : k rest caps = some R) :
    reM (.plusC p true) ((x :: xs2) ++ rest) caps k = some R := by
  have hx : p x = true := hall x (by simp)
  simp only [List.cons_append, reM, hx, if_pos]
  exact starLazy_hit p xs2 (xs2 ++ rest).length rest caps k R
    (fun c hc => hall c (by simp [hc])) hfail (by simp) hk

lemma reM_opt_hit (r : RE) (cs : List Char) (caps : Caps)
    (k : List Char → Caps → Option Caps) (R : Caps)
    (h : reM r cs caps k = some R) : reM (.opt r) cs caps k = some R := by
  simp [reM, h]

lemma reM_opt_skip (r : RE) (cs : List Char) (caps : Caps)
    (k : List Char → Caps → Option Caps) (R : Caps)
    (h : reM r cs caps k = none) (hk : k cs caps = some R) :
    reM (.opt r) cs caps k = some R := by
  simp [reM, h, hk]

lemma reM_alt_left (a b : RE) (cs : List Char) (caps : Caps)
    (k : List Char → Caps → Option Caps) (R : Caps)
    (h : reM a cs caps k = some R) : reM (.alt a b) cs caps k = some R := by
  simp [reM, h]

lemma reM_alt_right (a b : RE) (cs : List Char) (caps : Caps)
    (k : List Char → Caps → Option Caps) (R : Caps)
    (ha : reM a cs caps k = none) (hb : reM b cs caps k = some R) :
    reM (.alt a b) cs caps k = some R := by
  simp [reM, ha, hb]

lemma reM_seq_def (a b : RE) (cs : List Char) (caps : Caps)
    (k : List Char → Caps → Option Caps) :
    reM (.seq a b) cs caps k = reM a cs caps (fun cs2 caps2 => reM b cs2 caps2 k) := rfl

lemma reM_group_def (i : Nat) (r : RE) (cs : List Char) (caps : Caps)
    (k : List Char → Caps → Option Caps) :
    reM (.group i r) cs caps k =
      reM r cs caps (fun cs2 caps2 =>
        k cs2 ((i, cs.take (cs.length - cs2.length)) :: caps2)) := rfl

lemma reM_backref_hit (ci : Bool) (i : Nat) (v t rest : List Char) (caps : Caps)
    (k : List Char → Caps → Option Caps) (R : Caps)
    (hv : capsGet caps i = some v) (hm : matchLit ci v t = some [])
    (hk : k rest caps = some R) :
    reM (.backref ci i) (t ++ rest) caps k = some R := by
  simp [reM, hv, matchLit_concat ci v t rest hm, hk]

/-- Capture length bookkeeping: consuming `xs` from `xs ++ rest` captures
exactly `xs`. -/
lemma take_sub_append (xs rest : List Char) :
    (xs ++ rest).take ((xs ++ rest).length - rest.length) = xs := by
  have h : (xs ++ rest).length - rest.length = xs.length := by simp
  rw [h]
  exact List.take_left xs rest

/-! ## Engine toolkit: failure propagation -/

lemma matchLit_suffix (ci : Bool) :
    ∀ (pt cs rest : List Char), matchLit ci pt cs = some rest → rest <:+ cs := by
  intro pt
  induction pt with
  | nil =>
    intro cs rest h
    simp only [matchLit, Option.some.injEq] at h
    exact h ▸ List.suffix_refl cs
  | cons p ps ih =>
    intro cs rest h
    cases cs with
    | nil => simp [matchLit] at h
    | cons c cs2 =>
      simp only [matchLit] at h
      by_cases hc : charEqCI ci p c = true
      · rw [hc, if_pos rfl] at h
        exact (ih cs2 rest h).trans (List.suffix_cons c cs2)
      · rw [if_neg (by simpa using hc)] at h
        exact Option.noConfusion h

lemma starGreedy_none (p : Char → Bool) :
    ∀ (fuel : Nat) (cs : List Char) (caps : Caps) (k : List Char → Caps → Option Caps),
    (∀ cs2 caps2, cs2 <:+ cs → k cs2 caps2 = none) →
    starGreedy p fuel cs caps k = none := by
  intro fuel
  induction fuel with
  | zero => intro cs caps k h; exact h cs caps (List.suffix_refl cs)
  | succ f ihf =>
    intro cs caps k h
    cases cs with
    | nil => exact h [] caps (List.suffix_refl [])
    | cons c rest =>
      have hrec := ihf rest caps k
        (fun cs2 caps2 hs => h cs2 caps2 (hs.trans (List.suffix_cons c rest)))
      have hor : p c = true ∨ p c = false := by
        cases hpc : p c <;> simp
      rcases hor with hc | hc
      · simp [starGreedy, hc, hrec, h (c :: rest) caps (List.suffix_refl _)]
      · simp [starGreedy, hc, h (c :: rest) caps (List.suffix_refl _)]

lemma starLazy_none (p : Char → Bool) :
    ∀ (fuel : Nat) (cs : List Char) (caps : Caps) (k : List Char → Caps → Option Caps),
    (∀ cs2 caps2, cs2 <:+ cs → k cs2 caps2 = none) →
    starLazy p fuel cs caps k = none := by
  intro fuel
  induction fuel with
  | zero => intro cs caps k h; exact h cs caps (List.suffix_refl cs)
  | succ f ihf =>
    intro cs caps k h
    cases cs with
    | nil => simp [starLazy, h [] caps (List.suffix_refl [])]
    | cons c rest =>
      have hrec := ihf rest caps k
        (fun cs2 caps2 hs => h cs2 caps2 (hs.trans (List.suffix_cons c rest)))
      have hor : p c = true ∨ p c = false := by
        cases hpc : p c <;> simp
      rcases hor with hc | hc
      · simp [starLazy, hc, hrec, h (c :: rest) caps (List.suffix_refl _)]
      · simp [starLazy, hc, h (c :: rest) caps (List.suffix_refl _)]

lemma reM_none_of :
    ∀ (r : RE) (cs : List Char) (caps : Caps) (k : List Char → Caps → Option Caps),
    (∀ cs2 caps2, cs2 <:+ cs → k cs2 caps2 = none) → reM r cs caps k = none := by
  intro r
  induction r with
  | lit ci s =>
    intro cs caps k h
    cases hm : matchLit ci s cs with
    | none => simp [reM, hm]
    | some rest => simp [reM, hm, h rest caps (matchLit_suffix ci s cs rest hm)]
  | cls p =>
    intro cs caps k h
    cases cs with
    | nil => rfl
    | cons c rest =>
      have hor : p c = true ∨ p c = false := by
        cases hpc : p c <;> simp
      rcases hor with hc | hc
      · simp [reM, hc, h rest caps (List.suffix_cons c rest)]
      · simp [reM, hc]
  | starC p lz =>
    intro cs caps k h
    cases lz <;> simp [reM, starGreedy_none p _ cs caps k h, starLazy_none p _ cs caps k h]
  | plusC p lz =>
    intro cs caps k h
    cases cs with
    | nil => cases lz <;> rfl
    | cons c rest =>
      have hrest : ∀ cs2 caps2, cs2 <:+ rest → k cs2 caps2 = none :=
        fun cs2 caps2 hs => h cs2 caps2 (hs.trans (List.suffix_cons c rest))
      have hor : p c = true ∨ p c = false := by
        cases hpc : p c <;> simp
      rcases hor with hc | hc
      · cases lz <;>
          simp [reM, hc, starGreedy_none p _ rest caps k hrest,
            starLazy_none p _ rest caps k hrest]
      · cases lz <;> simp [reM, hc]
  | seq a b iha ihb =>
    intro cs caps k h
    exact iha cs caps _ (fun cs2 caps2 hs =>
      ihb cs2 caps2 k (fun cs3 caps3 hs2 => h cs3 caps3 (hs2.trans hs)))
  | alt a b iha ihb =>
    intro cs caps k h
    simp [reM, iha cs caps k h, ihb cs caps k h]
  | opt r ihr =>
    intro cs caps k h
    simp [reM, ihr cs caps k h, h cs caps (List.suffix_refl cs)]
  | group i r ihr =>
    intro cs caps k h
    exact ihr cs caps _ (fun cs2 caps2 hs => h cs2 _ hs)
  | backref ci i =>
    intro cs caps k h
    cases hv : capsGet caps i with
    | none => simp [reM, hv]
    | some v =>
      cases hm : matchLit ci v cs with
      | none => simp [reM, hv, hm]
      | some rest => simp [reM, hv, hm, h rest caps (matchLit_suffix ci v cs rest hm)]

/-- A sequence fails whenever its right part fails on every suffix. -/
lemma reM_seq_none_right (a b : RE) (cs : List Char) (caps : Caps)
    (k : List Char → Caps → Option Caps)
    (hb : ∀ cs2 caps2, cs2 <:+ cs → reM b cs2 caps2 k = none) :
    reM (.seq a b) cs caps k = none :=
  reM_none_of a cs caps _ (fun cs2 caps2 hs => hb cs2 caps2 hs)

/-- A literal fails on an input whose head does not match its first
character (or on empty input). -/
lemma reM_lit_head_fail (ci : Bool) (c0 : Char) (pt cs : List Char) (caps : Caps)
    (k : List Char → Caps → Option Caps)
    (h : headNot (fun c => charEqCI ci c0 c) cs) :
    reM (.lit ci (c0 :: pt)) cs caps k = none := by
  cases cs with
  | nil => rfl
  | cons c rest =>
    have hc : charEqCI ci c0 c = false := h
    simp [reM, matchLit, hc]

/-! ## Character-level lemmas for case-insensitive comparison -/

lemma toLower_ne_target (c t : Char) (h1 : c ≠ t)
    (h2 : ∀ m : Nat, 97 ≤ m → m ≤ 122 → Char.ofNat m ≠ t) : c.toLower ≠ t := by
  simp only [Char.toLower]
  by_cases hr : c.toNat ≥ 65 ∧ c.toNat ≤ 90
  · rw [if_pos hr]
    exact h2 (c.toNat + 32) (by omega) (by omega)
  · rw [if_neg hr]
    exact h1

lemma charEqCI_false_target (t c : Char) (htl : t.toLower = t)
    (h1 : c ≠ t) (h2 : ∀ m : Nat, 97 ≤ m → m ≤ 122 → Char.ofNat m ≠ t) :
    charEqCI true t c = false := by
  simp only [charEqCI, if_pos]
  rw [htl]
  exact beq_eq_false_iff_ne.mpr fun hEq => (toLower_ne_target c t h1 h2) hEq.symm

lemma ofNat_97_122_ne_eq : ∀ m : Nat, 97 ≤ m → m ≤ 122 → Char.ofNat m ≠ '=' := by
  intro m h1 h2
  interval_cases m <;> decide

lemma ofNat_97_122_ne_lparen : ∀ m : Nat, 97 ≤ m → m ≤ 122 → Char.ofNat m ≠ '(' := by
  intro m h1 h2
  interval_cases m <;> decide

lemma ofNat_97_122_ne_rparen : ∀ m : Nat, 97 ≤ m → m ≤ 122 → Char.ofNat m ≠ ')' := by
  intro m h1 h2
  interval_cases m <;> decide

lemma ofNat_97_122_ne_backtick : ∀ m : Nat, 97 ≤ m → m ≤ 122 → Char.ofNat m ≠ '`' := by
  intro m h1 h2
  interval_cases m <;> decide

lemma ofNat_97_122_ne_squote : ∀ m : Nat, 97 ≤ m → m ≤ 122 → Char.ofNat m ≠ '\'' := by
  intro m h1 h2
  interval_cases m <;> decide

lemma charEqCI_eq_char_false (c : Char) (h1 : c ≠ '=') : charEqCI true '=' c = false :=
  charEqCI_false_target '=' c (by decide) h1 ofNat_97_122_ne_eq

lemma charEqCI_lparen_false (c : Char) (h1 : c ≠ '(') : charEqCI true '(' c = false :=
  charEqCI_false_target '(' c (by decide) h1 ofNat_97_122_ne_lparen

lemma charEqCI_rparen_false (c : Char) (h1 : c ≠ ')') : charEqCI true ')' c = false :=
  charEqCI_false_target ')' c (by decide) h1 ofNat_97_122_ne_rparen

lemma charEqCI_backtick_false (c : Char) (h1 : c ≠ '`') : charEqCI true '`' c = false :=
  charEqCI_false_target '`' c (by decide) h1 ofNat_97_122_ne_backtick

lemma charEqCI_squote_false (c : Char) (h1 : c ≠ '\'') : charEqCI true '\'' c = false :=
  charEqCI_false_target '\'' c (by decide) h1 ofNat_97_122_ne_squote

/-! ## Search lemmas -/

lemma reSearchL_hit (r : RE) (cs : List Char) (R : Caps)
    (h : reM r cs [] (fun _ caps => some caps) = some R) : reSearchL r cs = some R := by
  cases cs with
  | nil => simpa [reSearchL] using h
  | cons c rest => simp [reSearchL, h]

lemma reSearchL_skip (r : RE) :
    ∀ (pre post : List Char),
    (∀ mid, mid ≠ [] → mid <:+ pre →
      reM r (mid ++ post) [] (fun _ caps => some caps) = none) →
    reSearchL r (pre ++ post) = reSearchL r post := by
  intro pre
  induction pre with
  | nil => intro post _; rfl
  | cons c pre2 ih =>
    intro post h
    have h0 : reM r (c :: (pre2 ++ post)) [] (fun _ caps => some caps) = none := by
      simpa using h (c :: pre2) (by simp) (List.suffix_refl _)
    have hrec := ih post (fun mid hne hs =>
      h mid hne (hs.trans (List.suffix_cons c pre2)))
    show reSearchL r (c :: (pre2 ++ post)) = reSearchL r post
    rw [reSearchL, h0]
    exact hrec

lemma reSearchL_none (r : RE) :
    ∀ (cs : List Char),
    (∀ mid, mid <:+ cs → reM r mid [] (fun _ caps => some caps) = none) →
    reSearchL r cs = none := by
  intro cs
  induction cs with
  | nil => intro h; exact h [] (List.suffix_refl [])
  | cons c rest ih =>
    intro h
    have h0 := h (c :: rest) (List.suffix_refl _)
    have hrec := ih (fun mid hs => h mid (hs.trans (List.suffix_cons c rest)))
    simp [reSearchL, h0, hrec]

/-! ## Digit and strip lemmas -/

lemma digitChar_cases (d : Nat) :
    digitChar d = '0' ∨ digitChar d = '1' ∨ digitChar d = '2' ∨ digitChar d = '3' ∨
    digitChar d = '4' ∨ digitChar d = '5' ∨ digitChar d = '6' ∨ digitChar d = '7' ∨
    digitChar d = '8' ∨ digitChar d = '9' := by
  rcases d with _|_|_|_|_|_|_|_|_|d <;> simp [digitChar]

lemma digitChar_fact (P : Char → Bool)
    (h : ∀ c ∈ ("0123456789" : String).data, P c = true) :
    ∀ d, P (digitChar d) = true := by
  intro d
  rcases digitChar_cases d with h0|h0|h0|h0|h0|h0|h0|h0|h0|h0 <;> rw [h0] <;>
    exact h _ (by decide)

lemma digitChar_val (n : Nat) (h : n < 10) : (digitChar n).toNat - 48 = n := by
  interval_cases n <;> decide

lemma decGo_all (P : Char → Bool) (hP : ∀ d, P (digitChar d) = true) :
    ∀ (fuel n : Nat), ∀ c ∈ decGo fuel n, P c = true := by
  intro fuel
  induction fuel with
  | zero => intro n c hc; simp [decGo] at hc
  | succ f ih =>
    intro n c hc
    simp only [decGo] at hc
    by_cases hn : n < 10
    · rw [if_pos hn] at hc
      simp only [List.mem_singleton] at hc
      exact hc ▸ hP n
    · rw [if_neg hn] at hc
      rcases List.mem_append.mp hc with hm | hm
      · exact ih (n / 10) c hm
      · simp only [List.mem_singleton] at hm
        exact hm ▸ hP (n % 10)

lemma decGo_ne_nil (fuel n : Nat) (h : 0 < fuel) : decGo fuel n ≠ [] := by
  cases fuel with
  | zero => omega
  | succ f =>
    simp only [decGo]
    by_cases hn : n < 10
    · rw [if_pos hn]; simp
    · rw [if_neg hn]; simp

lemma natFromDigitsL_append :
    ∀ (xs ys : List Char) (acc : Nat),
    natFromDigitsL (xs ++ ys) acc = natFromDigitsL ys (natFromDigitsL xs acc) := by
  intro xs
  induction xs with
  | nil => intro ys acc; rfl
  | cons c rest ih => intro ys acc; simp [natFromDigitsL, ih]

lemma decGo_correct : ∀ (fuel n : Nat), n < fuel → natFromDigitsL (decGo fuel n) 0 = n := by
  intro fuel
  induction fuel with
  | zero => intro n h; omega
  | succ f ih =>
    intro n h
    simp only [decGo]
    by_cases hn : n < 10
    · rw [if_pos hn]
      simp [natFromDigitsL, digitChar_val n hn]
    · rw [if_neg hn]
      have h1 : n / 10 < f := by
        have h2 : n / 10 < n := Nat.div_lt_self (by omega) (by omega)
        omega
      rw [natFromDigitsL_append, ih (n / 10) h1]
      simp [natFromDigitsL, digitChar_val (n % 10) (Nat.mod_lt n (by omega))]
      omega

lemma lstripP_all_false (p : Char → Bool) (xs : List Char)
    (h : match xs with | [] => True | c :: _ => p c = false) : lstripP p xs = xs := by
  cases xs with
  | nil => rfl
  | cons c rest => simp [lstripP, h]

lemma rstripP_all_false (p : Char → Bool) (xs : List Char)
    (h : match xs.reverse with | [] => True | c :: _ => p c = false) :
    rstripP p xs = xs := by
  unfold rstripP
  rw [lstripP_all_false p xs.reverse h, List.reverse_reverse]

lemma strip_eq_self_of_all (p : Char → Bool) (xs : List Char)
    (h : ∀ c ∈ xs, p c = false) :
    rstripP p (lstripP p xs) = xs := by
  have h1 : lstripP p xs = xs := by
    cases xs with
    | nil => rfl
    | cons c rest => simp [lstripP, h c (by simp)]
  rw [h1]
  apply rstripP_all_false
  cases hr : xs.reverse with
  | nil => trivial
  | cons c rest =>
    have : c ∈ xs := by
      have : c ∈ xs.reverse := by rw [hr]; simp
      simpa using this
    exact h c this

lemma pyStripL_eq_self (xs : List Char) (h : ∀ c ∈ xs, isSpaceChar c = false) :
    pyStripL xs = xs :=
  strip_eq_self_of_all isSpaceChar xs h

lemma lstripP_append_run (p : Char → Bool) :
    ∀ (run xs : List Char), (∀ c ∈ run, p c = true) →
    lstripP p (run ++ xs) = lstripP p xs := by
  intro run
  induction run with
  | nil => intro xs _; rfl
  | cons c rest ih =>
    intro xs h
    simp [lstripP, h c (by simp), ih xs (fun c2 hc => h c2 (by simp [hc]))]

/-- Python `strip` of an indented clause line: removes the indent, keeps
the content whose first and last characters are not whitespace. -/
lemma pyStripL_indent (content : List Char)
    (hhead : match content with | [] => False | c :: _ => isSpaceChar c = false)
    (hlast : match content.reverse with | [] => True | c :: _ => isSpaceChar c = false) :
    pyStripL (("    " : String).data ++ content) = content := by
  unfold pyStripL
  rw [lstripP_append_run isSpaceChar ("    " : String).data content (by decide)]
  cases content with
  | nil => simp at hhead
  | cons c rest =>
    rw [lstripP_all_false isSpaceChar _ hhead]
    exact rstripP_all_false isSpaceChar _ hlast

/-! ## The accepted subset for the round trip -/

/-- Characters allowed in comments, table comments and string defaults
within the accepted subset: no quotes, no backslash, no newline/carriage
return, no equals sign, no parentheses. -/
def safeTextChar (c : Char) : Bool :=
  !(c == '\'') && !(c == '"') && !(c == '\\') && !(c == '\n') && !(c == '\r') &&
    !(c == '=') && !(c == '(') && !(c == ')')

/-- A flag within the subset is either absent or `True` (Python never
serializes `False` flags distinctly, but parses produce only `True`). -/
def okFlag : Option Bool → Bool
  | none => true
  | some b => b

def acceptedField (f : Field) : Bool :=
  pyIsIdentifier f.name &&
  okFlag f.unsigned && okFlag f.not_null && f.required.isNone && okFlag f.auto_increment &&
  (match f.comment with
   | some c => c.data.all safeTextChar
   | none => false) &&
  (match f.default with
   | none => true
   | some (.str s) => s.data.all safeTextChar
   | some (.num _) => false) &&
  !(f.auto_increment.getD false && f.default.isSome) &&
  ((f.type == "int" || f.type == "bigint" || f.type == "smallint" || f.type == "tinyint") &&
     f.length.isSome && f.max_length.isNone && f.precision.isNone && f.scale.isNone &&
     f.enum_values.isNone ||
   f.type == "string" && f.max_length.isSome && f.length.isNone && f.precision.isNone &&
     f.scale.isNone && f.enum_values.isNone ||
   (f.type == "date" || f.type == "datetime" || f.type == "text" || f.type == "mediumtext" ||
     f.type == "json") && f.length.isNone && f.max_length.isNone && f.precision.isNone &&
     f.scale.isNone && f.enum_values.isNone ||
   f.type == "decimal" && f.precision.isSome && f.scale.isSome && f.length.isNone &&
     f.max_length.isNone && f.enum_values.isNone)

def acceptedPK : Option PrimaryKey → Bool
  | none => true
  | some pk =>
    pk.type == "primary" && !pk.fields.isEmpty && pk.fields.all pyIsIdentifier &&
      (pk.index_type == "" ||
        !pk.index_type.data.isEmpty && pk.index_type.data.all isWordChar &&
          pyUpper pk.index_type == pk.index_type)

def acceptedUK (uk : UniqueKey) : Bool :=
  pyIsIdentifier uk.name && !uk.fields.isEmpty && uk.fields.all pyIsIdentifier

def acceptedIdx (idx : IndexSpec) : Bool :=
  pyIsIdentifier idx.name && !idx.fields.isEmpty && idx.fields.all pyIsIdentifier &&
    idx.type == "normal" && idx.comment.data.all safeTextChar

/-- Names referenced by the primary key (empty when there is none). -/
def pkNames (tc : TableConfig) : List String :=
  match tc.primary_key with
  | some pk => pk.fields
  | none => []

/-- The accepted subset of `TableSchema` values: schemas the serializer
emits whose rendered statement parses back to the identical value.
Beyond well-formedness (identifier names, subset-safe comment/default
characters, exactly the type parameters of the column's type, flags
either absent or `True`, `required` absent, no default on an
auto-increment column), it requires the classification data to be
consistent: id_fields are exactly the columns the primary key names,
key_fields are exactly the remaining columns named by some index, and
status_fields is empty. -/
def Accepted (tc : TableConfig) : Prop :=
  pyIsIdentifier tc.table_name = true ∧
  tc.table_comment.data.all safeTextChar = true ∧
  (∀ f ∈ all_field_list tc, acceptedField f = true) ∧
  ((all_field_list tc).map Field.name).Nodup ∧
  acceptedPK tc.primary_key = true ∧
  (∀ uk ∈ tc.unique_keys, acceptedUK uk = true) ∧
  (∀ idx ∈ tc.indexes, acceptedIdx idx = true) ∧
  (∀ f ∈ tc.id_fields, f.name ∈ pkNames tc) ∧
  (∀ f ∈ tc.key_fields ++ tc.value_fields, f.name ∉ pkNames tc) ∧
  (∀ f ∈ tc.key_fields, f.name ∈ SQLParser.normalIndexFields tc.indexes) ∧
  (∀ f ∈ tc.value_fields, f.name ∉ SQLParser.normalIndexFields tc.indexes) ∧
  tc.status_fields = []

instance (tc : TableConfig) : Decidable (Accepted tc) := by
  unfold Accepted
  infer_instance

/-! ## Rendered shapes of accepted schemas -/

/-- The type string `_convert_type` produces for an accepted field. -/
def typeKw (f : Field) : String :=
  if f.type == "int" then "int(" ++ natToDec (f.length.getD 0) ++ ")"
  else if f.type == "bigint" then "bigint(" ++ natToDec (f.length.getD 0) ++ ")"
  else if f.type == "smallint" then "smallint(" ++ natToDec (f.length.getD 0) ++ ")"
  else if f.type == "tinyint" then "tinyint(" ++ natToDec (f.length.getD 0) ++ ")"
  else if f.type == "string" then "varchar(" ++ natToDec (f.max_length.getD 0) ++ ")"
  else if f.type == "datetime" then "datetime"
  else if f.type == "date" then "date"
  else if f.type == "decimal" then
    "decimal(" ++ natToDec (f.precision.getD 10) ++ "," ++ natToDec (f.scale.getD 2) ++ ")"
  else if f.type == "text" then "text"
  else if f.type == "mediumtext" then "mediumtext"
  else "json"

def commentClause (c : String) : String :=
  if c != "" then " COMMENT '" ++ c ++ "'" else ""

/-- The full field definition line (without indent and trailing comma)
the serializer produces for an accepted field. -/
def fieldLineStr (f : Field) : String :=
  "`" ++ f.name ++ "`" ++ " " ++ typeKw f ++
  (if f.unsigned.getD false then " unsigned" else "") ++
  (if f.not_null.getD false || f.required.getD false then " NOT NULL" else "") ++
  (if f.auto_increment.getD false then " AUTO_INCREMENT" else "") ++
  _default_clause f.default ++
  commentClause (f.comment.getD "")

lemma replGo_id (p0 : Char) (pt rep : List Char) :
    ∀ xs, (∀ c ∈ xs, (p0 == c) = false) → replGo (p0 :: pt) rep xs 0 = xs := by
  intro xs
  induction xs with
  | nil => intro _; rfl
  | cons c rest ih =>
    intro h
    have h0 : (p0 == c) = false := h c (by simp)
    simp only [replGo, isPrefixList, h0, Bool.false_and, Bool.false_eq_true, if_false]
    rw [ih (fun c2 hc => h c2 (by simp [hc]))]

lemma pyReplace_id (s : String) (p0 : Char) (pt : List Char) (pat rep : String)
    (hpat : pat.data = p0 :: pt) (h : ∀ c ∈ s.data, (p0 == c) = false) :
    pyReplace s pat rep = s := by
  apply String.ext
  show replGo pat.data rep.data s.data 0 = s.data
  rw [hpat]
  exact replGo_id p0 pt rep.data s.data h

lemma append_ite (P : Prop) [Decidable P] (X Y : String) :
    (if P then X ++ Y else X) = X ++ (if P then Y else "") := by
  split <;> simp

lemma safe_char_facts (c : Char) (h : safeTextChar c = true) :
    c ≠ '\'' ∧ c ≠ '"' ∧ c ≠ '\\' ∧ c ≠ '\n' ∧ c ≠ '\r' ∧ c ≠ '=' ∧ c ≠ '(' ∧ c ≠ ')' := by
  simp only [safeTextChar, Bool.and_eq_true, Bool.not_eq_true', beq_eq_false_iff_ne] at h
  obtain ⟨⟨⟨⟨⟨⟨⟨h1, h2⟩, h3⟩, h4⟩, h5⟩, h6⟩, h7⟩, h8⟩ := h
  exact ⟨h1, h2, h3, h4, h5, h6, h7, h8⟩

lemma safe_no_squote (str : String) (h : str.data.all safeTextChar = true) :
    ∀ c ∈ str.data, ('\'' == c) = false := by
  intro c hc
  have hcs := (safe_char_facts c (List.all_eq_true.mp h c hc)).1
  exact beq_eq_false_iff_ne.mpr (Ne.symm hcs)

lemma convert_date (f : Field) (h : f.type = "date") :
    _convert_type f = DateTypeHandler.convert f := by
  unfold _convert_type TypeRegistry.convert
  rw [h]
  rfl

lemma convert_datetime (f : Field) (h : f.type = "datetime") :
    _convert_type f = DateTypeHandler.convert f := by
  unfold _convert_type TypeRegistry.convert
  rw [h]
  rfl

lemma convert_decimal (f : Field) (h : f.type = "decimal") :
    _convert_type f = DecimalTypeHandler.convert f := by
  unfold _convert_type TypeRegistry.convert
  rw [h]
  rfl

lemma convert_text (f : Field) (h : f.type = "text") :
    _convert_type f = TextTypeHandler.convert f := by
  unfold _convert_type TypeRegistry.convert
  rw [h]
  rfl

lemma convert_mediumtext (f : Field) (h : f.type = "mediumtext") :
    _convert_type f = MediumTextTypeHandler.convert f := by
  unfold _convert_type TypeRegistry.convert
  rw [h]
  rfl

lemma convert_json (f : Field) (h : f.type = "json") :
    _convert_type f = JsonTypeHandler.convert f := by
  unfold _convert_type TypeRegistry.convert
  rw [h]
  rfl

/-- The last conjunct of `acceptedField`: the type/parameter discipline. -/
lemma acceptedField_type (f : Field) (h : acceptedField f = true) :
    ((f.type == "int" || f.type == "bigint" || f.type == "smallint" || f.type == "tinyint") &&
      f.length.isSome && f.max_length.isNone && f.precision.isNone && f.scale.isNone &&
      f.enum_values.isNone ||
    f.type == "string" && f.max_length.isSome && f.length.isNone && f.precision.isNone &&
      f.scale.isNone && f.enum_values.isNone ||
    (f.type == "date" || f.type == "datetime" || f.type == "text" || f.type == "mediumtext" ||
      f.type == "json") && f.length.isNone && f.max_length.isNone && f.precision.isNone &&
      f.scale.isNone && f.enum_values.isNone ||
    f.type == "decimal" && f.precision.isSome && f.scale.isSome && f.length.isNone &&
      f.max_length.isNone && f.enum_values.isNone) = true := by
  simp only [acceptedField, Bool.and_eq_true] at h
  exact h.2

lemma acceptedField_comment (f : Field) (h : acceptedField f = true) :
    ∃ c, f.comment = some c ∧ c.data.all safeTextChar = true := by
  simp only [acceptedField, Bool.and_eq_true] at h
  have hcmt := h.1.1.1.2
  cases hc : f.comment with
  | none => rw [hc] at hcmt; exact absurd hcmt (by simp)
  | some c => rw [hc] at hcmt; exact ⟨c, rfl, hcmt⟩

lemma convert_accepted (f : Field) (h : acceptedField f = true) :
    _convert_type f = .ok (typeKw f) := by
  have hty := acceptedField_type f h
  simp only [Bool.or_eq_true, Bool.and_eq_true, beq_iff_eq] at hty
  rcases hty with ((hint | hstr) | hfix) | hdec
  · obtain ⟨⟨⟨⟨⟨hkw, hlen⟩, hml⟩, hp⟩, hs⟩, he⟩ := hint
    obtain ⟨n, hn⟩ := Option.isSome_iff_exists.mp hlen
    rcases hkw with ((ht | ht) | ht) | ht
    · rw [convert_int f ht]
      unfold IntTypeHandler.convert typeKw
      rw [hn]
      simp [ht]
    · rw [convert_bigint f ht]
      unfold BigIntTypeHandler.convert typeKw
      rw [hn]
      simp [ht]
    · rw [convert_smallint f ht]
      unfold SmallIntTypeHandler.convert typeKw
      rw [hn]
      simp [ht]
    · rw [convert_tinyint f ht]
      unfold TinyIntTypeHandler.convert typeKw
      rw [hn]
      simp [ht]
  · obtain ⟨⟨⟨⟨⟨ht, hml⟩, hlen⟩, hp⟩, hs⟩, he⟩ := hstr
    obtain ⟨n, hn⟩ := Option.isSome_iff_exists.mp hml
    rw [convert_string f ht]
    unfold StringTypeHandler.convert typeKw
    rw [hn]
    simp [ht]
  · obtain ⟨⟨⟨⟨⟨hkw, hlen⟩, hml⟩, hp⟩, hs⟩, he⟩ := hfix
    rcases hkw with (((ht | ht) | ht) | ht) | ht
    · rw [convert_date f ht]
      unfold DateTypeHandler.convert typeKw
      simp [ht]
    · rw [convert_datetime f ht]
      unfold DateTypeHandler.convert typeKw
      simp [ht]
    · rw [convert_text f ht]
      unfold TextTypeHandler.convert typeKw
      simp [ht]
    · rw [convert_mediumtext f ht]
      unfold MediumTextTypeHandler.convert typeKw
      simp [ht]
    · rw [convert_json f ht]
      unfold JsonTypeHandler.convert typeKw
      simp [ht]
  · obtain ⟨⟨⟨⟨⟨ht, hprec⟩, hsc⟩, hlen⟩, hml⟩, he⟩ := hdec
    obtain ⟨p, hp⟩ := Option.isSome_iff_exists.mp hprec
    obtain ⟨sc, hs⟩ := Option.isSome_iff_exists.mp hsc
    rw [convert_decimal f ht]
    unfold DecimalTypeHandler.convert typeKw
    rw [hp, hs]
    simp [ht]

lemma append_ite2 (P : Prop) [inst : Decidable P] (X A c B : String) :
    (if P then X ++ A ++ c ++ B else X) = X ++ (if P then A ++ c ++ B else "") := by
  split <;> simp [String.append_assoc]

lemma format_accepted (f : Field) (h : acceptedField f = true) :
    _format_field f true = .ok (fieldLineStr f) := by
  have hconv := convert_accepted f h
  have hftu : _field_type_with_unsigned f =
      .ok (typeKw f ++ (if f.unsigned.getD false then " unsigned" else "")) := by
    unfold _field_type_with_unsigned
    rw [hconv]
    have := append_ite (f.unsigned.getD false = true) (typeKw f) " unsigned"
    simp only [this]
  obtain ⟨c, hc, hcsafe⟩ := acceptedField_comment f h
  have hesc : pyReplace c "'" "\\'" = c :=
    pyReplace_id c '\'' [] "'" "\\'" rfl (safe_no_squote c hcsafe)
  simp only [_format_field, hftu, hc, Option.getD_some, hesc, if_true]
  congr 1
  rw [append_ite ((f.not_null.getD false || f.required.getD false) = true) _ " NOT NULL",
    append_ite (f.auto_increment.getD false = true) _ " AUTO_INCREMENT",
    append_ite2 ((c != "") = true) _ " COMMENT '" c "'"]
  unfold fieldLineStr commentClause
  rw [hc]
  simp only [Option.getD_some, String.append_assoc]

/-! ## Engine toolkit: backtracking to a chosen split, run-bounded failure -/

lemma matchLit_none_extend (ci : Bool) :
    ∀ (pt t rest : List Char), pt.length ≤ t.length → matchLit ci pt t = none →
    matchLit ci pt (t ++ rest) = none := by
  intro pt
  induction pt with
  | nil => intro t rest _ h; simp [matchLit] at h
  | cons p ps ih =>
    intro t rest hlen h
    cases t with
    | nil => simp at hlen
    | cons c cs =>
      simp only [matchLit, List.cons_append] at h ⊢
      by_cases hc : charEqCI ci p c = true
      · rw [hc, if_pos rfl] at h ⊢
        exact ih cs rest (by simpa using hlen) h
      · rw [if_neg (by simpa using hc)]

lemma starGreedy_none_run (p : Char → Bool) :
    ∀ (run : List Char) (fuel : Nat) (tail : List Char) (caps : Caps)
      (k : List Char → Caps → Option Caps),
    (∀ c ∈ run, p c = true) → headNot p tail →
    (∀ suf, suf <:+ run → k (suf ++ tail) caps = none) →
    starGreedy p fuel (run ++ tail) caps k = none := by
  intro run
  induction run with
  | nil =>
    intro fuel tail caps k _ htail hk
    have h0 := hk [] (List.suffix_refl [])
    cases fuel with
    | zero => simpa using h0
    | succ f =>
      cases tail with
      | nil => simpa [starGreedy] using h0
      | cons c cs =>
        have hpc : p c = false := htail
        simpa [starGreedy, hpc] using h0
  | cons x run2 ih =>
    intro fuel tail caps k hrun htail hk
    have hx : p x = true := hrun x (by simp)
    have h0 := hk (x :: run2) (List.suffix_refl _)
    cases fuel with
    | zero => simpa using h0
    | succ f =>
      have hrec := ih f tail caps k (fun c hc => hrun c (by simp [hc])) htail
        (fun suf hs => hk suf (hs.trans (List.suffix_cons x run2)))
      show starGreedy p (f + 1) (x :: (run2 ++ tail)) caps k = none
      simp only [starGreedy, hx, if_pos]
      rw [hrec]
      simpa using h0

lemma starGreedy_hit_last (p : Char → Bool) :
    ∀ (xs : List Char) (fuel : Nat) (rest : List Char) (caps : Caps)
      (k : List Char → Caps → Option Caps) (R : Caps),
    (∀ c ∈ xs, p c = true) → (∀ c ∈ rest, p c = true) →
    (∀ i, 0 < i → i ≤ rest.length → k (rest.drop i) caps = none) →
    xs.length + rest.length ≤ fuel → k rest caps = some R →
    starGreedy p fuel (xs ++ rest) caps k = some R := by
  intro xs
  induction xs with
  | nil =>
    intro fuel rest caps k R _ hrest hfail hlen hk
    induction rest generalizing fuel with
    | nil =>
      cases fuel with
      | zero => simpa [starGreedy] using hk
      | succ f => simpa [starGreedy] using hk
    | cons c cs ihr =>
      cases fuel with
      | zero => simp at hlen
      | succ f =>
        have hc : p c = true := hrest c (by simp)
        have hnone : starGreedy p f cs caps k = none := by
          have hsuf : ∀ suf, suf <:+ cs → k (suf ++ ([] : List Char)) caps = none := by
            intro suf hs
            obtain ⟨pre, hpre⟩ := hs
            have hplen : pre.length + suf.length = cs.length := by
              rw [← hpre]; simp
            have hi := hfail (pre.length + 1) (by omega)
              (by simp only [List.length_cons]; omega)
            have hdrop : (c :: cs).drop (pre.length + 1) = suf := by
              simp only [List.drop_succ_cons]
              rw [← hpre]
              simp
            rw [hdrop] at hi
            simpa using hi
          have := starGreedy_none_run p cs f [] caps k
            (fun c2 hc2 => hrest c2 (by simp [hc2])) trivial hsuf
          simpa using this
        show starGreedy p (f + 1) (c :: cs) caps k = some R
        simp only [starGreedy, hc, if_pos]
        rw [hnone]
        simpa using hk
  | cons x xs2 ih =>
    intro fuel rest caps k R hall hrest hfail hlen hk
    cases fuel with
    | zero => simp at hlen
    | succ f =>
      have hx : p x = true := hall x (by simp)
      have hrec := ih f rest caps k R (fun c hc => hall c (by simp [hc])) hrest hfail
        (by simp only [List.length_cons] at hlen; omega) hk
      show starGreedy p (f + 1) (x :: (xs2 ++ rest)) caps k = some R
      simp only [starGreedy, hx, if_pos, hrec]

/-- Greedy `(.*)`-style hit: consume `xs`, stop at `rest`, provided the
continuation fails at every strictly later position. -/
lemma reM_starG_hit_last (p : Char → Bool) (xs rest : List Char) (caps : Caps)
    (k : List Char → Caps → Option Caps) (R : Caps)
    (hall : ∀ c ∈ xs, p c = true) (hrest : ∀ c ∈ rest, p c = true)
    (hfail : ∀ i, 0 < i → i ≤ rest.length → k (rest.drop i) caps = none)
    (hk : k rest caps = some R) :
    reM (.starC p false) (xs ++ rest) caps k = some R := by
  simp only [reM, Bool.false_eq_true, if_false]
  exact starGreedy_hit_last p xs (xs ++ rest).length rest caps k R hall hrest hfail
    (by simp) hk

/-- A literal whose `matchLit` fails, fails as a pattern. -/
lemma reM_lit_fail (ci : Bool) (pt cs : List Char) (caps : Caps)
    (k : List Char → Caps → Option Caps) (h : matchLit ci pt cs = none) :
    reM (.lit ci pt) cs caps k = none := by
  simp [reM, h]

/-- A `\s+KEYWORD...`-shaped sequence fails on `run ++ tail` (`run` inside
the class, `tail` stopping it) when its right part fails at every
position of the run and at the stop position. -/
lemma reM_seq_plusG_none (p : Char → Bool) (B : RE) (run tail : List Char)
    (caps : Caps) (k : List Char → Caps → Option Caps)
    (hrun : ∀ c ∈ run, p c = true) (htail : headNot p tail)
    (hB : ∀ suf, suf <:+ run → ∀ caps2, reM B (suf ++ tail) caps2 k = none) :
    reM (.seq (.plusC p false) B) (run ++ tail) caps k = none := by
  cases run with
  | nil =>
    cases tail with
    | nil => rfl
    | cons c cs =>
      have hpc : p c = false := htail
      simp [reM, hpc]
  | cons x run2 =>
    have hx : p x = true := hrun x (by simp)
    show reM (.seq (.plusC p false) B) (x :: (run2 ++ tail)) caps k = none
    simp only [reM, hx, if_pos, Bool.false_eq_true, if_false]
    exact starGreedy_none_run p run2 (run2 ++ tail).length tail caps _
      (fun c hc => hrun c (by simp [hc])) htail
      (fun suf hs => hB suf (hs.trans (List.suffix_cons x run2)) caps)

/-- A backreference to a known capture fails when the head of the input
does not start it. -/
lemma reM_backref_fail (ci : Bool) (i : Nat) (v0 : Char) (vt cs : List Char)
    (caps : Caps) (k : List Char → Caps → Option Caps)
    (hv : capsGet caps i = some (v0 :: vt))
    (h : headNot (fun c => charEqCI ci v0 c) cs) :
    reM (.backref ci i) cs caps k = none := by
  cases cs with
  | nil => simp [reM, hv, matchLit]
  | cons c rest =>
    have hc : charEqCI ci v0 c = false := h
    simp [reM, hv, matchLit, hc]

lemma reM_group_fail (i : Nat) (r : RE) (cs : List Char) (caps : Caps)
    (k : List Char → Caps → Option Caps)
    (h : ∀ k2 : List Char → Caps → Option Caps, reM r cs caps k2 = none) :
    reM (.group i r) cs caps k = none := by
  rw [reM_group_def]
  exact h _

lemma reSeqs_cons (r s : RE) (rest : List RE) :
    reSeqs (r :: s :: rest) = .seq r (reSeqs (s :: rest)) := rfl

/-! ## Split/join utilities -/

lemma splitGo_no_sep (sep : Char) :
    ∀ (a cur : List Char), (∀ c ∈ a, (c == sep) = false) →
    splitGo sep a cur = [cur.reverse ++ a] := by
  intro a
  induction a with
  | nil => intro cur _; simp [splitGo]
  | cons c rest ih =>
    intro cur h
    have hc : (c == sep) = false := h c (by simp)
    simp only [splitGo, hc, Bool.false_eq_true, if_false]
    rw [ih (c :: cur) (fun c2 hc2 => h c2 (by simp [hc2]))]
    simp

lemma splitGo_sep_append (sep : Char) :
    ∀ (a rest cur : List Char), (∀ c ∈ a, (c == sep) = false) →
    splitGo sep (a ++ sep :: rest) cur = (cur.reverse ++ a) :: splitGo sep rest [] := by
  intro a
  induction a with
  | nil =>
    intro rest cur _
    simp [splitGo]
  | cons c a2 ih =>
    intro rest cur h
    have hc : (c == sep) = false := h c (by simp)
    simp only [List.cons_append, splitGo, hc, Bool.false_eq_true, if_false]
    show splitGo sep (a2 ++ sep :: rest) (c :: cur) = _
    rw [ih rest (c :: cur) (fun c2 hc2 => h c2 (by simp [hc2]))]
    simp

lemma pySplit_joinSep (sep : Char) :
    ∀ (lines : List String), lines ≠ [] →
    (∀ l ∈ lines, ∀ c ∈ l.data, (c == sep) = false) →
    pySplit sep (joinSep ⟨[sep]⟩ lines) = lines := by
  intro lines
  induction lines with
  | nil => intro h; exact absurd rfl h
  | cons l rest ih =>
    intro _ hall
    cases rest with
    | nil =>
      show pySplit sep l = [l]
      unfold pySplit
      rw [splitGo_no_sep sep l.data [] (hall l (by simp))]
      simp
    | cons l2 rest2 =>
      show pySplit sep (l ++ ⟨[sep]⟩ ++ joinSep ⟨[sep]⟩ (l2 :: rest2)) = _
      unfold pySplit
      have hdata : (l ++ ⟨[sep]⟩ ++ joinSep ⟨[sep]⟩ (l2 :: rest2)).data =
          l.data ++ sep :: (joinSep ⟨[sep]⟩ (l2 :: rest2)).data := by
        simp [String.data_append]
      rw [hdata, splitGo_sep_append sep l.data _ [] (hall l (by simp))]
      have hrest := ih (by simp) (fun l3 hl3 => hall l3 (by simp [hl3]))
      unfold pySplit at hrest
      simp only [List.map_cons, List.reverse_nil, List.nil_append]
      rw [hrest]

lemma joinSep_ne_nil_cons (sep x : String) (l : List String) (h : l ≠ []) :
    joinSep sep (x :: l) = x ++ sep ++ joinSep sep l := by
  cases l with
  | nil => exact absurd rfl h
  | cons y rest => rfl

lemma modifyLast_append_singleton (f : String → String) :
    ∀ (xs : List String) (x : String), modifyLast f (xs ++ [x]) = xs ++ [f x] := by
  intro xs
  induction xs with
  | nil => intro x; rfl
  | cons y ys ih =>
    intro x
    cases ys with
    | nil => rfl
    | cons z zs =>
      show y :: modifyLast f ((z :: zs) ++ [x]) = _
      rw [ih x]
      rfl

/-! ## Accessors for acceptedField -/

lemma okFlag_cases (o : Option Bool) (h : okFlag o = true) : o = none ∨ o = some true := by
  cases o with
  | none => exact Or.inl rfl
  | some b =>
    cases b with
    | true => exact Or.inr rfl
    | false => exact absurd h (by simp [okFlag])

lemma acceptedField_name (f : Field) (h : acceptedField f = true) :
    pyIsIdentifier f.name = true := by
  simp only [acceptedField, Bool.and_eq_true] at h
  exact h.1.1.1.1.1.1.1.1

lemma acceptedField_unsigned (f : Field) (h : acceptedField f = true) :
    f.unsigned = none ∨ f.unsigned = some true := by
  simp only [acceptedField, Bool.and_eq_true] at h
  exact okFlag_cases _ h.1.1.1.1.1.1.1.2

lemma acceptedField_not_null (f : Field) (h : acceptedField f = true) :
    f.not_null = none ∨ f.not_null = some true := by
  simp only [acceptedField, Bool.and_eq_true] at h
  exact okFlag_cases _ h.1.1.1.1.1.1.2

lemma acceptedField_required (f : Field) (h : acceptedField f = true) :
    f.required = none := by
  simp only [acceptedField, Bool.and_eq_true] at h
  exact Option.isNone_iff_eq_none.mp h.1.1.1.1.1.2

lemma acceptedField_ai (f : Field) (h : acceptedField f = true) :
    f.auto_increment = none ∨ f.auto_increment = some true := by
  simp only [acceptedField, Bool.and_eq_true] at h
  exact okFlag_cases _ h.1.1.1.1.2

lemma acceptedField_default (f : Field) (h : acceptedField f = true) :
    f.default = none ∨ ∃ s, f.default = some (.str s) ∧ s.data.all safeTextChar = true := by
  simp only [acceptedField, Bool.and_eq_true] at h
  have hd := h.1.1.2
  cases hdf : f.default with
  | none => exact Or.inl rfl
  | some dv =>
    cases dv with
    | str s =>
      rw [hdf] at hd
      exact Or.inr ⟨s, rfl, hd⟩
    | num n =>
      rw [hdf] at hd
      exact absurd hd (by simp)

lemma acceptedField_noAIdefault (f : Field) (h : acceptedField f = true) :
    ¬(f.auto_increment.getD false = true ∧ f.default.isSome = true) := by
  simp only [acceptedField, Bool.and_eq_true] at h
  have hd := h.1.2
  intro ⟨h1, h2⟩
  rw [Bool.not_eq_true'] at hd
  rw [Bool.and_eq_false_iff] at hd
  rcases hd with hd | hd
  · rw [h1] at hd; exact Bool.noConfusion hd
  · rw [h2] at hd; exact Bool.noConfusion hd

lemma ident_chars (n : String) (h : pyIsIdentifier n = true) :
    ∀ c ∈ n.data, isWordChar c = true := by
  unfold pyIsIdentifier at h
  intro c hc
  cases hd : n.data with
  | nil => rw [hd] at hc; simp at hc
  | cons c0 rest =>
    rw [hd] at h hc
    simp only [Bool.and_eq_true] at h
    rcases List.mem_cons.mp hc with hc0 | hcr
    · subst hc0
      rcases Bool.or_eq_true_iff.mp h.1 with ha | hu
      · simp [isWordChar, Char.isAlphanum, ha]
      · simp [isWordChar, hu]
    · exact List.all_eq_true.mp h.2 c hcr

lemma ident_ne_empty (n : String) (h : pyIsIdentifier n = true) : n ≠ "" := by
  intro he
  rw [he] at h
  exact Bool.noConfusion h

/-! ## Canonical shapes of the rendered lines -/

/-- The `PRIMARY KEY` clause (without indent and trailing comma). -/
def pkLineStr (pk : PrimaryKey) : String :=
  "PRIMARY KEY (" ++ joinSep ", " (pk.fields.map (fun n => "`" ++ n ++ "`")) ++ ")" ++
    (if pk.index_type != "" then " USING " ++ pyUpper pk.index_type else "")

/-- The `UNIQUE KEY` clause (without indent and trailing comma). -/
def ukLineStr (uk : UniqueKey) : String :=
  "UNIQUE KEY " ++ uk.name ++ " (" ++
    joinSep ", " (uk.fields.map (fun n => "`" ++ n ++ "`")) ++ ")"

/-- The `KEY` (index) clause (without indent and trailing comma). -/
def idxLineStr (idx : IndexSpec) : String :=
  "KEY `" ++ idx.name ++ "` (" ++
    joinSep ", " (idx.fields.map (fun n => "`" ++ n ++ "`")) ++ ")" ++
    (if idx.comment != "" then " COMMENT '" ++ pyReplace idx.comment "'" "\\'" ++ "'" else "")

/-- All clause lines of a rendered table, in order and without
indent/commas. -/
def clauseList (tc : TableConfig) : List String :=
  (all_field_list tc).map fieldLineStr ++
  (match tc.primary_key with
   | some pk => if pk.fields.isEmpty then [] else [pkLineStr pk]
   | none => []) ++
  tc.unique_keys.map ukLineStr ++ tc.indexes.map idxLineStr

/-- The indented clause lines. -/
def midLines (tc : TableConfig) : List String :=
  (clauseList tc).map (fun c => "    " ++ c)

/-- The closing line: plain `);` or the `ENGINE/CHARSET/COMMENT` tail. -/
def tailLine (tcc : String) : String :=
  if tcc != "" then ") ENGINE=InnoDB DEFAULT CHARSET=utf8 COMMENT='" ++ tcc ++ "';"
  else ");"

/-- The full statement `ddl_to_sql` renders for an accepted schema. -/
def renderText (tc : TableConfig) : String :=
  headerLine tc.table_name ++ "\n" ++
  (if midLines tc = [] then "" else joinSep ",\n" (midLines tc) ++ "\n") ++
  tailLine tc.table_comment

lemma quoteName_true (n : String) : quoteName true n = "`" ++ n ++ "`" := rfl

lemma quoteName_map (l : List String) :
    l.map (quoteName true) = l.map (fun n => "`" ++ n ++ "`") :=
  List.map_congr_left (fun n _ => rfl)

lemma pkLines_eq (pk : PrimaryKey) (hne : pk.fields.isEmpty = false) :
    pkLines true (some pk) = ["    " ++ pkLineStr pk ++ ","] := by
  simp only [pkLines, hne, Bool.false_eq_true, if_false]
  unfold pkLineStr
  rw [quoteName_map]
  cases hit : (pk.index_type != "") <;>
    simp only [hit, Bool.false_eq_true, if_false, if_true] <;>
    exact congrArg (fun d => [(⟨d⟩ : String)]) (by simp [String.data_append])

lemma ukLine_eq (uk : UniqueKey) :
    ukLine true uk = "    " ++ ukLineStr uk ++ "," := by
  unfold ukLine ukLineStr
  rw [quoteName_map]
  apply String.ext
  simp [String.data_append]

lemma indexLine_eq (idx : IndexSpec) :
    indexLine true idx = "    " ++ idxLineStr idx ++ "," := by
  simp only [indexLine]
  unfold idxLineStr
  rw [quoteName_map]
  cases hc : (idx.comment != "") <;>
    simp only [hc, Bool.false_eq_true, if_false, if_true] <;>
    · apply String.ext
      simp [String.data_append]

/-! ## Assembling the rendered statement -/

lemma endsWithChar_append_self (c : Char) (s : String) :
    endsWithChar c (s ++ ⟨[c]⟩) = true := by
  unfold endsWithChar
  simp [String.data_append]

lemma dropLastChar_append (c : Char) (s : String) :
    dropLastChar (s ++ ⟨[c]⟩) = s := by
  unfold dropLastChar
  apply String.ext
  simp [String.data_append]

lemma stripComma_append (s : String) :
    (if endsWithChar ',' (s ++ ",") then dropLastChar (s ++ ",") else s ++ ",") = s := by
  have h1 : ("," : String) = ⟨[',']⟩ := rfl
  rw [h1, endsWithChar_append_self, dropLastChar_append]
  simp

lemma modifyLast_cons_ne_nil (f : String → String) (x : String) (l : List String)
    (h : l ≠ []) : modifyLast f (x :: l) = x :: modifyLast f l := by
  cases l with
  | nil => exact absurd rfl h
  | cons y rest => rfl

lemma join_comma_lines :
    ∀ (ys : List String) (y : String),
    joinSep "\n" (ys.map (fun s => s ++ ",") ++ [y]) = joinSep ",\n" (ys ++ [y]) := by
  intro ys
  induction ys with
  | nil => intro y; rfl
  | cons y0 ys2 ih =>
    intro y
    simp only [List.map_cons, List.cons_append]
    rw [joinSep_ne_nil_cons _ _ _ (by simp), joinSep_ne_nil_cons _ _ _ (by simp), ih y]
    apply String.ext
    simp [String.data_append]

lemma join_comma_tail :
    ∀ (ys : List String) (y t : String),
    joinSep "\n" (ys.map (fun s => s ++ ",") ++ [y, t]) =
      joinSep ",\n" (ys ++ [y]) ++ "\n" ++ t := by
  intro ys
  induction ys with
  | nil => intro y t; rfl
  | cons y0 ys2 ih =>
    intro y t
    simp only [List.map_cons, List.cons_append]
    rw [joinSep_ne_nil_cons _ _ _ (by simp), joinSep_ne_nil_cons _ _ _ (by simp), ih y t]
    apply String.ext
    simp [String.data_append]

lemma validateFields_ok (t : String) :
    ∀ (l : List Field) (seen : List String),
    (∀ f ∈ l, pyIsIdentifier f.name = true) →
    (l.map Field.name).Nodup →
    (∀ f ∈ l, f.name ∉ seen) →
    validateFields t l seen = .ok () := by
  intro l
  induction l with
  | nil => intro seen _ _ _; rfl
  | cons f rest ih =>
    intro seen hid hnd hseen
    have hidf : pyIsIdentifier f.name = true := hid f (by simp)
    have hne : (f.name == "") = false :=
      beq_eq_false_iff_ne.mpr (ident_ne_empty f.name hidf)
    have hc : seen.contains f.name = false := by
      have hmem : f.name ∉ seen := hseen f (by simp)
      simpa using hmem
    simp only [validateFields, hne, hidf, hc, Bool.not_true, Bool.or_false,
      Bool.false_eq_true, if_false]
    have hnd' : f.name ∉ rest.map Field.name ∧ (rest.map Field.name).Nodup := by
      rw [List.map_cons, List.nodup_cons] at hnd
      exact hnd
    apply ih (f.name :: seen) (fun g hg => hid g (by simp [hg])) hnd'.2
    intro g hg hmem
    rcases List.mem_cons.mp hmem with he | hseen2
    · exact hnd'.1 (he ▸ List.mem_map_of_mem Field.name hg)
    · exact hseen g (by simp [hg]) hseen2

lemma formatAll_map :
    ∀ (l : List Field), (∀ f ∈ l, acceptedField f = true) →
    formatAll true l = .ok (l.map fieldLineStr) := by
  intro l
  induction l with
  | nil => intro _; rfl
  | cons f rest ih =>
    intro h
    have hf := format_accepted f (h f (by simp))
    simp only [formatAll, hf, ih (fun g hg => h g (by simp [hg])), List.map_cons]

lemma acceptedPK_some (pk : PrimaryKey) (h : acceptedPK (some pk) = true) :
    pk.type = "primary" ∧ pk.fields.isEmpty = false ∧
    (∀ n ∈ pk.fields, pyIsIdentifier n = true) ∧
    (pk.index_type = "" ∨
      (pk.index_type.data ≠ [] ∧ (∀ c ∈ pk.index_type.data, isWordChar c = true) ∧
        pyUpper pk.index_type = pk.index_type)) := by
  simp only [acceptedPK, Bool.and_eq_true] at h
  obtain ⟨⟨⟨hty, hne⟩, hall⟩, hit⟩ := h
  refine ⟨by simpa using hty, by simpa using hne,
    fun n hn => List.all_eq_true.mp hall n hn, ?_⟩
  rcases Bool.or_eq_true_iff.mp hit with h1 | h2
  · exact Or.inl (by simpa using h1)
  · simp only [Bool.and_eq_true] at h2
    refine Or.inr ⟨?_, fun c hc => List.all_eq_true.mp h2.1.2 c hc, by simpa using h2.2⟩
    have h3 := h2.1.1
    simpa using h3

lemma endsWithChar_header (n : String) : endsWithChar ',' (headerLine n) = false := by
  unfold headerLine endsWithChar
  simp [String.data_append]

/-- Appending the closing line and applying the table-comment modification
yields `tailLine` uniformly. -/
lemma last_step (tcc : String) (X : List String) :
    (if tcc != "" then
      modifyLast (fun s =>
        if endsWithChar ';' s then
          dropLastChar s ++ (" ENGINE=InnoDB DEFAULT CHARSET=utf8 COMMENT='" ++ tcc ++ "';")
        else s ++ (" ENGINE=InnoDB DEFAULT CHARSET=utf8 COMMENT='" ++ tcc ++ "';"))
        (X ++ [");"])
     else X ++ [");"]) = X ++ [tailLine tcc] := by
  cases htc : (tcc != "") with
  | false =>
    have he : tcc = "" := by simpa using htc
    subst he
    simp [tailLine]
  | true =>
    simp only [htc, if_true]
    rw [modifyLast_append_singleton]
    have hend : endsWithChar ';' ");" = true := by decide
    rw [hend]
    simp only [if_true]
    have hdrop : dropLastChar ");" = ")" := by decide
    rw [hdrop]
    unfold tailLine
    rw [if_pos htc]
    have hglue : (")" : String) ++ " ENGINE=InnoDB DEFAULT CHARSET=utf8 COMMENT='" =
        ") ENGINE=InnoDB DEFAULT CHARSET=utf8 COMMENT='" := by decide
    rw [← String.append_assoc, ← String.append_assoc, hglue]

lemma render_ok (tc : TableConfig) (h : Accepted tc) :
    ddl_to_sql tc true = .ok (renderText tc) := by
  obtain ⟨hname, hcmt, hfields, hnodup, hpk, huks, hidxs, _, _, _, _, _⟩ := h
  have hval : validateFields tc.table_name (all_field_list tc) [] = .ok () :=
    validateFields_ok _ _ [] (fun f hf => acceptedField_name f (hfields f hf)) hnodup
      (by simp)
  have hfmt : formatAll true (all_field_list tc) =
      .ok ((all_field_list tc).map fieldLineStr) := formatAll_map _ hfields
  simp only [ddl_to_sql]
  rw [hval, hfmt]
  dsimp only
  have hpklines : pkLines true tc.primary_key =
      (match tc.primary_key with
       | some pk => if pk.fields.isEmpty then [] else [pkLineStr pk]
       | none => ([] : List String)).map (fun c => "    " ++ c ++ ",") := by
    cases hp : tc.primary_key with
    | none => rfl
    | some pk =>
      have hne := (acceptedPK_some pk (hp ▸ hpk)).2.1
      rw [pkLines_eq pk hne]
      simp [hne]
  have huklines : tc.unique_keys.map (ukLine true) =
      (tc.unique_keys.map ukLineStr).map (fun c => "    " ++ c ++ ",") := by
    simp only [List.map_map]
    exact List.map_congr_left (fun uk _ => ukLine_eq uk)
  have hidxlines : tc.indexes.map (indexLine true) =
      (tc.indexes.map idxLineStr).map (fun c => "    " ++ c ++ ",") := by
    simp only [List.map_map]
    exact List.map_congr_left (fun idx _ => indexLine_eq idx)
  have hlines : [headerLine tc.table_name] ++
      ((all_field_list tc).map fieldLineStr).map (fun f => "    " ++ f ++ ",") ++
      pkLines true tc.primary_key ++ tc.unique_keys.map (ukLine true) ++
      tc.indexes.map (indexLine true) =
      headerLine tc.table_name :: (clauseList tc).map (fun c => "    " ++ c ++ ",") := by
    rw [hpklines, huklines, hidxlines]
    unfold clauseList
    simp [List.map_append]
  rw [hlines]
  rcases List.eq_nil_or_concat (clauseList tc) with hcl | ⟨ys, y, hcl⟩
  · rw [hcl]
    simp only [List.map_nil]
    have hmod : modifyLast (fun s => if endsWithChar ',' s then dropLastChar s else s)
        [headerLine tc.table_name] = [headerLine tc.table_name] := by
      show [if endsWithChar ',' (headerLine tc.table_name) = true then _
        else headerLine tc.table_name] = _
      rw [endsWithChar_header]
      simp
    rw [hmod]
    rw [show ([headerLine tc.table_name] : List String) ++ [");"] =
      [headerLine tc.table_name] ++ [");"] from rfl]
    rw [last_step tc.table_comment [headerLine tc.table_name]]
    unfold renderText midLines
    rw [hcl]
    simp only [List.map_nil]
    apply congrArg
    show joinSep "\n" [headerLine tc.table_name, tailLine tc.table_comment] = _
    show headerLine tc.table_name ++ "\n" ++ tailLine tc.table_comment = _
    simp
  · rw [List.concat_eq_append] at hcl
    rw [hcl]
    simp only [List.map_append, List.map_cons, List.map_nil]
    have hmod : modifyLast (fun s => if endsWithChar ',' s then dropLastChar s else s)
        (headerLine tc.table_name :: (ys.map (fun c => "    " ++ c ++ ",") ++
          ["    " ++ y ++ ","])) =
        headerLine tc.table_name :: (ys.map (fun c => "    " ++ c ++ ",") ++
          ["    " ++ y]) := by
      rw [modifyLast_cons_ne_nil _ _ _ (by simp), modifyLast_append_singleton]
      rw [show ("    " ++ y ++ "," : String) = ("    " ++ y) ++ "," from rfl,
        stripComma_append]
    rw [hmod]
    rw [show (headerLine tc.table_name :: (ys.map (fun c => "    " ++ c ++ ",") ++
        ["    " ++ y])) ++ [");"] =
      (headerLine tc.table_name :: (ys.map (fun c => "    " ++ c ++ ",") ++
        ["    " ++ y])) ++ [");"] from rfl]
    rw [show (headerLine tc.table_name :: (ys.map (fun c => "    " ++ c ++ ",") ++
        ["    " ++ y])) = (headerLine tc.table_name :: ys.map (fun c => "    " ++ c ++ ",") ++
        ["    " ++ y]) from by simp]
    rw [last_step tc.table_comment _]
    unfold renderText midLines
    rw [hcl]
    simp only [List.map_append, List.map_cons, List.map_nil]
    apply congrArg
    rw [show (headerLine tc.table_name :: ys.map (fun c => "    " ++ c ++ ",") ++
        ["    " ++ y]) ++ [tailLine tc.table_comment] =
      headerLine tc.table_name :: (ys.map (fun c => "    " ++ c ++ ",") ++
        ["    " ++ y, tailLine tc.table_comment]) from by simp]
    rw [joinSep_ne_nil_cons _ _ _ (by simp)]
    rw [show (ys.map (fun c => "    " ++ c ++ ",") ++ ["    " ++ y, tailLine tc.table_comment]) =
      ((ys.map (fun c => "    " ++ c)).map (fun s => s ++ ",") ++
        ["    " ++ y, tailLine tc.table_comment]) from by simp [List.map_map]]
    rw [join_comma_tail]
    rw [if_neg (by simp : ¬(List.map (fun c => "    " ++ c) ys ++ ["    " ++ y] = []))]
    apply String.ext
    simp [String.data_append]

/-! ## Character inventories of the rendered lines -/

/-- Every character that can occur in a rendered clause line or header:
word characters, subset-safe text characters, parentheses and the single
quote.  (Newline, carriage return and the equals sign are excluded.) -/
def lineChar (c : Char) : Bool :=
  isWordChar c || safeTextChar c || c == '(' || c == ')' || c == '\''

lemma lineChar_word (c : Char) (h : isWordChar c = true) : lineChar c = true := by
  simp [lineChar, h]

lemma lineChar_safe (c : Char) (h : safeTextChar c = true) : lineChar c = true := by
  simp [lineChar, h]

lemma natToDec_all (P : Char → Bool) (hP : ∀ d, P (digitChar d) = true) (n : Nat) :
    (natToDec n).data.all P = true := by
  apply List.all_eq_true.mpr
  intro c hc
  exact decGo_all P hP (n + 1) n c hc

lemma natToDec_lineChar (n : Nat) : (natToDec n).data.all lineChar = true :=
  natToDec_all lineChar
    (fun d => lineChar_word _ (digitChar_fact isWordChar (by decide) d)) n

lemma ident_all (n : String) (h : pyIsIdentifier n = true) :
    n.data.all lineChar = true :=
  List.all_eq_true.mpr (fun c hc => lineChar_word c (ident_chars n h c hc))

lemma all_ite (P : Prop) [Decidable P] (x y : String) (Q : Char → Bool)
    (hx : x.data.all Q = true) (hy : y.data.all Q = true) :
    (if P then x else y).data.all Q = true := by
  split <;> assumption

lemma typeKw_lineChar (f : Field) : (typeKw f).data.all lineChar = true := by
  unfold typeKw
  split
  · simp only [String.data_append, List.all_append, Bool.and_eq_true]
    exact ⟨⟨by decide, natToDec_lineChar _⟩, by decide⟩
  · split
    · simp only [String.data_append, List.all_append, Bool.and_eq_true]
      exact ⟨⟨by decide, natToDec_lineChar _⟩, by decide⟩
    · split
      · simp only [String.data_append, List.all_append, Bool.and_eq_true]
        exact ⟨⟨by decide, natToDec_lineChar _⟩, by decide⟩
      · split
        · simp only [String.data_append, List.all_append, Bool.and_eq_true]
          exact ⟨⟨by decide, natToDec_lineChar _⟩, by decide⟩
        · split
          · simp only [String.data_append, List.all_append, Bool.and_eq_true]
            exact ⟨⟨by decide, natToDec_lineChar _⟩, by decide⟩
          · split
            · decide
            · split
              · decide
              · split
                · simp only [String.data_append, List.all_append, Bool.and_eq_true]
                  exact ⟨⟨⟨⟨by decide, natToDec_lineChar _⟩, by decide⟩,
                    natToDec_lineChar _⟩, by decide⟩
                · split
                  · decide
                  · split
                    · decide
                    · decide

lemma default_clause_lineChar (d : Option DefaultV)
    (hd : d = none ∨ ∃ s, d = some (.str s) ∧ s.data.all safeTextChar = true) :
    (_default_clause d).data.all lineChar = true := by
  rcases hd with hd | ⟨str0, hd, hsafe⟩
  · rw [hd]; decide
  · rw [hd]
    unfold _default_clause
    have hs : str0.data.all lineChar = true :=
      List.all_eq_true.mpr (fun c hc =>
        lineChar_safe c (List.all_eq_true.mp hsafe c hc))
    apply all_ite
    · simp only [String.data_append, List.all_append, Bool.and_eq_true]
      exact ⟨by decide, hs⟩
    · simp only [String.data_append, List.all_append, Bool.and_eq_true]
      exact ⟨⟨by decide, hs⟩, by decide⟩

lemma fieldLineStr_lineChar (f : Field) (hf : acceptedField f = true) :
    (fieldLineStr f).data.all lineChar = true := by
  obtain ⟨c, hc, hcsafe⟩ := acceptedField_comment f hf
  unfold fieldLineStr commentClause
  rw [hc]
  simp only [Option.getD_some]
  have hcall : c.data.all lineChar = true :=
    List.all_eq_true.mpr (fun ch hch =>
      lineChar_safe ch (List.all_eq_true.mp hcsafe ch hch))
  simp only [String.data_append, List.all_append, Bool.and_eq_true]
  refine ⟨⟨⟨⟨⟨⟨⟨⟨⟨by decide, ?_⟩, by decide⟩, by decide⟩, typeKw_lineChar f⟩, ?_⟩, ?_⟩,
    ?_⟩, ?_⟩, ?_⟩
  · exact ident_all f.name (acceptedField_name f hf)
  · exact all_ite _ _ _ _ (by decide) (by decide)
  · exact all_ite _ _ _ _ (by decide) (by decide)
  · exact all_ite _ _ _ _ (by decide) (by decide)
  · exact default_clause_lineChar f.default (acceptedField_default f hf)
  · apply all_ite
    · simp only [String.data_append, List.all_append, Bool.and_eq_true]
      exact ⟨⟨by decide, hcall⟩, by decide⟩
    · decide

lemma joinSep_all (sep : String) (Q : Char → Bool) (hsep : sep.data.all Q = true) :
    ∀ (l : List String), (∀ x ∈ l, x.data.all Q = true) →
    (joinSep sep l).data.all Q = true := by
  intro l
  induction l with
  | nil => intro _; rfl
  | cons x rest ih =>
    intro h
    cases rest with
    | nil => exact h x (by simp)
    | cons y rest2 =>
      show ((x ++ sep ++ joinSep sep (y :: rest2)).data.all Q) = true
      simp only [String.data_append, List.all_append, Bool.and_eq_true]
      exact ⟨⟨h x (by simp), hsep⟩, ih (fun z hz => h z (by simp [hz]))⟩

lemma nameList_all (names : List String) (h : ∀ n ∈ names, pyIsIdentifier n = true) :
    ∀ x ∈ names.map (fun n => "`" ++ n ++ "`"), x.data.all lineChar = true := by
  intro x hx
  obtain ⟨n, hn, hx2⟩ := List.mem_map.mp hx
  subst hx2
  simp only [String.data_append, List.all_append, Bool.and_eq_true]
  exact ⟨⟨by decide, ident_all n (h n hn)⟩, by decide⟩

lemma pkLineStr_lineChar (pk : PrimaryKey) (h : acceptedPK (some pk) = true) :
    (pkLineStr pk).data.all lineChar = true := by
  obtain ⟨_, _, hnames, hit⟩ := acceptedPK_some pk h
  unfold pkLineStr
  simp only [String.data_append, List.all_append, Bool.and_eq_true]
  refine ⟨⟨⟨by decide, ?_⟩, by decide⟩, ?_⟩
  · exact joinSep_all ", " lineChar (by decide) _ (nameList_all pk.fields hnames)
  · apply all_ite
    · simp only [String.data_append, List.all_append, Bool.and_eq_true]
      refine ⟨by decide, ?_⟩
      rcases hit with hit | ⟨_, hword, hup⟩
      · rw [hit]; decide
      · rw [hup]
        exact List.all_eq_true.mpr (fun c hc => lineChar_word c (hword c hc))
    · decide

lemma ukLineStr_lineChar (uk : UniqueKey) (h : acceptedUK uk = true) :
    (ukLineStr uk).data.all lineChar = true := by
  simp only [acceptedUK, Bool.and_eq_true] at h
  unfold ukLineStr
  simp only [String.data_append, List.all_append, Bool.and_eq_true]
  refine ⟨⟨⟨⟨by decide, ident_all uk.name h.1.1⟩, by decide⟩, ?_⟩, by decide⟩
  exact joinSep_all ", " lineChar (by decide) _
    (nameList_all uk.fields (fun n hn => List.all_eq_true.mp h.2 n hn))

lemma acceptedIdx_parts (idx : IndexSpec) (h : acceptedIdx idx = true) :
    pyIsIdentifier idx.name = true ∧ idx.fields.isEmpty = false ∧
    (∀ n ∈ idx.fields, pyIsIdentifier n = true) ∧ idx.type = "normal" ∧
    idx.comment.data.all safeTextChar = true := by
  simp only [acceptedIdx, Bool.and_eq_true] at h
  obtain ⟨⟨⟨⟨h1, h2⟩, h3⟩, h4⟩, h5⟩ := h
  exact ⟨h1, by simpa using h2, fun n hn => List.all_eq_true.mp h3 n hn,
    by simpa using h4, h5⟩

lemma idxLineStr_lineChar (idx : IndexSpec) (h : acceptedIdx idx = true) :
    (idxLineStr idx).data.all lineChar = true := by
  obtain ⟨hn, _, hnames, _, hsafe⟩ := acceptedIdx_parts idx h
  have hrep : pyReplace idx.comment "'" "\\'" = idx.comment :=
    pyReplace_id idx.comment '\'' [] "'" "\\'" rfl (safe_no_squote idx.comment hsafe)
  unfold idxLineStr
  rw [hrep]
  simp only [String.data_append, List.all_append, Bool.and_eq_true]
  refine ⟨⟨⟨⟨⟨by decide, ident_all idx.name hn⟩, by decide⟩,
    joinSep_all ", " lineChar (by decide) _ (nameList_all idx.fields hnames)⟩,
    by decide⟩, ?_⟩
  apply all_ite
  · simp only [String.data_append, List.all_append, Bool.and_eq_true]
    refine ⟨⟨by decide, ?_⟩, by decide⟩
    exact List.all_eq_true.mpr (fun c hc =>
      lineChar_safe c (List.all_eq_true.mp hsafe c hc))
  · decide

lemma headerLine_lineChar (n : String) (h : pyIsIdentifier n = true) :
    (headerLine n).data.all lineChar = true := by
  unfold headerLine
  simp only [String.data_append, List.all_append, Bool.and_eq_true]
  exact ⟨⟨by decide, ident_all n h⟩, by decide⟩

lemma clauseList_lineChar (tc : TableConfig) (h : Accepted tc) :
    ∀ l ∈ clauseList tc, l.data.all lineChar = true := by
  obtain ⟨hname, hcmt, hfields, hnodup, hpk, huks, hidxs, _, _, _, _, _⟩ := h
  intro l hl
  unfold clauseList at hl
  rcases List.mem_append.mp hl with hl1 | hl4
  rcases List.mem_append.mp hl1 with hl2 | hl3
  rcases List.mem_append.mp hl2 with hlf | hlpk
  · obtain ⟨f, hf, he⟩ := List.mem_map.mp hlf
    exact he ▸ fieldLineStr_lineChar f (hfields f hf)
  · cases hp : tc.primary_key with
    | none => rw [hp] at hlpk; simp at hlpk
    | some pk =>
      rw [hp] at hlpk
      dsimp only at hlpk
      have hne := (acceptedPK_some pk (hp ▸ hpk)).2.1
      rw [hne] at hlpk
      simp only [Bool.false_eq_true, if_false, List.mem_singleton] at hlpk
      exact hlpk ▸ pkLineStr_lineChar pk (hp ▸ hpk)
  · obtain ⟨uk, huk, he⟩ := List.mem_map.mp hl3
    exact he ▸ ukLineStr_lineChar uk (huks uk huk)
  · obtain ⟨idx, hidx, he⟩ := List.mem_map.mp hl4
    exact he ▸ idxLineStr_lineChar idx (hidxs idx hidx)

lemma lineChar_no_nl (c : Char) (h : lineChar c = true) : (c == '\n') = false := by
  by_cases hc : c = '\n'
  · subst hc
    exact absurd h (by decide)
  · exact beq_eq_false_iff_ne.mpr hc

lemma lineChar_no_eq (c : Char) (h : lineChar c = true) : c ≠ '=' := by
  intro he
  subst he
  exact absurd h (by decide)

/-! ## Parsing the rendered statement: table name -/

/-- The text captured as the body group by both body patterns. -/
def bodyStr (tc : TableConfig) : String :=
  "\n" ++ (if midLines tc = [] then "" else joinSep ",\n" (midLines tc) ++ "\n")

lemma wordChar_not_space (c : Char) (h : isWordChar c = true) : isSpaceChar c = false := by
  cases hsp : isSpaceChar c with
  | false => rfl
  | true =>
    exfalso
    simp only [isSpaceChar, Bool.or_eq_true, beq_iff_eq] at hsp
    rcases hsp with ((((h1 | h1) | h1) | h1) | h1) | h1 <;> subst h1 <;>
      exact absurd h (by decide)

lemma wordChar_ne (c t : Char) (ht : isWordChar t = false) (hc : isWordChar c = true) :
    c ≠ t := by
  intro he
  subst he
  rw [hc] at ht
  exact Bool.noConfusion ht

lemma ident_data_ne_nil (n : String) (h : pyIsIdentifier n = true) : n.data ≠ [] := by
  intro he
  unfold pyIsIdentifier at h
  rw [he] at h
  exact Bool.noConfusion h

lemma tableName_hit (nm tail0 : List Char) (hw : ∀ c ∈ nm, isWordChar c = true)
    (hne : nm ≠ []) :
    reSearchL P_tableName ("create table ".data ++ (nm ++ (' ' :: '(' :: tail0))) =
      some [(1, nm)] := by
  apply reSearchL_hit
  rw [show ("create table ".data : List Char) =
    "create".data ++ ([' '] ++ ("table".data ++ [' '])) from by decide]
  simp only [List.append_assoc]
  unfold P_tableName
  simp only [reSeqs, litS]
  rw [reM_seq_def]
  refine reM_lit_hit true ("CREATE".data) ("create".data) _ _ _ _ (by decide) ?_
  rw [reM_seq_def]
  refine reM_plusG_hit isSpaceChar [' '] _ _ _ _ (by decide) (by decide) ?_ ?_
  · show isSpaceChar 't' = false
    decide
  rw [reM_seq_def]
  refine reM_lit_hit true ("TABLE".data) ("table".data) _ _ _ _ (by decide) ?_
  rw [reM_seq_def]
  obtain ⟨c0, nm2, hnm⟩ : ∃ c0 nm2, nm = c0 :: nm2 := by
    cases nm with
    | nil => exact absurd rfl hne
    | cons a b => exact ⟨a, b, rfl⟩
  subst hnm
  refine reM_plusG_hit isSpaceChar [' '] _ _ _ _ (by decide) (by decide) ?_ ?_
  · show isSpaceChar c0 = false
    exact wordChar_not_space c0 (hw c0 (by simp))
  rw [reM_seq_def]
  refine reM_opt_skip _ _ _ _ _ ?_ ?_
  · apply reM_lit_head_fail
    show charEqCI true '`' c0 = false
    exact charEqCI_backtick_false c0 (wordChar_ne c0 '`' (by decide) (hw c0 (by simp)))
  rw [reM_seq_def]
  rw [reM_group_def]
  refine reM_plusG_hit isWordChar (c0 :: nm2) (' ' :: '(' :: tail0) _ _ _ hw (by simp)
    ?_ ?_
  · show isWordChar ' ' = false
    decide
  rw [take_sub_append]
  refine reM_opt_skip _ _ _ _ _ ?_ ?_
  · apply reM_lit_head_fail
    show charEqCI true '`' ' ' = false
    decide
  rfl

lemma extractTableName_prefix (nm rest : String) (hid : pyIsIdentifier nm = true) :
    SQLParser.extractTableName ("create table " ++ nm ++ " (" ++ rest) = some nm := by
  unfold SQLParser.extractTableName reSearch
  have hdata : ("create table " ++ nm ++ " (" ++ rest).data =
      "create table ".data ++ (nm.data ++ (' ' :: '(' :: rest.data)) := by
    simp only [String.data_append, List.append_assoc]
    rfl
  rw [hdata, tableName_hit nm.data rest.data (ident_chars nm hid) (ident_data_ne_nil nm hid)]
  rfl

lemma renderText_shape (tc : TableConfig) :
    renderText tc = "create table " ++ tc.table_name ++ " (" ++
      (bodyStr tc ++ tailLine tc.table_comment) := by
  unfold renderText headerLine bodyStr
  apply String.ext
  simp [String.data_append]

lemma extractTableName_render (tc : TableConfig) (hid : pyIsIdentifier tc.table_name = true) :
    SQLParser.extractTableName (renderText tc) = some tc.table_name := by
  rw [renderText_shape]
  exact extractTableName_prefix _ _ hid

/-! ## Parsing the rendered statement: body extraction -/

lemma tableDef_fail_noEq (cs : List Char) (hno : ∀ c ∈ cs, c ≠ '=') (caps : Caps)
    (k : List Char → Caps → Option Caps) : reM P_tableDef cs caps k = none := by
  unfold P_tableDef
  simp only [reSeqs, litS]
  apply reM_seq_none_right
  intro cs2 caps2 hs2
  apply reM_seq_none_right
  intro cs3 caps3 hs3
  apply reM_seq_none_right
  intro cs4 caps4 hs4
  apply reM_seq_none_right
  intro cs5 caps5 hs5
  apply reM_seq_none_right
  intro cs6 caps6 hs6
  rw [reM_seq_def]
  apply reM_lit_head_fail
  cases cs6 with
  | nil => trivial
  | cons c rest =>
    show charEqCI true '=' c = false
    apply charEqCI_eq_char_false
    have hc : c ∈ cs :=
      ((hs6.trans (hs5.trans (hs4.trans (hs3.trans hs2)))).subset) (by simp)
    exact hno c hc

lemma all_no_eq_of_lineChar (s : String) (h : s.data.all lineChar = true) :
    ∀ c ∈ s.data, c ≠ '=' :=
  fun c hc => lineChar_no_eq c (List.all_eq_true.mp h c hc)

lemma renderText_noEq (tc : TableConfig) (h : Accepted tc)
    (htc : tc.table_comment = "") : ∀ c ∈ (renderText tc).data, c ≠ '=' := by
  have hclause := clauseList_lineChar tc h
  have hname : pyIsIdentifier tc.table_name = true := h.1
  intro c hc
  unfold renderText at hc
  rw [htc] at hc
  simp only [String.data_append, List.mem_append] at hc
  rcases hc with ((hc1 | hc2) | hc3) | hc4
  · exact all_no_eq_of_lineChar _ (headerLine_lineChar _ hname) c hc1
  · have : c = '\n' := by simpa using hc2
    subst this
    decide
  · by_cases hm : midLines tc = []
    · rw [if_pos hm] at hc3
      simp at hc3
    · rw [if_neg hm] at hc3
      simp only [String.data_append, List.mem_append] at hc3
      rcases hc3 with hc5 | hc6
      · have hall : (joinSep ",\n" (midLines tc)).data.all
            (fun ch => !(ch == '=')) = true := by
          apply joinSep_all ",\n" _ (by decide)
          intro x hx
          obtain ⟨cl, hcl, he⟩ := List.mem_map.mp hx
          subst he
          simp only [String.data_append, List.all_append, Bool.and_eq_true]
          refine ⟨by decide, ?_⟩
          apply List.all_eq_true.mpr
          intro ch hch
          have h9 := lineChar_no_eq ch (List.all_eq_true.mp (hclause cl hcl) ch hch)
          simpa using h9
        have h8 := List.all_eq_true.mp hall c hc5
        simpa using h8
      · have : c = '\n' := by simpa using hc6
        subst this
        decide
  · unfold tailLine at hc4
    simp only [bne_self_eq_false, Bool.false_eq_true, if_false] at hc4
    have : c = ')' ∨ c = ';' := by simpa using hc4
    rcases this with he | he <;> subst he <;> decide

lemma prefix_no_lparen (nm : List Char) (hw : ∀ c ∈ nm, isWordChar c = true) :
    ∀ c ∈ ("create table ".data ++ (nm ++ [' '])), c ≠ '(' := by
  intro c hc
  rcases List.mem_append.mp hc with hc1 | hc2
  · have hall : ∀ c ∈ ("create table ".data : List Char), c ≠ '(' := by decide
    exact hall c hc1
  · rcases List.mem_append.mp hc2 with hc3 | hc4
    · exact wordChar_ne c '(' (by decide) (hw c hc3)
    · have : c = ' ' := by simpa using hc4
      subst this
      decide

lemma fallback_hit (body tail2 : List Char) (hnoR : ∀ c ∈ tail2, c ≠ ')') :
    reM P_tableDefFallback ('(' :: (body ++ (')' :: tail2))) []
      (fun _ caps => some caps) = some [(1, body)] := by
  unfold P_tableDefFallback
  simp only [reSeqs, litS]
  rw [reM_seq_def]
  refine reM_lit_hit true ("(".data) ("(".data) _ _ _ _ (by decide) ?_
  rw [reM_seq_def, reM_group_def]
  refine reM_starG_hit_last anyT body (')' :: tail2) _ _ _ (by simp [anyT])
    (by simp [anyT]) ?_ ?_
  · intro i hi0 hile
    rw [show ((')' :: tail2).drop i) = tail2.drop (i - 1) from by
      cases i with
      | zero => omega
      | succ j => simp]
    cases hdrop : tail2.drop (i - 1) with
    | nil => apply reM_lit_head_fail; trivial
    | cons c r =>
      apply reM_lit_head_fail
      show charEqCI true ')' c = false
      apply charEqCI_rparen_false
      have hcm : c ∈ tail2 := (List.drop_suffix (i - 1) tail2).subset (hdrop ▸ by simp)
      exact hnoR c hcm
  · simp only [List.append_eq]
    rw [take_sub_append]
    refine reM_lit_hit true (")".data) (")".data) _ _ _ _ (by decide) ?_
    rfl

lemma extractBody_render_nocmt (tc : TableConfig) (h : Accepted tc)
    (htc : tc.table_comment = "") :
    SQLParser.extractBody (renderText tc) = some (bodyStr tc, "") := by
  unfold SQLParser.extractBody
  have h1 : reSearch P_tableDef (renderText tc) = none := by
    unfold reSearch
    apply reSearchL_none
    intro mid hs
    exact tableDef_fail_noEq mid
      (fun c hc => renderText_noEq tc h htc c (hs.subset hc)) [] _
  rw [h1]
  have hdata : (renderText tc).data =
      ("create table ".data ++ (tc.table_name.data ++ [' '])) ++
        ('(' :: ((bodyStr tc).data ++ (')' :: [';']))) := by
    rw [renderText_shape, htc]
    unfold tailLine
    simp only [bne_self_eq_false, Bool.false_eq_true, if_false]
    simp only [String.data_append, List.append_assoc]
    rfl
  have h2 : reSearch P_tableDefFallback (renderText tc) =
      some [(1, (bodyStr tc).data)] := by
    unfold reSearch
    rw [hdata]
    rw [reSearchL_skip P_tableDefFallback _ _ ?hfail]
    case hfail =>
      intro mid hne hs
      cases mid with
      | nil => exact absurd rfl hne
      | cons c rest =>
        unfold P_tableDefFallback
        simp only [reSeqs, litS]
        rw [reM_seq_def]
        apply reM_lit_head_fail
        show charEqCI true '(' c = false
        apply charEqCI_lparen_false
        exact prefix_no_lparen tc.table_name.data
          (ident_chars _ h.1) c (hs.subset (by simp))
    apply reSearchL_hit
    exact fallback_hit (bodyStr tc).data [';'] (by decide)
  rw [h2]
  rfl

lemma safe_not_quoteP (c : Char) (h : safeTextChar c = true) : quoteP c = false := by
  obtain ⟨h1, h2, _, _, _, _, _, _⟩ := safe_char_facts c h
  simp [quoteP, beq_eq_false_iff_ne.mpr h1, beq_eq_false_iff_ne.mpr h2]

lemma data_ne_nil (s : String) (h : s ≠ "") : s.data ≠ [] := by
  intro he
  apply h
  apply String.ext
  rw [he]

lemma take_sub_of_eq_append (cs xs rest : List Char) (h : cs = xs ++ rest) :
    cs.take (cs.length - rest.length) = xs := by
  subst h
  exact take_sub_append xs rest

lemma drop_cons_pos (c : Char) (l : List Char) (i : Nat) (h : 0 < i) :
    (c :: l).drop i = l.drop (i - 1) := by
  cases i with
  | zero => omega
  | succ j => simp

lemma tableDef_hit (body tcc : List Char)
    (hsafe : ∀ c ∈ tcc, safeTextChar c = true) (hne : tcc ≠ []) :
    reM P_tableDef ('(' :: (body ++ (')' ::
        (' ' :: ("ENGINE".data ++ ('=' :: ("InnoDB DEFAULT CHARSET=utf8 ".data ++
          ("COMMENT".data ++ ('=' :: ('\'' :: (tcc ++ ['\'', ';'])))))))))))
      [] (fun _ caps => some caps) =
      some [(3, tcc), (2, "ENGINE".data), (1, body)] := by
  unfold P_tableDef
  simp only [reSeqs, litS]
  rw [reM_seq_def]
  refine reM_lit_hit true ("(".data) ("(".data) _ _ _ _ (by decide) ?_
  rw [reM_seq_def, reM_group_def]
  refine reM_starG_hit_last anyT body
    (')' :: (' ' :: ("ENGINE".data ++ ('=' :: ("InnoDB DEFAULT CHARSET=utf8 ".data ++
      ("COMMENT".data ++ ('=' :: ('\'' :: (tcc ++ ['\'', ';'])))))))))
    _ _ _ (by simp [anyT]) (by simp [anyT]) ?_ ?_
  · intro i hi0 hile
    have heq : (' ' :: ("ENGINE".data ++ ('=' :: ("InnoDB DEFAULT CHARSET=utf8 ".data ++
        ("COMMENT".data ++ ('=' :: ('\'' :: (tcc ++ ['\'', ';'])))))))) =
        " ENGINE=InnoDB DEFAULT CHARSET=utf8 COMMENT='".data ++ (tcc ++ ['\'', ';']) := by
      simp
    rw [drop_cons_pos _ _ i hi0]
    rw [heq]
    cases hdrop : (" ENGINE=InnoDB DEFAULT CHARSET=utf8 COMMENT='".data ++
        (tcc ++ ['\'', ';'])).drop (i - 1) with
    | nil => rw [reM_seq_def]; apply reM_lit_head_fail; trivial
    | cons c r =>
      rw [reM_seq_def]
      apply reM_lit_head_fail
      show charEqCI true ')' c = false
      apply charEqCI_rparen_false
      have hcm : c ∈ (" ENGINE=InnoDB DEFAULT CHARSET=utf8 COMMENT='".data ++
          (tcc ++ ['\'', ';'])) := by
        have hsuf := List.drop_suffix (i - 1)
          (" ENGINE=InnoDB DEFAULT CHARSET=utf8 COMMENT='".data ++ (tcc ++ ['\'', ';']))
        rw [hdrop] at hsuf
        exact hsuf.subset (by simp)
      rcases List.mem_append.mp hcm with hc1 | hc2
      · revert hc1
        have hall : ∀ c ∈ (" ENGINE=InnoDB DEFAULT CHARSET=utf8 COMMENT='".data :
            List Char), c ≠ ')' := by decide
        exact fun hc1 => hall c hc1
      · rcases List.mem_append.mp hc2 with hc3 | hc4
        · exact (safe_char_facts c (hsafe c hc3)).2.2.2.2.2.2.2
        · have : c = '\'' ∨ c = ';' := by simpa using hc4
          rcases this with he | he <;> subst he <;> decide
  · simp only [List.append_eq]
    rw [take_sub_append]
    rw [reM_seq_def]
    refine reM_lit_hit true (")".data) (")".data) _ _ _ _ (by decide) ?_
    refine reM_starG_hit isSpaceChar [' '] _ _ _ _ (by decide) ?_ ?_
    · show isSpaceChar 'E' = false
      decide
    rw [reM_seq_def]
    refine reM_opt_hit _ _ _ _ _ ?_
    rw [reM_group_def]
    refine reM_alt_left _ _ _ _ _ _ ?_
    refine reM_lit_hit true ("ENGINE".data) ("ENGINE".data) _ _ _ _ (by decide) ?_
    rw [reM_seq_def]
    refine reM_lit_hit true ("=".data) ("=".data) _ _ _ _ (by decide) ?_
    rw [reM_seq_def]
    refine reM_starL_hit anyT ("InnoDB DEFAULT CHARSET=utf8 ".data) _ _ _ _
      (by simp [anyT]) ?_ ?_
    · intro i hi
      rw [reM_seq_def]
      rw [← List.append_assoc]
      refine reM_lit_fail true _ _ _ _ ?_
      have hf : ∀ j, j < 28 → matchLit true ("COMMENT".data)
          (("InnoDB DEFAULT CHARSET=utf8 ".data.drop j) ++ "COMMENT".data) = none := by
        decide
      apply matchLit_none_extend
      · have h28 : ("InnoDB DEFAULT CHARSET=utf8 ".data : List Char).length = 28 := by
          decide
        have h7 : ("COMMENT".data : List Char).length = 7 := by decide
        simp only [List.length_append, List.length_drop, h28, h7]
        omega
      · have h28 : ("InnoDB DEFAULT CHARSET=utf8 ".data : List Char).length = 28 := by
          decide
        rw [h28] at hi
        exact hf i (by omega)
    rw [reM_seq_def]
    refine reM_lit_hit true ("COMMENT".data) ("COMMENT".data) _ _ _ _ (by decide) ?_
    rw [reM_seq_def]
    refine reM_starG_hit isSpaceChar [] _ _ _ _ (by simp) ?_ ?_
    · show isSpaceChar '=' = false
      decide
    rw [reM_seq_def]
    refine reM_lit_hit true ("=".data) ("=".data) _ _ _ _ (by decide) ?_
    rw [reM_seq_def]
    refine reM_starG_hit isSpaceChar [] _ _ _ _ (by simp) ?_ ?_
    · show isSpaceChar '\'' = false
      decide
    rw [reM_seq_def]
    refine reM_cls_hit quoteP '\'' _ _ _ _ (by decide) ?_
    rw [reM_seq_def, reM_group_def]
    obtain ⟨t0, t2, ht⟩ : ∃ t0 t2, tcc = t0 :: t2 := by
      cases tcc with
      | nil => exact absurd rfl hne
      | cons a b => exact ⟨a, b, rfl⟩
    subst ht
    refine reM_plusL_hit anyT t0 t2 (['\'', ';']) _ _ _ (by simp [anyT]) ?_ ?_
    · intro i hi
      have hdropne : t2.drop i ≠ [] := by
        intro hn
        have hlen := congrArg List.length hn
        simp at hlen
        omega
      cases hdrop : t2.drop i with
      | nil => exact absurd hdrop hdropne
      | cons c r =>
        have hcm : c ∈ t2 := (List.drop_suffix i t2).subset (hdrop ▸ by simp)
        have hq : quoteP c = false := safe_not_quoteP c (hsafe c (by simp [hcm]))
        simp [List.cons_append, reM, hq]
    · simp only [List.append_eq]
      rw [take_sub_append]
      refine reM_cls_hit quoteP '\'' _ _ _ _ (by decide) ?_
      refine congrArg some ?_
      refine congrArg₂ List.cons rfl ?_
      refine congrArg₂ List.cons ?_ rfl
      refine congrArg (Prod.mk 2) ?_
      exact take_sub_of_eq_append _ ("ENGINE".data) _ rfl

lemma extractBody_render_cmt (tc : TableConfig) (h : Accepted tc)
    (htc : tc.table_comment ≠ "") :
    SQLParser.extractBody (renderText tc) = some (bodyStr tc, tc.table_comment) := by
  unfold SQLParser.extractBody
  have hdata : (renderText tc).data =
      ("create table ".data ++ (tc.table_name.data ++ [' '])) ++
        ('(' :: ((bodyStr tc).data ++ (')' ::
          (' ' :: ("ENGINE".data ++ ('=' :: ("InnoDB DEFAULT CHARSET=utf8 ".data ++
            ("COMMENT".data ++ ('=' :: ('\'' ::
              (tc.table_comment.data ++ ['\'', ';']))))))))))) := by
    rw [renderText_shape]
    unfold tailLine
    rw [if_pos (by simpa using htc)]
    simp only [String.data_append, List.append_assoc]
    rfl
  have h1 : reSearch P_tableDef (renderText tc) =
      some [(3, tc.table_comment.data), (2, "ENGINE".data), (1, (bodyStr tc).data)] := by
    unfold reSearch
    rw [hdata]
    rw [reSearchL_skip P_tableDef _ _ ?hfail]
    case hfail =>
      intro mid hne hs
      cases mid with
      | nil => exact absurd rfl hne
      | cons c rest =>
        unfold P_tableDef
        simp only [reSeqs, litS]
        rw [reM_seq_def]
        apply reM_lit_head_fail
        show charEqCI true '(' c = false
        apply charEqCI_lparen_false
        exact prefix_no_lparen tc.table_name.data
          (ident_chars _ h.1) c (hs.subset (by simp))
    apply reSearchL_hit
    exact tableDef_hit (bodyStr tc).data tc.table_comment.data
      (fun c hc => List.all_eq_true.mp h.2.1 c hc) (data_ne_nil _ htc)
  rw [h1]
  rfl

/-! ## Parsing a rendered field line: stage lemmas for P_field -/

lemma suffix_singleton (a : Char) (suf : List Char) (h : suf <:+ [a]) :
    suf = [] ∨ suf = [a] := by
  obtain ⟨pre, hpre⟩ := h
  cases pre with
  | nil => right; simpa using hpre
  | cons x xs =>
    left
    have hlen := congrArg List.length hpre
    simp only [List.length_append, List.length_cons, List.length_nil] at hlen
    have h0 : suf.length = 0 := by omega
    exact List.eq_nil_of_length_eq_zero h0

lemma pf_nn_hit (rest : List Char) (caps : Caps) (k : List Char → Caps → Option Caps)
    (R : Caps) (hk : k rest ((3, (" NOT NULL" : String).data) :: caps) = some R) :
    reM (.opt (.group 3 (reSeqs [.plusC isSpaceChar false, litS true "NOT",
      .plusC isSpaceChar false, litS true "NULL"])))
      (' ' :: ("NOT".data ++ (' ' :: ("NULL".data ++ rest)))) caps k = some R := by
  apply reM_opt_hit
  rw [reM_group_def]
  simp only [reSeqs, litS]
  rw [reM_seq_def]
  refine reM_plusG_hit isSpaceChar [' '] _ _ _ _ (by decide) (by decide) ?_ ?_
  · show isSpaceChar 'N' = false
    decide
  rw [reM_seq_def]
  refine reM_lit_hit true ("NOT".data) ("NOT".data) _ _ _ _ (by decide) ?_
  rw [reM_seq_def]
  refine reM_plusG_hit isSpaceChar [' '] _ _ _ _ (by decide) (by decide) ?_ ?_
  · show isSpaceChar 'N' = false
    decide
  refine reM_lit_hit true ("NULL".data) ("NULL".data) _ _ _ _ (by decide) ?_
  rw [take_sub_of_eq_append (' ' :: ("NOT".data ++ (' ' :: ("NULL".data ++ rest))))
    (" NOT NULL".data) rest (by simp)]
  exact hk

lemma pf_nn_skip (rest : List Char) (caps : Caps) (k : List Char → Caps → Option Caps)
    (R : Caps)
    (hrest : rest = [] ∨ ∃ c r2, rest = ' ' :: c :: r2 ∧ isSpaceChar c = false ∧
      charEqCI true 'N' c = false)
    (hk : k rest caps = some R) :
    reM (.opt (.group 3 (reSeqs [.plusC isSpaceChar false, litS true "NOT",
      .plusC isSpaceChar false, litS true "NULL"]))) rest caps k = some R := by
  refine reM_opt_skip _ _ _ _ _ ?_ hk
  apply reM_group_fail
  intro k2
  rcases hrest with hre | ⟨c, r2, hre, hsp, hci⟩
  · subst hre; rfl
  · subst hre
    simp only [reSeqs, litS]
    refine reM_seq_plusG_none isSpaceChar _ [' '] (c :: r2) caps k2 (by decide) hsp ?_
    intro suf hsuf caps3
    rw [reM_seq_def]
    apply reM_lit_head_fail
    rcases suffix_singleton ' ' suf hsuf with he | he <;> subst he
    · exact hci
    · show charEqCI true 'N' ' ' = false
      decide

lemma pf_ai_hit (rest : List Char) (caps : Caps) (k : List Char → Caps → Option Caps)
    (R : Caps)
    (hk : k rest ((5, (" AUTO_INCREMENT" : String).data) :: caps) = some R) :
    reM (.opt (.group 5 (reSeqs [.plusC isSpaceChar false, litS true "AUTO_INCREMENT"])))
      (' ' :: ("AUTO_INCREMENT".data ++ rest)) caps k = some R := by
  apply reM_opt_hit
  rw [reM_group_def]
  simp only [reSeqs, litS]
  rw [reM_seq_def]
  refine reM_plusG_hit isSpaceChar [' '] _ _ _ _ (by decide) (by decide) ?_ ?_
  · show isSpaceChar 'A' = false
    decide
  refine reM_lit_hit true ("AUTO_INCREMENT".data) ("AUTO_INCREMENT".data) _ _ _ _
    (by decide) ?_
  rw [take_sub_of_eq_append (' ' :: ("AUTO_INCREMENT".data ++ rest))
    (" AUTO_INCREMENT".data) rest (by simp)]
  exact hk

lemma pf_ai_skip (rest : List Char) (caps : Caps) (k : List Char → Caps → Option Caps)
    (R : Caps)
    (hrest : rest = [] ∨ ∃ c r2, rest = ' ' :: c :: r2 ∧ isSpaceChar c = false ∧
      charEqCI true 'A' c = false)
    (hk : k rest caps = some R) :
    reM (.opt (.group 5 (reSeqs [.plusC isSpaceChar false, litS true "AUTO_INCREMENT"])))
      rest caps k = some R := by
  refine reM_opt_skip _ _ _ _ _ ?_ hk
  apply reM_group_fail
  intro k2
  rcases hrest with hre | ⟨c, r2, hre, hsp, hci⟩
  · subst hre; rfl
  · subst hre
    simp only [reSeqs, litS]
    refine reM_seq_plusG_none isSpaceChar _ [' '] (c :: r2) caps k2 (by decide) hsp ?_
    intro suf hsuf caps3
    apply reM_lit_head_fail
    rcases suffix_singleton ' ' suf hsuf with he | he <;> subst he
    · exact hci
    · show charEqCI true 'A' ' ' = false
      decide

lemma pf_def_skip (rest : List Char) (caps : Caps) (k : List Char → Caps → Option Caps)
    (R : Caps)
    (hrest : rest = [] ∨ ∃ c r2, rest = ' ' :: c :: r2 ∧ isSpaceChar c = false ∧
      charEqCI true 'D' c = false)
    (hk : k rest caps = some R) :
    reM (.opt (reSeqs [.plusC isSpaceChar false, litS true "DEFAULT",
      .plusC isSpaceChar false,
      .group 4 (.alt (reSeqs [litS true "'", .starC notSQuote false, litS true "'"])
        (.plusC notSpaceP false))])) rest caps k = some R := by
  refine reM_opt_skip _ _ _ _ _ ?_ hk
  rcases hrest with hre | ⟨c, r2, hre, hsp, hci⟩
  · subst hre; rfl
  · subst hre
    simp only [reSeqs, litS]
    refine reM_seq_plusG_none isSpaceChar _ [' '] (c :: r2) caps k (by decide) hsp ?_
    intro suf hsuf caps3
    rw [reM_seq_def]
    apply reM_lit_head_fail
    rcases suffix_singleton ' ' suf hsuf with he | he <;> subst he
    · exact hci
    · show charEqCI true 'D' ' ' = false
      decide

lemma pf_def_hit_digit (dv rest : List Char) (caps : Caps)
    (k : List Char → Caps → Option Caps) (R : Caps)
    (hdv : ∀ c ∈ dv, Char.isDigit c = true) (hdvne : dv ≠ [])
    (hrest : rest = [] ∨ ∃ r2, rest = ' ' :: r2)
    (hk : k rest ((4, dv) :: caps) = some R) :
    reM (.opt (reSeqs [.plusC isSpaceChar false, litS true "DEFAULT",
      .plusC isSpaceChar false,
      .group 4 (.alt (reSeqs [litS true "'", .starC notSQuote false, litS true "'"])
        (.plusC notSpaceP false))]))
      (' ' :: ("DEFAULT".data ++ (' ' :: (dv ++ rest)))) caps k = some R := by
  obtain ⟨d0, dv2, hdveq⟩ : ∃ d0 dv2, dv = d0 :: dv2 := by
    cases dv with
    | nil => exact absurd rfl hdvne
    | cons a b => exact ⟨a, b, rfl⟩
  subst hdveq
  apply reM_opt_hit
  simp only [reSeqs, litS]
  rw [reM_seq_def]
  refine reM_plusG_hit isSpaceChar [' '] _ _ _ _ (by decide) (by decide) ?_ ?_
  · show isSpaceChar 'D' = false
    decide
  rw [reM_seq_def]
  refine reM_lit_hit true ("DEFAULT".data) ("DEFAULT".data) _ _ _ _ (by decide) ?_
  rw [reM_seq_def]
  refine reM_plusG_hit isSpaceChar [' '] _ _ _ _ (by decide) (by decide) ?_ ?_
  · show isSpaceChar d0 = false
    exact wordChar_not_space d0 (by simp [isWordChar, Char.isAlphanum, hdv d0 (by simp)])
  rw [reM_group_def]
  refine reM_alt_right _ _ _ _ _ _ ?_ ?_
  · rw [reM_seq_def]
    apply reM_lit_head_fail
    show charEqCI true '\'' d0 = false
    apply charEqCI_squote_false
    intro he
    have hd := hdv d0 (by simp)
    rw [he] at hd
    exact absurd hd (by decide)
  refine reM_plusG_hit notSpaceP (d0 :: dv2) rest _ _ _ ?_ (by simp) ?_ ?_
  · intro c hc
    have hd := hdv c hc
    show (!isSpaceChar c) = true
    rw [wordChar_not_space c (by simp [isWordChar, Char.isAlphanum, hd])]
    rfl
  · rcases hrest with hre | ⟨r2, hre⟩ <;> subst hre
    · trivial
    · show notSpaceP ' ' = false
      decide
  simp only [List.append_eq]
  rw [take_sub_of_eq_append (d0 :: (dv2 ++ rest)) (d0 :: dv2) rest (by simp)]
  exact hk

lemma pf_def_hit_quoted (sv rest : List Char) (caps : Caps)
    (k : List Char → Caps → Option Caps) (R : Caps)
    (hsv : ∀ c ∈ sv, safeTextChar c = true)
    (hk : k rest ((4, '\'' :: (sv ++ ['\''])) :: caps) = some R) :
    reM (.opt (reSeqs [.plusC isSpaceChar false, litS true "DEFAULT",
      .plusC isSpaceChar false,
      .group 4 (.alt (reSeqs [litS true "'", .starC notSQuote false, litS true "'"])
        (.plusC notSpaceP false))]))
      (' ' :: ("DEFAULT".data ++ (' ' :: ('\'' :: (sv ++ ('\'' :: rest)))))) caps k =
      some R := by
  apply reM_opt_hit
  simp only [reSeqs, litS]
  rw [reM_seq_def]
  refine reM_plusG_hit isSpaceChar [' '] _ _ _ _ (by decide) (by decide) ?_ ?_
  · show isSpaceChar 'D' = false
    decide
  rw [reM_seq_def]
  refine reM_lit_hit true ("DEFAULT".data) ("DEFAULT".data) _ _ _ _ (by decide) ?_
  rw [reM_seq_def]
  refine reM_plusG_hit isSpaceChar [' '] _ _ _ _ (by decide) (by decide) ?_ ?_
  · show isSpaceChar '\'' = false
    decide
  rw [reM_group_def]
  refine reM_alt_left _ _ _ _ _ _ ?_
  rw [reM_seq_def]
  refine reM_lit_hit true ("'".data) ("'".data) _ _ _ _ (by decide) ?_
  rw [reM_seq_def]
  refine reM_starG_hit notSQuote sv ('\'' :: rest) _ _ _ ?_ ?_ ?_
  · intro c hc
    show (c != '\'') = true
    exact bne_iff_ne.mpr (safe_char_facts c (hsv c hc)).1
  · show notSQuote '\'' = false
    decide
  refine reM_lit_hit true ("'".data) ("'".data) _ _ _ _ (by decide) ?_
  rw [take_sub_of_eq_append ('\'' :: (sv ++ ('\'' :: rest))) ('\'' :: (sv ++ ['\'']))
    rest (by simp)]
  exact hk

lemma pf_cmt_skip (caps : Caps) (k : List Char → Caps → Option Caps)
    (R : Caps) (hk : k [] caps = some R) :
    reM (.opt (reSeqs [.plusC isSpaceChar false, litS true "COMMENT",
      .plusC isSpaceChar false, .group 6 (.cls quoteP),
      .group 7 (.starC anyNoNl true), .backref true 6])) [] caps k = some R := by
  refine reM_opt_skip _ _ _ _ _ ?_ hk
  rfl

lemma pf_cmt_hit (cv : List Char) (caps : Caps) (k : List Char → Caps → Option Caps)
    (R : Caps) (hcv : ∀ c ∈ cv, safeTextChar c = true)
    (hk : k [] ((7, cv) :: (6, ['\'']) :: caps) = some R) :
    reM (.opt (reSeqs [.plusC isSpaceChar false, litS true "COMMENT",
      .plusC isSpaceChar false, .group 6 (.cls quoteP),
      .group 7 (.starC anyNoNl true), .backref true 6]))
      (' ' :: ("COMMENT".data ++ (' ' :: ('\'' :: (cv ++ ['\'']))))) caps k = some R := by
  apply reM_opt_hit
  simp only [reSeqs, litS]
  rw [reM_seq_def]
  refine reM_plusG_hit isSpaceChar [' '] _ _ _ _ (by decide) (by decide) ?_ ?_
  · show isSpaceChar 'C' = false
    decide
  rw [reM_seq_def]
  refine reM_lit_hit true ("COMMENT".data) ("COMMENT".data) _ _ _ _ (by decide) ?_
  rw [reM_seq_def]
  refine reM_plusG_hit isSpaceChar [' '] _ _ _ _ (by decide) (by decide) ?_ ?_
  · show isSpaceChar '\'' = false
    decide
  rw [reM_seq_def, reM_group_def]
  refine reM_cls_hit quoteP '\'' _ _ _ _ (by decide) ?_
  rw [take_sub_of_eq_append ('\'' :: (cv ++ ['\''])) (['\'']) (cv ++ ['\''])
    (by simp)]
  rw [reM_seq_def, reM_group_def]
  refine reM_starL_hit anyNoNl cv ['\''] _ _ _ ?_ ?_ ?_
  · intro c hc
    show (c != '\n') = true
    exact bne_iff_ne.mpr (safe_char_facts c (hcv c hc)).2.2.2.1
  · intro i hi
    cases hdrop : cv.drop i with
    | nil =>
      exfalso
      have hlen := congrArg List.length hdrop
      simp at hlen
      omega
    | cons c r =>
      have hcm : c ∈ cv := (List.drop_suffix i cv).subset (hdrop ▸ by simp)
      refine reM_backref_fail true 6 '\'' [] _ _ _ rfl ?_
      show charEqCI true '\'' c = false
      exact charEqCI_squote_false c (safe_char_facts c (hcv c hcm)).1
  rw [take_sub_of_eq_append (cv ++ ['\'']) cv ['\''] rfl]
  refine reM_backref_hit true 6 ['\''] ['\''] [] _ _ _ rfl (by decide) ?_
  exact hk

lemma pf_uns_hit (rest : List Char) (caps : Caps) (k : List Char → Caps → Option Caps)
    (R : Caps) (hk : k rest caps = some R) :
    reM (.opt (reSeqs [.plusC isSpaceChar false, litS true "unsigned"]))
      (' ' :: ("unsigned".data ++ rest)) caps k = some R := by
  apply reM_opt_hit
  simp only [reSeqs, litS]
  rw [reM_seq_def]
  refine reM_plusG_hit isSpaceChar [' '] _ _ _ _ (by decide) (by decide) ?_ ?_
  · show isSpaceChar 'u' = false
    decide
  refine reM_lit_hit true ("unsigned".data) ("unsigned".data) _ _ _ _ (by decide) ?_
  exact hk

lemma pf_uns_skip (rest : List Char) (caps : Caps) (k : List Char → Caps → Option Caps)
    (R : Caps)
    (hrest : rest = [] ∨ ∃ c r2, rest = ' ' :: c :: r2 ∧ isSpaceChar c = false ∧
      charEqCI true 'u' c = false)
    (hk : k rest caps = some R) :
    reM (.opt (reSeqs [.plusC isSpaceChar false, litS true "unsigned"])) rest caps k =
      some R := by
  refine reM_opt_skip _ _ _ _ _ ?_ hk
  rcases hrest with hre | ⟨c, r2, hre, hsp, hci⟩
  · subst hre; rfl
  · subst hre
    simp only [reSeqs, litS]
    refine reM_seq_plusG_none isSpaceChar _ [' '] (c :: r2) caps k (by decide) hsp ?_
    intro suf hsuf caps3
    apply reM_lit_head_fail
    rcases suffix_singleton ' ' suf hsuf with he | he <;> subst he
    · exact hci
    · show charEqCI true 'u' ' ' = false
      decide

lemma pf_par_skip (rest : List Char) (caps : Caps) (k : List Char → Caps → Option Caps)
    (R : Caps) (hrest : headNot (fun c => charEqCI true '(' c) rest)
    (hk : k rest caps = some R) :
    reM (.opt (reSeqs [litS true "(", .plusC Char.isDigit false,
      .opt (reSeqs [litS true ",", .plusC Char.isDigit false]), litS true ")"]))
      rest caps k = some R := by
  refine reM_opt_skip _ _ _ _ _ ?_ hk
  simp only [reSeqs, litS]
  rw [reM_seq_def]
  exact reM_lit_head_fail true '(' [] rest caps _ hrest

lemma pf_type_plain (kw : List Char) (u : Bool) (rest : List Char) (caps : Caps)
    (k : List Char → Caps → Option Caps) (R : Caps)
    (hkw : ∀ c ∈ kw, alphaP c = true) (hkwne : kw ≠ [])
    (hrest : rest = [] ∨ ∃ c r2, rest = ' ' :: c :: r2 ∧ isSpaceChar c = false ∧
      charEqCI true 'u' c = false)
    (hk : k rest ((2, kw ++ (if u = true then ' ' :: "unsigned".data else [])) :: caps) =
      some R) :
    reM (.group 2 (reSeqs [.plusC alphaP false,
      .opt (reSeqs [litS true "(", .plusC Char.isDigit false,
        .opt (reSeqs [litS true ",", .plusC Char.isDigit false]), litS true ")"]),
      .opt (reSeqs [.plusC isSpaceChar false, litS true "unsigned"])]))
      (kw ++ ((if u = true then ' ' :: "unsigned".data else []) ++ rest)) caps k =
      some R := by
  rw [reM_group_def]
  simp only [reSeqs, litS]
  rw [reM_seq_def]
  cases u with
  | true =>
    simp only [if_true] at hk ⊢
    refine reM_plusG_hit alphaP kw _ _ _ _ hkw hkwne ?_ ?_
    · show alphaP ' ' = false
      decide
    rw [reM_seq_def]
    refine pf_par_skip _ _ _ _ ?_ ?_
    · show charEqCI true '(' ' ' = false
      decide
    refine pf_uns_hit rest _ _ _ ?_
    rw [take_sub_of_eq_append (kw ++ ((' ' :: "unsigned".data) ++ rest))
      (kw ++ (' ' :: "unsigned".data)) rest (by simp)]
    exact hk
  | false =>
    simp only [Bool.false_eq_true, if_false, List.nil_append] at hk ⊢
    refine reM_plusG_hit alphaP kw rest _ _ _ hkw hkwne ?_ ?_
    · rcases hrest with hre | ⟨c, r2, hre, hsp, hci⟩ <;> subst hre
      · trivial
      · show alphaP ' ' = false
        decide
    rw [reM_seq_def]
    refine pf_par_skip _ _ _ _ ?_ ?_
    · rcases hrest with hre | ⟨c, r2, hre, hsp, hci⟩ <;> subst hre
      · trivial
      · show charEqCI true '(' ' ' = false
        decide
    refine pf_uns_skip rest _ _ _ hrest ?_
    rw [take_sub_of_eq_append (kw ++ rest) (kw ++ []) rest (by simp)]
    exact hk

lemma pf_type_par1 (kw d : List Char) (u : Bool) (rest : List Char) (caps : Caps)
    (k : List Char → Caps → Option Caps) (R : Caps)
    (hkw : ∀ c ∈ kw, alphaP c = true) (hkwne : kw ≠ [])
    (hd : ∀ c ∈ d, Char.isDigit c = true) (hdne : d ≠ [])
    (hrest : rest = [] ∨ ∃ c r2, rest = ' ' :: c :: r2 ∧ isSpaceChar c = false ∧
      charEqCI true 'u' c = false)
    (hk : k rest ((2, kw ++ ('(' :: (d ++ (')' ::
      (if u = true then ' ' :: "unsigned".data else []))))) :: caps) = some R) :
    reM (.group 2 (reSeqs [.plusC alphaP false,
      .opt (reSeqs [litS true "(", .plusC Char.isDigit false,
        .opt (reSeqs [litS true ",", .plusC Char.isDigit false]), litS true ")"]),
      .opt (reSeqs [.plusC isSpaceChar false, litS true "unsigned"])]))
      (kw ++ ('(' :: (d ++ (')' ::
        ((if u = true then ' ' :: "unsigned".data else []) ++ rest))))) caps k =
      some R := by
  rw [reM_group_def]
  simp only [reSeqs, litS]
  rw [reM_seq_def]
  refine reM_plusG_hit alphaP kw _ _ _ _ hkw hkwne ?_ ?_
  · show alphaP '(' = false
    decide
  rw [reM_seq_def]
  refine reM_opt_hit _ _ _ _ _ ?_
  rw [reM_seq_def]
  refine reM_lit_hit true ("(".data) ("(".data) _ _ _ _ (by decide) ?_
  rw [reM_seq_def]
  refine reM_plusG_hit Char.isDigit d _ _ _ _ hd hdne ?_ ?_
  · show Char.isDigit ')' = false
    decide
  rw [reM_seq_def]
  refine reM_opt_skip _ _ _ _ _ ?_ ?_
  · rw [reM_seq_def]
    apply reM_lit_head_fail
    show charEqCI true ',' ')' = false
    decide
  refine reM_lit_hit true (")".data) (")".data) _ _ _ _ (by decide) ?_
  cases u with
  | true =>
    simp only [if_true] at hk ⊢
    refine pf_uns_hit rest _ _ _ ?_
    rw [take_sub_of_eq_append (kw ++ ('(' :: (d ++ (')' ::
      ((' ' :: "unsigned".data) ++ rest)))))
      (kw ++ ('(' :: (d ++ (')' :: (' ' :: "unsigned".data))))) rest (by simp)]
    exact hk
  | false =>
    simp only [Bool.false_eq_true, if_false, List.nil_append] at hk ⊢
    refine pf_uns_skip rest _ _ _ hrest ?_
    rw [take_sub_of_eq_append (kw ++ ('(' :: (d ++ (')' :: rest))))
      (kw ++ ('(' :: (d ++ [')']))) rest (by simp)]
    exact hk

lemma pf_type_par2 (kw d1 d2 : List Char) (u : Bool) (rest : List Char) (caps : Caps)
    (k : List Char → Caps → Option Caps) (R : Caps)
    (hkw : ∀ c ∈ kw, alphaP c = true) (hkwne : kw ≠ [])
    (hd1 : ∀ c ∈ d1, Char.isDigit c = true) (hd1ne : d1 ≠ [])
    (hd2 : ∀ c ∈ d2, Char.isDigit c = true) (hd2ne : d2 ≠ [])
    (hrest : rest = [] ∨ ∃ c r2, rest = ' ' :: c :: r2 ∧ isSpaceChar c = false ∧
      charEqCI true 'u' c = false)
    (hk : k rest ((2, kw ++ ('(' :: (d1 ++ (',' :: (d2 ++ (')' ::
      (if u = true then ' ' :: "unsigned".data else []))))))) :: caps) = some R) :
    reM (.group 2 (reSeqs [.plusC alphaP false,
      .opt (reSeqs [litS true "(", .plusC Char.isDigit false,
        .opt (reSeqs [litS true ",", .plusC Char.isDigit false]), litS true ")"]),
      .opt (reSeqs [.plusC isSpaceChar false, litS true "unsigned"])]))
      (kw ++ ('(' :: (d1 ++ (',' :: (d2 ++ (')' ::
        ((if u = true then ' ' :: "unsigned".data else []) ++ rest))))))) caps k =
      some R := by
  rw [reM_group_def]
  simp only [reSeqs, litS]
  rw [reM_seq_def]
  refine reM_plusG_hit alphaP kw _ _ _ _ hkw hkwne ?_ ?_
  · show alphaP '(' = false
    decide
  rw [reM_seq_def]
  refine reM_opt_hit _ _ _ _ _ ?_
  rw [reM_seq_def]
  refine reM_lit_hit true ("(".data) ("(".data) _ _ _ _ (by decide) ?_
  rw [reM_seq_def]
  refine reM_plusG_hit Char.isDigit d1 _ _ _ _ hd1 hd1ne ?_ ?_
  · show Char.isDigit ',' = false
    decide
  rw [reM_seq_def]
  refine reM_opt_hit _ _ _ _ _ ?_
  rw [reM_seq_def]
  refine reM_lit_hit true (",".data) (",".data) _ _ _ _ (by decide) ?_
  refine reM_plusG_hit Char.isDigit d2 _ _ _ _ hd2 hd2ne ?_ ?_
  · show Char.isDigit ')' = false
    decide
  refine reM_lit_hit true (")".data) (")".data) _ _ _ _ (by decide) ?_
  cases u with
  | true =>
    simp only [if_true] at hk ⊢
    refine pf_uns_hit rest _ _ _ ?_
    rw [take_sub_of_eq_append (kw ++ ('(' :: (d1 ++ (',' :: (d2 ++ (')' ::
      ((' ' :: "unsigned".data) ++ rest)))))))
      (kw ++ ('(' :: (d1 ++ (',' :: (d2 ++ (')' :: (' ' :: "unsigned".data))))))) rest
      (by simp)]
    exact hk
  | false =>
    simp only [Bool.false_eq_true, if_false, List.nil_append] at hk ⊢
    refine pf_uns_skip rest _ _ _ hrest ?_
    rw [take_sub_of_eq_append (kw ++ ('(' :: (d1 ++ (',' :: (d2 ++ (')' :: rest))))))
      (kw ++ ('(' :: (d1 ++ (',' :: (d2 ++ [')']))))) rest (by simp)]
    exact hk

/-! ## Segment builders for a rendered field line -/

/-- `NOT NULL` segment of a rendered field line. -/
def nnSeg (nn : Bool) (rest : List Char) : List Char :=
  if nn then ' ' :: ("NOT".data ++ (' ' :: ("NULL".data ++ rest))) else rest

/-- `DEFAULT` segment (payload, `true` = bare digits, `false` = quoted). -/
def dfSeg : Option (List Char × Bool) → List Char → List Char
  | none, rest => rest
  | some (dv, true), rest => ' ' :: ("DEFAULT".data ++ (' ' :: (dv ++ rest)))
  | some (sv, false), rest =>
    ' ' :: ("DEFAULT".data ++ (' ' :: ('\'' :: (sv ++ ('\'' :: rest)))))

/-- `AUTO_INCREMENT` segment. -/
def aiSeg (ai : Bool) (rest : List Char) : List Char :=
  if ai then ' ' :: ("AUTO_INCREMENT".data ++ rest) else rest

/-- `COMMENT` segment (always last). -/
def cmtSeg : Option (List Char) → List Char
  | none => []
  | some cv => ' ' :: ("COMMENT".data ++ (' ' :: ('\'' :: (cv ++ ['\'']))))

/-- The capture list `P_field` produces for the corresponding segments. -/
def segCaps (nn ai : Bool) (df : Option (List Char × Bool)) (cmt : Option (List Char))
    (tcap nm : List Char) : Caps :=
  (match cmt with
   | none => []
   | some cv => [(7, cv), (6, ['\''])]) ++
  (if ai then [(5, (" AUTO_INCREMENT" : String).data)] else []) ++
  (match df with
   | none => []
   | some (dv, true) => [(4, dv)]
   | some (sv, false) => [(4, '\'' :: (sv ++ ['\'']))]) ++
  (if nn then [(3, (" NOT NULL" : String).data)] else []) ++
  [(2, tcap), (1, nm)]

lemma pf_match_core (nm : List Char) (hnm : ∀ c ∈ nm, isWordChar c = true)
    (hnmne : nm ≠ []) (tsegF : List Char → List Char) (tcap : List Char)
    (htshead : ∀ r, ∃ t0 t2, tsegF r = t0 :: t2 ∧ isSpaceChar t0 = false)
    (htype : ∀ rest caps k R,
      (rest = [] ∨ ∃ ch r2, rest = ' ' :: ch :: r2 ∧ isSpaceChar ch = false ∧
        charEqCI true 'u' ch = false) →
      k rest ((2, tcap) :: caps) = some R →
      reM (.group 2 (reSeqs [.plusC alphaP false,
        .opt (reSeqs [litS true "(", .plusC Char.isDigit false,
          .opt (reSeqs [litS true ",", .plusC Char.isDigit false]), litS true ")"]),
        .opt (reSeqs [.plusC isSpaceChar false, litS true "unsigned"])]))
        (tsegF rest) caps k = some R)
    (nn ai : Bool) (df : Option (List Char × Bool)) (cmt : Option (List Char))
    (hdfd : ∀ dv, df = some (dv, true) →
      (∀ c ∈ dv, Char.isDigit c = true) ∧ dv ≠ [])
    (hdfq : ∀ sv, df = some (sv, false) → ∀ c ∈ sv, safeTextChar c = true)
    (hcmt : ∀ cv, cmt = some cv → ∀ c ∈ cv, safeTextChar c = true) :
    reMatchL P_field
      ('`' :: (nm ++ ('`' :: (' ' :: tsegF (nnSeg nn (dfSeg df (aiSeg ai (cmtSeg cmt))))))))
      = some (segCaps nn ai df cmt tcap nm) := by
  unfold reMatchL P_field
  simp only [reSeqs, litS]
  rw [reM_seq_def]
  refine reM_lit_hit true ("`".data) ("`".data) _ _ _ _ (by decide) ?_
  rw [reM_seq_def, reM_group_def]
  obtain ⟨n0, nm2, hnmeq⟩ : ∃ n0 nm2, nm = n0 :: nm2 := by
    cases nm with
    | nil => exact absurd rfl hnmne
    | cons a b => exact ⟨a, b, rfl⟩
  subst hnmeq
  refine reM_plusG_hit isWordChar (n0 :: nm2)
    ('`' :: (' ' :: tsegF (nnSeg nn (dfSeg df (aiSeg ai (cmtSeg cmt))))))
    _ _ _ hnm (by simp) ?_ ?_
  · show isWordChar '`' = false
    decide
  simp only [List.append_eq]
  rw [take_sub_append]
  rw [reM_seq_def]
  refine reM_lit_hit true ("`".data) ("`".data) _ _ _ _ (by decide) ?_
  rw [reM_seq_def]
  refine reM_plusG_hit isSpaceChar [' '] _ _ _ _ (by decide) (by decide) ?_ ?_
  · obtain ⟨t0, t2, hts, htsp⟩ :=
      htshead (nnSeg nn (dfSeg df (aiSeg ai (cmtSeg cmt))))
    rw [hts]
    exact htsp
  rw [reM_seq_def]
  cases nn with
  | false =>
    match df, hdfd, hdfq with
    | none, hdfd, hdfq =>
      cases ai with
      | false =>
        cases cmt with
        | none =>
          refine htype _ _ _ _ ?_ ?_
          · exact Or.inl rfl
          rw [reM_seq_def]
          refine pf_nn_skip _ _ _ _ ?_ ?_
          · exact Or.inl rfl
          rw [reM_seq_def]
          refine pf_def_skip _ _ _ _ ?_ ?_
          · exact Or.inl rfl
          rw [reM_seq_def]
          refine pf_ai_skip _ _ _ _ ?_ ?_
          · exact Or.inl rfl
          refine pf_cmt_skip _ _ _ ?_
          rfl
        | some cv =>
          refine htype _ _ _ _ ?_ ?_
          · exact Or.inr ⟨'C', _, rfl, by decide, by decide⟩
          rw [reM_seq_def]
          refine pf_nn_skip _ _ _ _ ?_ ?_
          · exact Or.inr ⟨'C', _, rfl, by decide, by decide⟩
          rw [reM_seq_def]
          refine pf_def_skip _ _ _ _ ?_ ?_
          · exact Or.inr ⟨'C', _, rfl, by decide, by decide⟩
          rw [reM_seq_def]
          refine pf_ai_skip _ _ _ _ ?_ ?_
          · exact Or.inr ⟨'C', _, rfl, by decide, by decide⟩
          refine pf_cmt_hit cv _ _ _ (hcmt cv rfl) ?_
          rfl
      | true =>
        cases cmt with
        | none =>
          refine htype _ _ _ _ ?_ ?_
          · exact Or.inr ⟨'A', _, rfl, by decide, by decide⟩
          rw [reM_seq_def]
          refine pf_nn_skip _ _ _ _ ?_ ?_
          · exact Or.inr ⟨'A', _, rfl, by decide, by decide⟩
          rw [reM_seq_def]
          refine pf_def_skip _ _ _ _ ?_ ?_
          · exact Or.inr ⟨'A', _, rfl, by decide, by decide⟩
          rw [reM_seq_def]
          refine pf_ai_hit _ _ _ _ ?_
          refine pf_cmt_skip _ _ _ ?_
          rfl
        | some cv =>
          refine htype _ _ _ _ ?_ ?_
          · exact Or.inr ⟨'A', _, rfl, by decide, by decide⟩
          rw [reM_seq_def]
          refine pf_nn_skip _ _ _ _ ?_ ?_
          · exact Or.inr ⟨'A', _, rfl, by decide, by decide⟩
          rw [reM_seq_def]
          refine pf_def_skip _ _ _ _ ?_ ?_
          · exact Or.inr ⟨'A', _, rfl, by decide, by decide⟩
          rw [reM_seq_def]
          refine pf_ai_hit _ _ _ _ ?_
          refine pf_cmt_hit cv _ _ _ (hcmt cv rfl) ?_
          rfl
    | some (dv, true), hdfd, hdfq =>
      cases ai with
      | false =>
        cases cmt with
        | none =>
          refine htype _ _ _ _ ?_ ?_
          · exact Or.inr ⟨'D', _, rfl, by decide, by decide⟩
          rw [reM_seq_def]
          refine pf_nn_skip _ _ _ _ ?_ ?_
          · exact Or.inr ⟨'D', _, rfl, by decide, by decide⟩
          rw [reM_seq_def]
          refine pf_def_hit_digit dv _ _ _ _ (hdfd dv rfl).1 (hdfd dv rfl).2 ?_ ?_
          · exact Or.inl rfl
          rw [reM_seq_def]
          refine pf_ai_skip _ _ _ _ ?_ ?_
          · exact Or.inl rfl
          refine pf_cmt_skip _ _ _ ?_
          rfl
        | some cv =>
          refine htype _ _ _ _ ?_ ?_
          · exact Or.inr ⟨'D', _, rfl, by decide, by decide⟩
          rw [reM_seq_def]
          refine pf_nn_skip _ _ _ _ ?_ ?_
          · exact Or.inr ⟨'D', _, rfl, by decide, by decide⟩
          rw [reM_seq_def]
          refine pf_def_hit_digit dv _ _ _ _ (hdfd dv rfl).1 (hdfd dv rfl).2 ?_ ?_
          · exact Or.inr ⟨_, rfl⟩
          rw [reM_seq_def]
          refine pf_ai_skip _ _ _ _ ?_ ?_
          · exact Or.inr ⟨'C', _, rfl, by decide, by decide⟩
          refine pf_cmt_hit cv _ _ _ (hcmt cv rfl) ?_
          rfl
      | true =>
        cases cmt with
        | none =>
          refine htype _ _ _ _ ?_ ?_
          · exact Or.inr ⟨'D', _, rfl, by decide, by decide⟩
          rw [reM_seq_def]
          refine pf_nn_skip _ _ _ _ ?_ ?_
          · exact Or.inr ⟨'D', _, rfl, by decide, by decide⟩
          rw [reM_seq_def]
          refine pf_def_hit_digit dv _ _ _ _ (hdfd dv rfl).1 (hdfd dv rfl).2 ?_ ?_
          · exact Or.inr ⟨_, rfl⟩
          rw [reM_seq_def]
          refine pf_ai_hit _ _ _ _ ?_
          refine pf_cmt_skip _ _ _ ?_
          rfl
        | some cv =>
          refine htype _ _ _ _ ?_ ?_
          · exact Or.inr ⟨'D', _, rfl, by decide, by decide⟩
          rw [reM_seq_def]
          refine pf_nn_skip _ _ _ _ ?_ ?_
          · exact Or.inr ⟨'D', _, rfl, by decide, by decide⟩
          rw [reM_seq_def]
          refine pf_def_hit_digit dv _ _ _ _ (hdfd dv rfl).1 (hdfd dv rfl).2 ?_ ?_
          · exact Or.inr ⟨_, rfl⟩
          rw [reM_seq_def]
          refine pf_ai_hit _ _ _ _ ?_
          refine pf_cmt_hit cv _ _ _ (hcmt cv rfl) ?_
          rfl
    | some (sv, false), hdfd, hdfq =>
      cases ai with
      | false =>
        cases cmt with
        | none =>
          refine htype _ _ _ _ ?_ ?_
          · exact Or.inr ⟨'D', _, rfl, by decide, by decide⟩
          rw [reM_seq_def]
          refine pf_nn_skip _ _ _ _ ?_ ?_
          · exact Or.inr ⟨'D', _, rfl, by decide, by decide⟩
          rw [reM_seq_def]
          refine pf_def_hit_quoted sv _ _ _ _ (hdfq sv rfl) ?_
          rw [reM_seq_def]
          refine pf_ai_skip _ _ _ _ ?_ ?_
          · exact Or.inl rfl
          refine pf_cmt_skip _ _ _ ?_
          rfl
        | some cv =>
          refine htype _ _ _ _ ?_ ?_
          · exact Or.inr ⟨'D', _, rfl, by decide, by decide⟩
          rw [reM_seq_def]
          refine pf_nn_skip _ _ _ _ ?_ ?_
          · exact Or.inr ⟨'D', _, rfl, by decide, by decide⟩
          rw [reM_seq_def]
          refine pf_def_hit_quoted sv _ _ _ _ (hdfq sv rfl) ?_
          rw [reM_seq_def]
          refine pf_ai_skip _ _ _ _ ?_ ?_
          · exact Or.inr ⟨'C', _, rfl, by decide, by decide⟩
          refine pf_cmt_hit cv _ _ _ (hcmt cv rfl) ?_
          rfl
      | true =>
        cases cmt with
        | none =>
          refine htype _ _ _ _ ?_ ?_
          · exact Or.inr ⟨'D', _, rfl, by decide, by decide⟩
          rw [reM_seq_def]
          refine pf_nn_skip _ _ _ _ ?_ ?_
          · exact Or.inr ⟨'D', _, rfl, by decide, by decide⟩
          rw [reM_seq_def]
          refine pf_def_hit_quoted sv _ _ _ _ (hdfq sv rfl) ?_
          rw [reM_seq_def]
          refine pf_ai_hit _ _ _ _ ?_
          refine pf_cmt_skip _ _ _ ?_
          rfl
        | some cv =>
          refine htype _ _ _ _ ?_ ?_
          · exact Or.inr ⟨'D', _, rfl, by decide, by decide⟩
          rw [reM_seq_def]
          refine pf_nn_skip _ _ _ _ ?_ ?_
          · exact Or.inr ⟨'D', _, rfl, by decide, by decide⟩
          rw [reM_seq_def]
          refine pf_def_hit_quoted sv _ _ _ _ (hdfq sv rfl) ?_
          rw [reM_seq_def]
          refine pf_ai_hit _ _ _ _ ?_
          refine pf_cmt_hit cv _ _ _ (hcmt cv rfl) ?_
          rfl
  | true =>
    match df, hdfd, hdfq with
    | none, hdfd, hdfq =>
      cases ai with
      | false =>
        cases cmt with
        | none =>
          refine htype _ _ _ _ ?_ ?_
          · exact Or.inr ⟨'N', _, rfl, by decide, by decide⟩
          rw [reM_seq_def]
          refine pf_nn_hit _ _ _ _ ?_
          rw [reM_seq_def]
          refine pf_def_skip _ _ _ _ ?_ ?_
          · exact Or.inl rfl
          rw [reM_seq_def]
          refine pf_ai_skip _ _ _ _ ?_ ?_
          · exact Or.inl rfl
          refine pf_cmt_skip _ _ _ ?_
          rfl
        | some cv =>
          refine htype _ _ _ _ ?_ ?_
          · exact Or.inr ⟨'N', _, rfl, by decide, by decide⟩
          rw [reM_seq_def]
          refine pf_nn_hit _ _ _ _ ?_
          rw [reM_seq_def]
          refine pf_def_skip _ _ _ _ ?_ ?_
          · exact Or.inr ⟨'C', _, rfl, by decide, by decide⟩
          rw [reM_seq_def]
          refine pf_ai_skip _ _ _ _ ?_ ?_
          · exact Or.inr ⟨'C', _, rfl, by decide, by decide⟩
          refine pf_cmt_hit cv _ _ _ (hcmt cv rfl) ?_
          rfl
      | true =>
        cases cmt with
        | none =>
          refine htype _ _ _ _ ?_ ?_
          · exact Or.inr ⟨'N', _, rfl, by decide, by decide⟩
          rw [reM_seq_def]
          refine pf_nn_hit _ _ _ _ ?_
          rw [reM_seq_def]
          refine pf_def_skip _ _ _ _ ?_ ?_
          · exact Or.inr ⟨'A', _, rfl, by decide, by decide⟩
          rw [reM_seq_def]
          refine pf_ai_hit _ _ _ _ ?_
          refine pf_cmt_skip _ _ _ ?_
          rfl
        | some cv =>
          refine htype _ _ _ _ ?_ ?_
          · exact Or.inr ⟨'N', _, rfl, by decide, by decide⟩
          rw [reM_seq_def]
          refine pf_nn_hit _ _ _ _ ?_
          rw [reM_seq_def]
          refine pf_def_skip _ _ _ _ ?_ ?_
          · exact Or.inr ⟨'A', _, rfl, by decide, by decide⟩
          rw [reM_seq_def]
          refine pf_ai_hit _ _ _ _ ?_
          refine pf_cmt_hit cv _ _ _ (hcmt cv rfl) ?_
          rfl
    | some (dv, true), hdfd, hdfq =>
      cases ai with
      | false =>
        cases cmt with
        | none =>
          refine htype _ _ _ _ ?_ ?_
          · exact Or.inr ⟨'N', _, rfl, by decide, by decide⟩
          rw [reM_seq_def]
          refine pf_nn_hit _ _ _ _ ?_
          rw [reM_seq_def]
          refine pf_def_hit_digit dv _ _ _ _ (hdfd dv rfl).1 (hdfd dv rfl).2 ?_ ?_
          · exact Or.inl rfl
          rw [reM_seq_def]
          refine pf_ai_skip _ _ _ _ ?_ ?_
          · exact Or.inl rfl
          refine pf_cmt_skip _ _ _ ?_
          rfl
        | some cv =>
          refine htype _ _ _ _ ?_ ?_
          · exact Or.inr ⟨'N', _, rfl, by decide, by decide⟩
          rw [reM_seq_def]
          refine pf_nn_hit _ _ _ _ ?_
          rw [reM_seq_def]
          refine pf_def_hit_digit dv _ _ _ _ (hdfd dv rfl).1 (hdfd dv rfl).2 ?_ ?_
          · exact Or.inr ⟨_, rfl⟩
          rw [reM_seq_def]
          refine pf_ai_skip _ _ _ _ ?_ ?_
          · exact Or.inr ⟨'C', _, rfl, by decide, by decide⟩
          refine pf_cmt_hit cv _ _ _ (hcmt cv rfl) ?_
          rfl
      | true =>
        cases cmt with
        | none =>
          refine htype _ _ _ _ ?_ ?_
          · exact Or.inr ⟨'N', _, rfl, by decide, by decide⟩
          rw [reM_seq_def]
          refine pf_nn_hit _ _ _ _ ?_
          rw [reM_seq_def]
          refine pf_def_hit_digit dv _ _ _ _ (hdfd dv rfl).1 (hdfd dv rfl).2 ?_ ?_
          · exact Or.inr ⟨_, rfl⟩
          rw [reM_seq_def]
          refine pf_ai_hit _ _ _ _ ?_
          refine pf_cmt_skip _ _ _ ?_
          rfl
        | some cv =>
          refine htype _ _ _ _ ?_ ?_
          · exact Or.inr ⟨'N', _, rfl, by decide, by decide⟩
          rw [reM_seq_def]
          refine pf_nn_hit _ _ _ _ ?_
          rw [reM_seq_def]
          refine pf_def_hit_digit dv _ _ _ _ (hdfd dv rfl).1 (hdfd dv rfl).2 ?_ ?_
          · exact Or.inr ⟨_, rfl⟩
          rw [reM_seq_def]
          refine pf_ai_hit _ _ _ _ ?_
          refine pf_cmt_hit cv _ _ _ (hcmt cv rfl) ?_
          rfl
    | some (sv, false), hdfd, hdfq =>
      cases ai with
      | false =>
        cases cmt with
        | none =>
          refine htype _ _ _ _ ?_ ?_
          · exact Or.inr ⟨'N', _, rfl, by decide, by decide⟩
          rw [reM_seq_def]
          refine pf_nn_hit _ _ _ _ ?_
          rw [reM_seq_def]
          refine pf_def_hit_quoted sv _ _ _ _ (hdfq sv rfl) ?_
          rw [reM_seq_def]
          refine pf_ai_skip _ _ _ _ ?_ ?_
          · exact Or.inl rfl
          refine pf_cmt_skip _ _ _ ?_
          rfl
        | some cv =>
          refine htype _ _ _ _ ?_ ?_
          · exact Or.inr ⟨'N', _, rfl, by decide, by decide⟩
          rw [reM_seq_def]
          refine pf_nn_hit _ _ _ _ ?_
          rw [reM_seq_def]
          refine pf_def_hit_quoted sv _ _ _ _ (hdfq sv rfl) ?_
          rw [reM_seq_def]
          refine pf_ai_skip _ _ _ _ ?_ ?_
          · exact Or.inr ⟨'C', _, rfl, by decide, by decide⟩
          refine pf_cmt_hit cv _ _ _ (hcmt cv rfl) ?_
          rfl
      | true =>
        cases cmt with
        | none =>
          refine htype _ _ _ _ ?_ ?_
          · exact Or.inr ⟨'N', _, rfl, by decide, by decide⟩
          rw [reM_seq_def]
          refine pf_nn_hit _ _ _ _ ?_
          rw [reM_seq_def]
          refine pf_def_hit_quoted sv _ _ _ _ (hdfq sv rfl) ?_
          rw [reM_seq_def]
          refine pf_ai_hit _ _ _ _ ?_
          refine pf_cmt_skip _ _ _ ?_
          rfl
        | some cv =>
          refine htype _ _ _ _ ?_ ?_
          · exact Or.inr ⟨'N', _, rfl, by decide, by decide⟩
          rw [reM_seq_def]
          refine pf_nn_hit _ _ _ _ ?_
          rw [reM_seq_def]
          refine pf_def_hit_quoted sv _ _ _ _ (hdfq sv rfl) ?_
          rw [reM_seq_def]
          refine pf_ai_hit _ _ _ _ ?_
          refine pf_cmt_hit cv _ _ _ (hcmt cv rfl) ?_
          rfl

/-! ## Type-string analysis for the parser -/

lemma digit_toUpper (c : Char) (h : c.isDigit = true) : c.toUpper = c := by
  unfold Char.isDigit at h
  simp only [Bool.and_eq_true, decide_eq_true_eq] at h
  simp only [Char.toUpper]
  split
  · rename_i hcond
    exfalso
    simp only [Char.toNat] at hcond
    have hx : c.val.toNat ≤ 57 := h.2
    omega
  · rfl

lemma map_toUpper_digits (xs : List Char) (h : ∀ c ∈ xs, c.isDigit = true) :
    xs.map Char.toUpper = xs := by
  induction xs with
  | nil => rfl
  | cons c rest ih =>
    simp only [List.map_cons, digit_toUpper c (h c (by simp)),
      ih (fun c2 hc => h c2 (by simp [hc]))]

lemma natToDec_digits (n : Nat) : ∀ c ∈ (natToDec n).data, c.isDigit = true := by
  intro c hc
  have := natToDec_all Char.isDigit (digitChar_fact Char.isDigit (by decide)) n
  exact List.all_eq_true.mp this c hc

lemma isPrefixList_head_false (p0 c : Char) (pt cs : List Char) (h : (p0 == c) = false) :
    isPrefixList (p0 :: pt) (c :: cs) = false := by
  simp [isPrefixList, h]

lemma containsSubL_false_noHead (p0 : Char) (pt : List Char) :
    ∀ xs, (∀ c ∈ xs, (p0 == c) = false) → containsSubL (p0 :: pt) xs = false := by
  intro xs
  induction xs with
  | nil => intro _; rfl
  | cons c rest ih =>
    intro h
    simp only [containsSubL, isPrefixList_head_false p0 c pt rest (h c (by simp)),
      Bool.false_or]
    exact ih (fun c2 hc => h c2 (by simp [hc]))

lemma containsSubL_append_right (pat xs ys : List Char) (h : containsSubL pat ys = true) :
    containsSubL pat (xs ++ ys) = true := by
  induction xs with
  | nil => simpa using h
  | cons c rest ih =>
    simp only [List.cons_append, containsSubL, List.append_eq, ih, Bool.or_true]

lemma replGo_no_start (p0 : Char) (pt rep : List Char) :
    ∀ xs ys, (∀ c ∈ xs, (p0 == c) = false) →
    replGo (p0 :: pt) rep (xs ++ ys) 0 = xs ++ replGo (p0 :: pt) rep ys 0 := by
  intro xs
  induction xs with
  | nil => intro ys _; rfl
  | cons c rest ih =>
    intro ys h
    have h0 : (p0 == c) = false := h c (by simp)
    simp only [List.cons_append, replGo, isPrefixList, h0, Bool.false_and,
      Bool.false_eq_true, if_false, List.append_eq]
    rw [ih ys (fun c2 hc => h c2 (by simp [hc]))]

lemma pyStripL_trailing_space (xs : List Char)
    (hh : match xs with | [] => False | c :: _ => isSpaceChar c = false)
    (hl : match xs.reverse with | [] => True | c :: _ => isSpaceChar c = false) :
    pyStripL (xs ++ [' ']) = xs := by
  unfold pyStripL
  cases xs with
  | nil => simp at hh
  | cons c rest =>
    rw [show lstripP isSpaceChar ((c :: rest) ++ [' ']) = (c :: rest) ++ [' '] from by
      simpa [lstripP, hh] using lstripP_all_false isSpaceChar ((c :: rest) ++ [' '])
        (by simpa using hh)]
    unfold rstripP
    rw [show ((c :: rest) ++ [' ']).reverse = ' ' :: (c :: rest).reverse from by simp]
    rw [show lstripP isSpaceChar (' ' :: (c :: rest).reverse) =
      lstripP isSpaceChar ((c :: rest).reverse) from by simp [lstripP, isSpaceChar]]
    rw [lstripP_all_false isSpaceChar _ hl]
    exact List.reverse_reverse _

lemma reM_plusG_hit_end (p : Char → Bool) (xs : List Char) (caps : Caps)
    (k : List Char → Caps → Option Caps) (R : Caps)
    (hall : ∀ c ∈ xs, p c = true) (hne : xs ≠ []) (hk : k [] caps = some R) :
    reM (.plusC p false) xs caps k = some R := by
  have h := reM_plusG_hit p xs [] caps k R hall hne trivial hk
  rwa [List.append_nil] at h

lemma ptype_hit_plain (kw : List Char) (hkw : ∀ c ∈ kw, upperP c = true)
    (hne : kw ≠ []) : reMatchL P_type kw = some [(1, kw)] := by
  unfold reMatchL P_type
  simp only [reSeqs, litS]
  rw [reM_seq_def, reM_group_def]
  refine reM_plusG_hit_end upperP kw _ _ _ hkw hne ?_
  simp only [List.length_nil, Nat.sub_zero, List.take_length]
  refine reM_opt_skip _ _ _ _ _ ?_ ?_
  · rw [reM_seq_def]
    exact reM_lit_head_fail false '(' _ _ _ _ trivial
  rfl

lemma ptype_hit_params (kw ps : List Char) (hkw : ∀ c ∈ kw, upperP c = true)
    (hne : kw ≠ []) (hps : ∀ c ∈ ps, notRParen c = true) (hpsne : ps ≠ []) :
    reMatchL P_type (kw ++ ('(' :: (ps ++ [')']))) = some [(2, ps), (1, kw)] := by
  unfold reMatchL P_type
  simp only [reSeqs, litS]
  rw [reM_seq_def, reM_group_def]
  refine reM_plusG_hit upperP kw ('(' :: (ps ++ [')'])) _ _ _ hkw hne ?_ ?_
  · show upperP '(' = false
    decide
  rw [take_sub_append]
  refine reM_opt_hit _ _ _ _ _ ?_
  rw [reM_seq_def]
  refine reM_lit_hit false ("(".data) ("(".data) _ _ _ _ (by decide) ?_
  rw [reM_seq_def, reM_group_def]
  refine reM_plusG_hit notRParen ps [')'] _ _ _ hps hpsne ?_ ?_
  · show notRParen ')' = false
    decide
  simp only [List.append_eq]
  rw [take_sub_append]
  refine reM_lit_hit false (")".data) (")".data) _ _ _ _ (by decide) ?_
  rfl

lemma digit_not_space (c : Char) (h : c.isDigit = true) : isSpaceChar c = false := by
  unfold Char.isDigit at h
  simp only [Bool.and_eq_true, decide_eq_true_eq] at h
  unfold isSpaceChar
  simp only [Bool.or_eq_false_iff, beq_eq_false_iff_ne, ne_eq]
  refine ⟨⟨⟨⟨⟨?_, ?_⟩, ?_⟩, ?_⟩, ?_⟩, ?_⟩ <;> intro he <;> rw [he] at h <;>
    revert h <;> decide

lemma pyInt_natToDec (n : Nat) : pyInt (natToDec n) = n := by
  unfold pyInt
  show natFromDigitsL (pyStripL (natToDec n).data) 0 = n
  rw [pyStripL_eq_self _ (fun c hc => digit_not_space c (natToDec_digits n c hc))]
  show natFromDigitsL (decGo (n + 1) n) 0 = n
  exact decGo_correct (n + 1) n (by omega)

lemma pft_case_length (S : String) (kwu dd : List Char) (tyname : String) (f0 : Field)
    (u : Bool)
    (hcs : containsSub "UNSIGNED" S = u)
    (hstrip : (pyStrip (pyReplace S "UNSIGNED" "")).data = kwu ++ ('(' :: (dd ++ [')'])))
    (hupper : ∀ c ∈ kwu, upperP c = true) (hne : kwu ≠ [])
    (hdd : ∀ c ∈ dd, notRParen c = true) (hddne : dd ≠ [])
    (hlk : SQLParser.lookupMapping SQLParser.type_mappings ⟨kwu⟩ = some tyname)
    (hbr : ((⟨kwu⟩ : String) == "INT" || (⟨kwu⟩ : String) == "BIGINT" ||
      (⟨kwu⟩ : String) == "SMALLINT" || (⟨kwu⟩ : String) == "TINYINT" ||
      (⟨kwu⟩ : String) == "MEDIUMINT") = true) :
    SQLParser._parse_field_type f0 S =
      { f0 with
        type := tyname
        unsigned := (if u then some true else f0.unsigned)
        length := some (pyInt ⟨dd⟩) } := by
  have hm : reMatch P_type (pyStrip (pyReplace S "UNSIGNED" "")) = some [(2, dd), (1, kwu)] := by
    unfold reMatch
    rw [hstrip]
    exact ptype_hit_params kwu dd hupper hne hdd hddne
  unfold SQLParser._parse_field_type
  simp only [hcs, hm]
  simp only [capStr, capsGet, show ((2 : Nat) == 1) = false from rfl,
    show ((1 : Nat) == 1) = true from rfl, show ((2 : Nat) == 2) = true from rfl,
    Bool.false_eq_true, eq_self_iff_true, if_true, if_false, Option.map_some',
    Option.getD_some, hlk, hbr]
  cases u with
  | false => rfl
  | true => rfl

lemma digit_not_comma (c : Char) (h : c.isDigit = true) : (c == ',') = false := by
  simp only [beq_eq_false_iff_ne, ne_eq]
  intro he
  rw [he] at h
  revert h
  decide

lemma digit_notRParen (c : Char) (h : c.isDigit = true) : notRParen c = true := by
  unfold notRParen
  simp only [bne_iff_ne, ne_eq]
  intro he
  rw [he] at h
  revert h
  decide

lemma pft_case_maxlen (S : String) (kwu dd : List Char) (tyname : String) (f0 : Field)
    (u : Bool)
    (hcs : containsSub "UNSIGNED" S = u)
    (hstrip : (pyStrip (pyReplace S "UNSIGNED" "")).data = kwu ++ ('(' :: (dd ++ [')'])))
    (hupper : ∀ c ∈ kwu, upperP c = true) (hne : kwu ≠ [])
    (hdd : ∀ c ∈ dd, notRParen c = true) (hddne : dd ≠ [])
    (hlk : SQLParser.lookupMapping SQLParser.type_mappings ⟨kwu⟩ = some tyname)
    (hbr1 : ((⟨kwu⟩ : String) == "INT" || (⟨kwu⟩ : String) == "BIGINT" ||
      (⟨kwu⟩ : String) == "SMALLINT" || (⟨kwu⟩ : String) == "TINYINT" ||
      (⟨kwu⟩ : String) == "MEDIUMINT") = false)
    (hbr2 : ((⟨kwu⟩ : String) == "VARCHAR" || (⟨kwu⟩ : String) == "CHAR") = true) :
    SQLParser._parse_field_type f0 S =
      { f0 with
        type := tyname
        unsigned := (if u then some true else f0.unsigned)
        max_length := some (pyInt ⟨dd⟩) } := by
  have hm : reMatch P_type (pyStrip (pyReplace S "UNSIGNED" "")) = some [(2, dd), (1, kwu)] := by
    unfold reMatch
    rw [hstrip]
    exact ptype_hit_params kwu dd hupper hne hdd hddne
  unfold SQLParser._parse_field_type
  simp only [hcs, hm]
  simp only [capStr, capsGet, show ((2 : Nat) == 1) = false from rfl,
    show ((1 : Nat) == 1) = true from rfl, show ((2 : Nat) == 2) = true from rfl,
    Bool.false_eq_true, eq_self_iff_true, if_true, if_false, Option.map_some',
    Option.getD_some, hlk, hbr1, hbr2]
  cases u with
  | false => rfl
  | true => rfl

lemma pft_case_decimal (S : String) (kwu d1 d2 : List Char) (tyname : String) (f0 : Field)
    (u : Bool)
    (hcs : containsSub "UNSIGNED" S = u)
    (hstrip : (pyStrip (pyReplace S "UNSIGNED" "")).data =
      kwu ++ ('(' :: ((d1 ++ (',' :: d2)) ++ [')'])))
    (hupper : ∀ c ∈ kwu, upperP c = true) (hne : kwu ≠ [])
    (hd1 : ∀ c ∈ d1, Char.isDigit c = true) (hd2 : ∀ c ∈ d2, Char.isDigit c = true)
    (hd1ne : d1 ≠ [])
    (hlk : SQLParser.lookupMapping SQLParser.type_mappings ⟨kwu⟩ = some tyname)
    (hbr1 : ((⟨kwu⟩ : String) == "INT" || (⟨kwu⟩ : String) == "BIGINT" ||
      (⟨kwu⟩ : String) == "SMALLINT" || (⟨kwu⟩ : String) == "TINYINT" ||
      (⟨kwu⟩ : String) == "MEDIUMINT") = false)
    (hbr2 : ((⟨kwu⟩ : String) == "VARCHAR" || (⟨kwu⟩ : String) == "CHAR") = false)
    (hbr3 : ((⟨kwu⟩ : String) == "DECIMAL") = true) :
    SQLParser._parse_field_type f0 S =
      { f0 with
        type := tyname
        unsigned := (if u then some true else f0.unsigned)
        precision := some (pyInt ⟨d1⟩)
        scale := some (pyInt ⟨d2⟩) } := by
  have hm : reMatch P_type (pyStrip (pyReplace S "UNSIGNED" "")) =
      some [(2, d1 ++ (',' :: d2)), (1, kwu)] := by
    unfold reMatch
    rw [hstrip]
    refine ptype_hit_params kwu (d1 ++ (',' :: d2)) hupper hne ?_ (by simp)
    intro c hc
    rcases List.mem_append.mp hc with h | h
    · exact digit_notRParen c (hd1 c h)
    · rcases List.mem_cons.mp h with h2 | h2
      · rw [h2]; decide
      · exact digit_notRParen c (hd2 c h2)
  have hsplit : pySplit ',' ⟨d1 ++ (',' :: d2)⟩ = [⟨d1⟩, ⟨d2⟩] := by
    unfold pySplit
    show (splitGo ',' (d1 ++ (',' :: d2)) []).map (fun l => (⟨l⟩ : String)) = _
    rw [splitGo_sep_append ',' d1 d2 [] (fun c hc => digit_not_comma c (hd1 c hc))]
    rw [splitGo_no_sep ',' d2 [] (fun c hc => digit_not_comma c (hd2 c hc))]
    simp
  unfold SQLParser._parse_field_type
  simp only [hcs, hm]
  simp only [capStr, capsGet, show ((2 : Nat) == 1) = false from rfl,
    show ((1 : Nat) == 1) = true from rfl, show ((2 : Nat) == 2) = true from rfl,
    Bool.false_eq_true, eq_self_iff_true, if_true, if_false, Option.map_some',
    Option.getD_some, hlk, hbr1, hbr2, hbr3, hsplit]
  cases u with
  | false => rfl
  | true => rfl

lemma pft_case_plain (S : String) (kwu : List Char) (tyname : String) (f0 : Field)
    (u : Bool)
    (hcs : containsSub "UNSIGNED" S = u)
    (hstrip : (pyStrip (pyReplace S "UNSIGNED" "")).data = kwu)
    (hupper : ∀ c ∈ kwu, upperP c = true) (hne : kwu ≠ [])
    (hlk : SQLParser.lookupMapping SQLParser.type_mappings ⟨kwu⟩ = some tyname)
    (hbr1 : ((⟨kwu⟩ : String) == "INT" || (⟨kwu⟩ : String) == "BIGINT" ||
      (⟨kwu⟩ : String) == "SMALLINT" || (⟨kwu⟩ : String) == "TINYINT" ||
      (⟨kwu⟩ : String) == "MEDIUMINT") = false)
    (hbr2 : ((⟨kwu⟩ : String) == "VARCHAR" || (⟨kwu⟩ : String) == "CHAR") = false)
    (hbr3 : ((⟨kwu⟩ : String) == "DECIMAL") = false) :
    SQLParser._parse_field_type f0 S =
      { f0 with
        type := tyname
        unsigned := (if u then some true else f0.unsigned) } := by
  have hm : reMatch P_type (pyStrip (pyReplace S "UNSIGNED" "")) = some [(1, kwu)] := by
    unfold reMatch
    rw [hstrip]
    exact ptype_hit_plain kwu hupper hne
  unfold SQLParser._parse_field_type
  simp only [hcs, hm]
  simp only [capStr, capsGet, show ((1 : Nat) == 1) = true from rfl,
    show ((1 : Nat) == 2) = false from rfl,
    Bool.false_eq_true, eq_self_iff_true, if_true, if_false, Option.map_some',
    Option.getD_some, Option.map_none', Option.getD_none, hlk, hbr1, hbr2, hbr3]
  cases u with
  | false => rfl
  | true => rfl

lemma map_toUpper_id_of (xs : List Char) (h : ∀ c ∈ xs, c.toUpper = c) :
    xs.map Char.toUpper = xs := by
  induction xs with
  | nil => rfl
  | cons c rest ih =>
    simp only [List.map_cons, h c (by simp), ih (fun c2 hc => h c2 (by simp [hc]))]

lemma digit_not_U (c : Char) (h : c.isDigit = true) : ('U' == c) = false := by
  simp only [beq_eq_false_iff_ne, ne_eq]
  intro he
  rw [← he] at h
  revert h
  decide

/-- String-munging facts about an uppercased rendered type with a
parenthesised parameter payload: the `UNSIGNED` containment test and the
strip-and-replace normalisation. -/
lemma pft_strings (kwl kwU dd : List Char) (u : Bool)
    (hmap : kwl.map Char.toUpper = kwU)
    (hU : ∀ c ∈ kwU, ('U' == c) = false)
    (hsp0 : ∀ c ∈ kwU, isSpaceChar c = false)
    (hne : kwU ≠ [])
    (hddP : ∀ c ∈ dd, Char.isDigit c = true ∨ c = ',') :
    containsSub "UNSIGNED" (pyUpper ⟨kwl ++ ('(' :: (dd ++ (')' ::
        (if u = true then ' ' :: "unsigned".data else []))))⟩) = u ∧
    (pyStrip (pyReplace (pyUpper ⟨kwl ++ ('(' :: (dd ++ (')' ::
        (if u = true then ' ' :: "unsigned".data else []))))⟩) "UNSIGNED" "")).data =
      kwU ++ ('(' :: (dd ++ [')'])) := by
  have hddUp : ∀ c ∈ dd, c.toUpper = c := by
    intro c hc
    rcases hddP c hc with h | h
    · exact digit_toUpper c h
    · rw [h]; rfl
  have hddU : ∀ c ∈ dd, ('U' == c) = false := by
    intro c hc
    rcases hddP c hc with h | h
    · exact digit_not_U c h
    · rw [h]; decide
  have hddSp : ∀ c ∈ dd, isSpaceChar c = false := by
    intro c hc
    rcases hddP c hc with h | h
    · exact digit_not_space c h
    · rw [h]; decide
  have hup : (pyUpper ⟨kwl ++ ('(' :: (dd ++ (')' ::
      (if u = true then ' ' :: "unsigned".data else []))))⟩).data =
      (kwU ++ ('(' :: (dd ++ [')']))) ++ (if u = true then " UNSIGNED".data else []) := by
    show (kwl ++ ('(' :: (dd ++ (')' ::
      (if u = true then ' ' :: "unsigned".data else []))))).map Char.toUpper = _
    cases u with
    | false =>
      simp only [Bool.false_eq_true, if_false, List.append_nil]
      simp only [List.map_append, List.map_cons, List.map_nil, hmap,
        map_toUpper_id_of dd hddUp, show '('.toUpper = '(' from rfl,
        show ')'.toUpper = ')' from rfl]
    | true =>
      simp only [if_true]
      simp only [List.map_append, List.map_cons, hmap,
        map_toUpper_id_of dd hddUp, show '('.toUpper = '(' from rfl,
        show ')'.toUpper = ')' from rfl, show ' '.toUpper = ' ' from rfl,
        show ("unsigned".data).map Char.toUpper = "UNSIGNED".data from by decide]
      simp [List.append_assoc]
  have hxsU : ∀ c ∈ kwU ++ ('(' :: (dd ++ [')'])), ('U' == c) = false := by
    intro c hc
    rcases List.mem_append.mp hc with h | h
    · exact hU c h
    · rcases List.mem_cons.mp h with h2 | h2
      · rw [h2]; decide
      · rcases List.mem_append.mp h2 with h3 | h3
        · exact hddU c h3
        · simp only [List.mem_singleton] at h3
          rw [h3]; decide
  have hxsSp : ∀ c ∈ kwU ++ ('(' :: (dd ++ [')'])), isSpaceChar c = false := by
    intro c hc
    rcases List.mem_append.mp hc with h | h
    · exact hsp0 c h
    · rcases List.mem_cons.mp h with h2 | h2
      · rw [h2]; decide
      · rcases List.mem_append.mp h2 with h3 | h3
        · exact hddSp c h3
        · simp only [List.mem_singleton] at h3
          rw [h3]; decide
  constructor
  · show containsSubL ("UNSIGNED".data) _ = u
    rw [hup]
    cases u with
    | false =>
      simp only [Bool.false_eq_true, if_false, List.append_nil]
      exact containsSubL_false_noHead 'U' ("NSIGNED".data) _ hxsU
    | true =>
      simp only [if_true]
      exact containsSubL_append_right _ _ _ (by decide)
  · show pyStripL (replGo ("UNSIGNED".data) (("" : String).data) _ 0) = _
    rw [hup]
    cases u with
    | false =>
      simp only [Bool.false_eq_true, if_false, List.append_nil]
      rw [replGo_id 'U' ['N', 'S', 'I', 'G', 'N', 'E', 'D'] [] _ hxsU]
      exact pyStripL_eq_self _ hxsSp
    | true =>
      simp only [if_true]
      rw [replGo_no_start 'U' ['N', 'S', 'I', 'G', 'N', 'E', 'D'] [] _ _ hxsU]
      rw [show replGo ['U', 'N', 'S', 'I', 'G', 'N', 'E', 'D'] []
        [' ', 'U', 'N', 'S', 'I', 'G', 'N', 'E', 'D'] 0 = [' '] from rfl]
      apply pyStripL_trailing_space
      · obtain ⟨k0, kw2, hk⟩ : ∃ k0 kw2, kwU = k0 :: kw2 := by
          cases kwU with
          | nil => exact absurd rfl hne
          | cons a b => exact ⟨a, b, rfl⟩
        rw [hk]
        show isSpaceChar k0 = false
        exact hsp0 k0 (by rw [hk]; simp)
      · rw [show (kwU ++ ('(' :: (dd ++ [')']))).reverse =
          ')' :: ((kwU ++ ('(' :: dd)).reverse) from by simp]
        show isSpaceChar ')' = false
        decide

/-- Same facts for a plain (parameterless) rendered type. -/
lemma pft_strings_plain (kwl kwU : List Char) (u : Bool)
    (hmap : kwl.map Char.toUpper = kwU)
    (hU : ∀ c ∈ kwU, ('U' == c) = false)
    (hsp0 : ∀ c ∈ kwU, isSpaceChar c = false)
    (hne : kwU ≠ []) :
    containsSub "UNSIGNED" (pyUpper ⟨kwl ++
        (if u = true then ' ' :: "unsigned".data else [])⟩) = u ∧
    (pyStrip (pyReplace (pyUpper ⟨kwl ++
        (if u = true then ' ' :: "unsigned".data else [])⟩) "UNSIGNED" "")).data = kwU := by
  have hup : (pyUpper ⟨kwl ++ (if u = true then ' ' :: "unsigned".data else [])⟩).data =
      kwU ++ (if u = true then " UNSIGNED".data else []) := by
    show (kwl ++ (if u = true then ' ' :: "unsigned".data else [])).map Char.toUpper = _
    cases u with
    | false =>
      simp only [Bool.false_eq_true, if_false, List.append_nil]
      exact hmap
    | true =>
      simp only [if_true]
      simp only [List.map_append, List.map_cons, hmap,
        show ' '.toUpper = ' ' from rfl,
        show ("unsigned".data).map Char.toUpper = "UNSIGNED".data from by decide]
  constructor
  · show containsSubL ("UNSIGNED".data) _ = u
    rw [hup]
    cases u with
    | false =>
      simp only [Bool.false_eq_true, if_false, List.append_nil]
      exact containsSubL_false_noHead 'U' ("NSIGNED".data) _ hU
    | true =>
      simp only [if_true]
      exact containsSubL_append_right _ _ _ (by decide)
  · show pyStripL (replGo ("UNSIGNED".data) (("" : String).data) _ 0) = _
    rw [hup]
    cases u with
    | false =>
      simp only [Bool.false_eq_true, if_false, List.append_nil]
      rw [replGo_id 'U' ['N', 'S', 'I', 'G', 'N', 'E', 'D'] [] _ hU]
      exact pyStripL_eq_self _ hsp0
    | true =>
      simp only [if_true]
      rw [replGo_no_start 'U' ['N', 'S', 'I', 'G', 'N', 'E', 'D'] [] _ _ hU]
      rw [show replGo ['U', 'N', 'S', 'I', 'G', 'N', 'E', 'D'] []
        [' ', 'U', 'N', 'S', 'I', 'G', 'N', 'E', 'D'] 0 = [' '] from rfl]
      apply pyStripL_trailing_space
      · obtain ⟨k0, kw2, hk⟩ : ∃ k0 kw2, kwU = k0 :: kw2 := by
          cases kwU with
          | nil => exact absurd rfl hne
          | cons a b => exact ⟨a, b, rfl⟩
        rw [hk]
        show isSpaceChar k0 = false
        exact hsp0 k0 (by rw [hk]; simp)
      · cases hr : kwU.reverse with
        | nil => trivial
        | cons c rest2 =>
          show isSpaceChar c = false
          apply hsp0
          have : c ∈ kwU.reverse := by rw [hr]; simp
          simpa using this

lemma pft_int (f0 : Field) (n : Nat) (u : Bool) :
    SQLParser._parse_field_type f0 (pyUpper ⟨"int".data ++ ('(' :: ((natToDec n).data ++
      (')' :: (if u = true then ' ' :: "unsigned".data else []))))⟩) =
      { f0 with
        type := "int"
        unsigned := (if u then some true else f0.unsigned)
        length := some n } := by
  obtain ⟨hcs, hstrip⟩ := pft_strings ("int".data) ("INT".data) ((natToDec n).data) u
    (by decide) (by decide) (by decide) (by decide)
    (fun c hc => Or.inl (natToDec_digits n c hc))
  have h := pft_case_length _ ("INT".data) ((natToDec n).data) "int" f0 u hcs hstrip
    (by decide) (by decide) (fun c hc => digit_notRParen c (natToDec_digits n c hc))
    (decGo_ne_nil (n + 1) n (by omega)) (by decide) (by decide)
  have h2 : pyInt (⟨(natToDec n).data⟩ : String) = n := pyInt_natToDec n
  rw [h2] at h
  exact h

lemma pft_bigint (f0 : Field) (n : Nat) (u : Bool) :
    SQLParser._parse_field_type f0 (pyUpper ⟨"bigint".data ++ ('(' :: ((natToDec n).data ++
      (')' :: (if u = true then ' ' :: "unsigned".data else []))))⟩) =
      { f0 with
        type := "bigint"
        unsigned := (if u then some true else f0.unsigned)
        length := some n } := by
  obtain ⟨hcs, hstrip⟩ := pft_strings ("bigint".data) ("BIGINT".data) ((natToDec n).data) u
    (by decide) (by decide) (by decide) (by decide)
    (fun c hc => Or.inl (natToDec_digits n c hc))
  have h := pft_case_length _ ("BIGINT".data) ((natToDec n).data) "bigint" f0 u hcs hstrip
    (by decide) (by decide) (fun c hc => digit_notRParen c (natToDec_digits n c hc))
    (decGo_ne_nil (n + 1) n (by omega)) (by decide) (by decide)
  have h2 : pyInt (⟨(natToDec n).data⟩ : String) = n := pyInt_natToDec n
  rw [h2] at h
  exact h

lemma pft_smallint (f0 : Field) (n : Nat) (u : Bool) :
    SQLParser._parse_field_type f0 (pyUpper ⟨"smallint".data ++ ('(' :: ((natToDec n).data ++
      (')' :: (if u = true then ' ' :: "unsigned".data else []))))⟩) =
      { f0 with
        type := "smallint"
        unsigned := (if u then some true else f0.unsigned)
        length := some n } := by
  obtain ⟨hcs, hstrip⟩ := pft_strings ("smallint".data) ("SMALLINT".data) ((natToDec n).data) u
    (by decide) (by decide) (by decide) (by decide)
    (fun c hc => Or.inl (natToDec_digits n c hc))
  have h := pft_case_length _ ("SMALLINT".data) ((natToDec n).data) "smallint" f0 u hcs hstrip
    (by decide) (by decide) (fun c hc => digit_notRParen c (natToDec_digits n c hc))
    (decGo_ne_nil (n + 1) n (by omega)) (by decide) (by decide)
  have h2 : pyInt (⟨(natToDec n).data⟩ : String) = n := pyInt_natToDec n
  rw [h2] at h
  exact h

lemma pft_tinyint (f0 : Field) (n : Nat) (u : Bool) :
    SQLParser._parse_field_type f0 (pyUpper ⟨"tinyint".data ++ ('(' :: ((natToDec n).data ++
      (')' :: (if u = true then ' ' :: "unsigned".data else []))))⟩) =
      { f0 with
        type := "tinyint"
        unsigned := (if u then some true else f0.unsigned)
        length := some n } := by
  obtain ⟨hcs, hstrip⟩ := pft_strings ("tinyint".data) ("TINYINT".data) ((natToDec n).data) u
    (by decide) (by decide) (by decide) (by decide)
    (fun c hc => Or.inl (natToDec_digits n c hc))
  have h := pft_case_length _ ("TINYINT".data) ((natToDec n).data) "tinyint" f0 u hcs hstrip
    (by decide) (by decide) (fun c hc => digit_notRParen c (natToDec_digits n c hc))
    (decGo_ne_nil (n + 1) n (by omega)) (by decide) (by decide)
  have h2 : pyInt (⟨(natToDec n).data⟩ : String) = n := pyInt_natToDec n
  rw [h2] at h
  exact h

lemma pft_varchar (f0 : Field) (n : Nat) (u : Bool) :
    SQLParser._parse_field_type f0 (pyUpper ⟨"varchar".data ++ ('(' :: ((natToDec n).data ++
      (')' :: (if u = true then ' ' :: "unsigned".data else []))))⟩) =
      { f0 with
        type := "string"
        unsigned := (if u then some true else f0.unsigned)
        max_length := some n } := by
  obtain ⟨hcs, hstrip⟩ := pft_strings ("varchar".data) ("VARCHAR".data) ((natToDec n).data) u
    (by decide) (by decide) (by decide) (by decide)
    (fun c hc => Or.inl (natToDec_digits n c hc))
  have h := pft_case_maxlen _ ("VARCHAR".data) ((natToDec n).data) "string" f0 u hcs hstrip
    (by decide) (by decide) (fun c hc => digit_notRParen c (natToDec_digits n c hc))
    (decGo_ne_nil (n + 1) n (by omega)) (by decide) (by decide) (by decide)
  have h2 : pyInt (⟨(natToDec n).data⟩ : String) = n := pyInt_natToDec n
  rw [h2] at h
  exact h

lemma pft_datetime (f0 : Field) (u : Bool) :
    SQLParser._parse_field_type f0 (pyUpper ⟨"datetime".data ++
      (if u = true then ' ' :: "unsigned".data else [])⟩) =
      { f0 with
        type := "datetime"
        unsigned := (if u then some true else f0.unsigned) } := by
  obtain ⟨hcs, hstrip⟩ := pft_strings_plain ("datetime".data) ("DATETIME".data) u
    (by decide) (by decide) (by decide) (by decide)
  exact pft_case_plain _ ("DATETIME".data) "datetime" f0 u hcs hstrip
    (by decide) (by decide) (by decide) (by decide) (by decide) (by decide)

lemma pft_date (f0 : Field) (u : Bool) :
    SQLParser._parse_field_type f0 (pyUpper ⟨"date".data ++
      (if u = true then ' ' :: "unsigned".data else [])⟩) =
      { f0 with
        type := "date"
        unsigned := (if u then some true else f0.unsigned) } := by
  obtain ⟨hcs, hstrip⟩ := pft_strings_plain ("date".data) ("DATE".data) u
    (by decide) (by decide) (by decide) (by decide)
  exact pft_case_plain _ ("DATE".data) "date" f0 u hcs hstrip
    (by decide) (by decide) (by decide) (by decide) (by decide) (by decide)

lemma pft_text (f0 : Field) (u : Bool) :
    SQLParser._parse_field_type f0 (pyUpper ⟨"text".data ++
      (if u = true then ' ' :: "unsigned".data else [])⟩) =
      { f0 with
        type := "text"
        unsigned := (if u then some true else f0.unsigned) } := by
  obtain ⟨hcs, hstrip⟩ := pft_strings_plain ("text".data) ("TEXT".data) u
    (by decide) (by decide) (by decide) (by decide)
  exact pft_case_plain _ ("TEXT".data) "text" f0 u hcs hstrip
    (by decide) (by decide) (by decide) (by decide) (by decide) (by decide)

lemma pft_json (f0 : Field) (u : Bool) :
    SQLParser._parse_field_type f0 (pyUpper ⟨"json".data ++
      (if u = true then ' ' :: "unsigned".data else [])⟩) =
      { f0 with
        type := "json"
        unsigned := (if u then some true else f0.unsigned) } := by
  obtain ⟨hcs, hstrip⟩ := pft_strings_plain ("json".data) ("JSON".data) u
    (by decide) (by decide) (by decide) (by decide)
  exact pft_case_plain _ ("JSON".data) "json" f0 u hcs hstrip
    (by decide) (by decide) (by decide) (by decide) (by decide) (by decide)

lemma pft_mediumtext (f0 : Field) (u : Bool) :
    SQLParser._parse_field_type f0 (pyUpper ⟨"mediumtext".data ++
      (if u = true then ' ' :: "unsigned".data else [])⟩) =
      { f0 with
        type := "mediumtext"
        unsigned := (if u then some true else f0.unsigned) } := by
  cases u with
  | false =>
    exact pft_case_plain
      (pyUpper ⟨"mediumtext".data ++ (if (false : Bool) = true then ' ' :: "unsigned".data else [])⟩)
      ("MEDIUMTEXT".data) "mediumtext" f0 false (by decide) (by decide)
      (by decide) (by decide) (by decide) (by decide) (by decide) (by decide)
  | true =>
    exact pft_case_plain
      (pyUpper ⟨"mediumtext".data ++ (if (true : Bool) = true then ' ' :: "unsigned".data else [])⟩)
      ("MEDIUMTEXT".data) "mediumtext" f0 true (by decide) (by decide)
      (by decide) (by decide) (by decide) (by decide) (by decide) (by decide)

lemma pft_decimal (f0 : Field) (p s : Nat) (u : Bool) :
    SQLParser._parse_field_type f0 (pyUpper ⟨"decimal".data ++ ('(' :: ((natToDec p).data ++
      (',' :: ((natToDec s).data ++ (')' ::
        (if u = true then ' ' :: "unsigned".data else []))))))⟩) =
      { f0 with
        type := "decimal"
        unsigned := (if u then some true else f0.unsigned)
        precision := some p
        scale := some s } := by
  have hsh : ("decimal".data ++ ('(' :: ((natToDec p).data ++
      (',' :: ((natToDec s).data ++ (')' ::
        (if u = true then ' ' :: "unsigned".data else []))))))) =
      ("decimal".data ++ ('(' :: (((natToDec p).data ++ (',' :: (natToDec s).data)) ++
      (')' :: (if u = true then ' ' :: "unsigned".data else []))))) := by
    simp
  rw [hsh]
  obtain ⟨hcs, hstrip⟩ := pft_strings ("decimal".data) ("DECIMAL".data)
    ((natToDec p).data ++ (',' :: (natToDec s).data)) u (by decide) (by decide) (by decide)
    (by decide)
    (fun c hc => by
      rcases List.mem_append.mp hc with h | h
      · exact Or.inl (natToDec_digits p c h)
      · rcases List.mem_cons.mp h with h2 | h2
        · exact Or.inr h2
        · exact Or.inl (natToDec_digits s c h2))
  have h := pft_case_decimal _ ("DECIMAL".data) ((natToDec p).data) ((natToDec s).data)
    "decimal" f0 u hcs hstrip (by decide) (by decide) (natToDec_digits p) (natToDec_digits s)
    (decGo_ne_nil (p + 1) p (by omega)) (by decide) (by decide) (by decide) (by decide)
  have h2 : pyInt (⟨(natToDec p).data⟩ : String) = p := pyInt_natToDec p
  have h3 : pyInt (⟨(natToDec s).data⟩ : String) = s := pyInt_natToDec s
  rw [h2, h3] at h
  exact h

/-! ## Evaluating the parser on a matched field line -/

lemma safeC_no_backslash (c : Char) (h : safeTextChar c = true) : ('\\' == c) = false := by
  exact beq_eq_false_iff_ne.mpr (Ne.symm (safe_char_facts c h).2.2.1)

lemma safeC_no_squote (c : Char) (h : safeTextChar c = true) : (c == '\'') = false := by
  exact beq_eq_false_iff_ne.mpr (safe_char_facts c h).1

lemma safeC_no_dquote (c : Char) (h : safeTextChar c = true) : (c == '"') = false := by
  exact beq_eq_false_iff_ne.mpr (safe_char_facts c h).2.1

lemma digit_not_squote (c : Char) (h : c.isDigit = true) : (c == '\'') = false := by
  simp only [beq_eq_false_iff_ne, ne_eq]
  intro he
  rw [he] at h
  revert h
  decide

lemma digit_not_dquote (c : Char) (h : c.isDigit = true) : (c == '"') = false := by
  simp only [beq_eq_false_iff_ne, ne_eq]
  intro he
  rw [he] at h
  revert h
  decide

lemma pyStripChar_id (ch : Char) (s : String) (h : ∀ x ∈ s.data, (x == ch) = false) :
    pyStripChar ch s = s := by
  unfold pyStripChar
  show (⟨_⟩ : String) = ⟨s.data⟩
  exact congrArg String.mk (strip_eq_self_of_all _ s.data h)

lemma pyStripChar_quotes (sv : List Char) (h : ∀ x ∈ sv, (x == '\'') = false) :
    pyStripChar '\'' ⟨'\'' :: (sv ++ ['\''])⟩ = ⟨sv⟩ := by
  unfold pyStripChar
  apply congrArg String.mk
  show rstripP (fun x => x == '\'')
    (lstripP (fun x => x == '\'') ('\'' :: (sv ++ ['\'']))) = sv
  rw [show lstripP (fun x => x == '\'') ('\'' :: (sv ++ ['\''])) =
    lstripP (fun x => x == '\'') (sv ++ ['\'']) from by simp [lstripP]]
  cases sv with
  | nil => rfl
  | cons s0 sv2 =>
    rw [lstripP_all_false _ _ (by simpa using h s0 (by simp))]
    unfold rstripP
    rw [show ((s0 :: sv2) ++ ['\'']).reverse = '\'' :: (s0 :: sv2).reverse from by simp]
    rw [show lstripP (fun x => x == '\'') ('\'' :: (s0 :: sv2).reverse) =
      lstripP (fun x => x == '\'') ((s0 :: sv2).reverse) from by simp [lstripP]]
    have hl2 : match (s0 :: sv2).reverse with
        | [] => True
        | c :: _ => (fun x => x == '\'') c = false := by
      cases hr : (s0 :: sv2).reverse with
      | nil => trivial
      | cons c rest =>
        show (c == '\'') = false
        apply h
        have hm2 : c ∈ (s0 :: sv2).reverse := by rw [hr]; simp
        exact (List.mem_reverse).mp hm2
    rw [lstripP_all_false _ _ hl2]
    exact List.reverse_reverse _

lemma isSome_if (b : Bool) {α : Type} (x : α) :
    (if b then some x else none).isSome = b := by
  cases b <;> rfl

lemma segCaps_get1 (nn ai : Bool) (df : Option (List Char × Bool))
    (cmt : Option (List Char)) (tcap nm : List Char) :
    capsGet (segCaps nn ai df cmt tcap nm) 1 = some nm := by
  cases cmt <;> cases ai <;> rcases df with _ | ⟨dv, b⟩ <;> (try cases b) <;> cases nn <;> rfl

lemma segCaps_get2 (nn ai : Bool) (df : Option (List Char × Bool))
    (cmt : Option (List Char)) (tcap nm : List Char) :
    capsGet (segCaps nn ai df cmt tcap nm) 2 = some tcap := by
  cases cmt <;> cases ai <;> rcases df with _ | ⟨dv, b⟩ <;> (try cases b) <;> cases nn <;> rfl

lemma segCaps_get3 (nn ai : Bool) (df : Option (List Char × Bool))
    (cmt : Option (List Char)) (tcap nm : List Char) :
    capsGet (segCaps nn ai df cmt tcap nm) 3 =
      (if nn then some ((" NOT NULL" : String).data) else none) := by
  cases cmt <;> cases ai <;> rcases df with _ | ⟨dv, b⟩ <;> (try cases b) <;> cases nn <;> rfl

lemma segCaps_get4 (nn ai : Bool) (df : Option (List Char × Bool))
    (cmt : Option (List Char)) (tcap nm : List Char) :
    capsGet (segCaps nn ai df cmt tcap nm) 4 =
      (match df with
       | none => none
       | some (dv, true) => some dv
       | some (sv, false) => some ('\'' :: (sv ++ ['\'']))) := by
  cases cmt <;> cases ai <;> rcases df with _ | ⟨dv, b⟩ <;> (try cases b) <;> cases nn <;> rfl

lemma segCaps_get5 (nn ai : Bool) (df : Option (List Char × Bool))
    (cmt : Option (List Char)) (tcap nm : List Char) :
    capsGet (segCaps nn ai df cmt tcap nm) 5 =
      (if ai then some ((" AUTO_INCREMENT" : String).data) else none) := by
  cases cmt <;> cases ai <;> rcases df with _ | ⟨dv, b⟩ <;> (try cases b) <;> cases nn <;> rfl

lemma segCaps_get7 (nn ai : Bool) (df : Option (List Char × Bool))
    (cmt : Option (List Char)) (tcap nm : List Char) :
    capsGet (segCaps nn ai df cmt tcap nm) 7 =
      (match cmt with
       | none => none
       | some cv => some cv) := by
  cases cmt <;> cases ai <;> rcases df with _ | ⟨dv, b⟩ <;> (try cases b) <;> cases nn <;> rfl

/-- The field record `_parse_field` assembles before the type pass, in
simplified (strip- and unescape-free) form. -/
def fieldBase (nm : List Char) (nn ai : Bool) (df : Option (List Char × Bool))
    (cmt : Option (List Char)) : Field :=
  { name := ⟨nm⟩
    type := ""
    comment := some (match cmt with | none => "" | some cv => (⟨cv⟩ : String))
    default := match df with
      | none => none
      | some (dv, _) => some (.str ⟨dv⟩)
    not_null := if nn then some true else none
    auto_increment := if ai then some true else none }

lemma parse_field_shape
    (nm : List Char) (hnm : ∀ c ∈ nm, isWordChar c = true) (hnmne : nm ≠ [])
    (tsegF : List Char → List Char) (tcap : List Char)
    (htshead : ∀ r, ∃ t0 t2, tsegF r = t0 :: t2 ∧ isSpaceChar t0 = false)
    (htype : ∀ rest caps k R,
      (rest = [] ∨ ∃ ch r2, rest = ' ' :: ch :: r2 ∧ isSpaceChar ch = false ∧
        charEqCI true 'u' ch = false) →
      k rest ((2, tcap) :: caps) = some R →
      reM (.group 2 (reSeqs [.plusC alphaP false,
        .opt (reSeqs [litS true "(", .plusC Char.isDigit false,
          .opt (reSeqs [litS true ",", .plusC Char.isDigit false]), litS true ")"]),
        .opt (reSeqs [.plusC isSpaceChar false, litS true "unsigned"])]))
        (tsegF rest) caps k = some R)
    (nn ai : Bool) (df : Option (List Char × Bool)) (cmt : Option (List Char))
    (hdfd : ∀ dv, df = some (dv, true) →
      (∀ c ∈ dv, Char.isDigit c = true) ∧ dv ≠ [])
    (hdfq : ∀ sv, df = some (sv, false) → ∀ c ∈ sv, safeTextChar c = true)
    (hcmt : ∀ cv, cmt = some cv → ∀ c ∈ cv, safeTextChar c = true) :
    SQLParser._parse_field ⟨'`' :: (nm ++ ('`' :: (' ' ::
        tsegF (nnSeg nn (dfSeg df (aiSeg ai (cmtSeg cmt)))))))⟩ =
      some (SQLParser._parse_field_type (fieldBase nm nn ai df cmt) (pyUpper ⟨tcap⟩)) := by
  have hm : reMatch P_field ⟨'`' :: (nm ++ ('`' :: (' ' ::
      tsegF (nnSeg nn (dfSeg df (aiSeg ai (cmtSeg cmt)))))))⟩ =
      some (segCaps nn ai df cmt tcap nm) :=
    pf_match_core nm hnm hnmne tsegF tcap htshead htype nn ai df cmt hdfd hdfq hcmt
  unfold SQLParser._parse_field
  rw [hm]
  simp only [capStr, segCaps_get1, segCaps_get2, segCaps_get3, segCaps_get4,
    segCaps_get5, segCaps_get7, Option.map_some', Option.getD_some, isSome_if]
  rcases cmt with _ | cv
  · rcases df with _ | ⟨⟨dv, b⟩⟩
    · cases nn <;> cases ai <;> rfl
    · cases b with
      | true =>
        obtain ⟨hdig, hdne⟩ := hdfd dv rfl
        have hs1 : pyStripChar '\'' (⟨dv⟩ : String) = ⟨dv⟩ :=
          pyStripChar_id '\'' ⟨dv⟩ (fun x hx => digit_not_squote x (hdig x hx))
        have hs2 : pyStripChar '"' (⟨dv⟩ : String) = ⟨dv⟩ :=
          pyStripChar_id '"' ⟨dv⟩ (fun x hx => digit_not_dquote x (hdig x hx))
        simp only [Option.map_some', Option.getD_some, hs1, hs2]
        cases nn <;> cases ai <;> rfl
      | false =>
        have hsafe := hdfq dv rfl
        have hs1 : pyStripChar '\'' (⟨'\'' :: (dv ++ ['\''])⟩ : String) = ⟨dv⟩ :=
          pyStripChar_quotes dv (fun x hx => safeC_no_squote x (hsafe x hx))
        have hs2 : pyStripChar '"' (⟨dv⟩ : String) = ⟨dv⟩ :=
          pyStripChar_id '"' ⟨dv⟩ (fun x hx => safeC_no_dquote x (hsafe x hx))
        simp only [Option.map_some', Option.getD_some, hs1, hs2]
        cases nn <;> cases ai <;> rfl
  · have hsafe := hcmt cv rfl
    have hC1 : pyReplace (⟨cv⟩ : String) "\\'" "'" = ⟨cv⟩ :=
      pyReplace_id ⟨cv⟩ '\\' ("'".data) "\\'" "'" rfl
        (fun c hc => safeC_no_backslash c (hsafe c hc))
    have hC2 : pyReplace (⟨cv⟩ : String) "\\\"" "\"" = ⟨cv⟩ :=
      pyReplace_id ⟨cv⟩ '\\' ("\"".data) "\\\"" "\"" rfl
        (fun c hc => safeC_no_backslash c (hsafe c hc))
    simp only [Option.map_some', Option.getD_some, hC1, hC2]
    rcases df with _ | ⟨⟨dv, b⟩⟩
    · cases nn <;> cases ai <;> rfl
    · cases b with
      | true =>
        obtain ⟨hdig, hdne⟩ := hdfd dv rfl
        have hs1 : pyStripChar '\'' (⟨dv⟩ : String) = ⟨dv⟩ :=
          pyStripChar_id '\'' ⟨dv⟩ (fun x hx => digit_not_squote x (hdig x hx))
        have hs2 : pyStripChar '"' (⟨dv⟩ : String) = ⟨dv⟩ :=
          pyStripChar_id '"' ⟨dv⟩ (fun x hx => digit_not_dquote x (hdig x hx))
        simp only [Option.map_some', Option.getD_some, hs1, hs2]
        cases nn <;> cases ai <;> rfl
      | false =>
        have hsafe2 := hdfq dv rfl
        have hs1 : pyStripChar '\'' (⟨'\'' :: (dv ++ ['\''])⟩ : String) = ⟨dv⟩ :=
          pyStripChar_quotes dv (fun x hx => safeC_no_squote x (hsafe2 x hx))
        have hs2 : pyStripChar '"' (⟨dv⟩ : String) = ⟨dv⟩ :=
          pyStripChar_id '"' ⟨dv⟩ (fun x hx => safeC_no_dquote x (hsafe2 x hx))
        simp only [Option.map_some', Option.getD_some, hs1, hs2]
        cases nn <;> cases ai <;> rfl

/-- Default-clause parameter of a field (payload characters, digit flag). -/
def dfOf : Option DefaultV → Option (List Char × Bool)
  | some (.str s) => some (s.data, pyIsdigit s)
  | _ => none

/-- Comment parameter of a field (the clause is omitted for an empty
comment). -/
def cmtOf : Option String → Option (List Char)
  | some c => if c == "" then none else some c.data
  | none => none

lemma data_ite (P : Prop) [Decidable P] (A : String) :
    ((if P then A else "") : String).data = if P then A.data else [] := by
  split <;> simp

lemma data_ite_append (P : Prop) [Decidable P] (A : String) (R : List Char) :
    ((if P then A else "") : String).data ++ R = if P then A.data ++ R else R := by
  split <;> simp

lemma flag_if (o : Option Bool) (h : o = none ∨ o = some true) :
    (if o.getD false then some true else none) = o := by
  rcases h with h | h <;> rw [h] <;> rfl

lemma fieldLine_data (f : Field) (hf : acceptedField f = true)
    (tsegF : List Char → List Char)
    (htseg : ∀ R, (typeKw f).data ++
      ((if f.unsigned.getD false = true then ' ' :: "unsigned".data else []) ++ R) = tsegF R) :
    (fieldLineStr f).data = '`' :: (f.name.data ++ ('`' :: (' ' ::
      tsegF (nnSeg (f.not_null.getD false) (dfSeg (dfOf f.default)
        (aiSeg (f.auto_increment.getD false) (cmtSeg (cmtOf f.comment)))))))) := by
  obtain ⟨c, hc, hcsafe⟩ := acceptedField_comment f hf
  have hreq := acceptedField_required f hf
  have hcond : (f.not_null.getD false || f.required.getD false) = f.not_null.getD false := by
    rw [hreq]
    simp
  rw [← htseg (nnSeg (f.not_null.getD false) (dfSeg (dfOf f.default)
    (aiSeg (f.auto_increment.getD false) (cmtSeg (cmtOf f.comment)))))]
  unfold fieldLineStr
  rw [hcond, hc]
  rcases acceptedField_default f hf with hdf | ⟨s, hdf, hssafe⟩
  · -- no default
    rw [hdf]
    unfold _default_clause dfOf
    cases hcq : (c == "") with
    | true =>
      have hce : c = "" := by simpa using hcq
      subst hce
      unfold commentClause cmtOf
      simp only [hcq]
      cases hnn : f.not_null.getD false <;> cases hai2 : f.auto_increment.getD false <;>
        simp [nnSeg, dfSeg, aiSeg, cmtSeg, String.data_append, List.append_assoc, data_ite]
    | false =>
      have hcne : ¬(c = "") := by simpa using hcq
      unfold commentClause cmtOf
      simp only [hcq]
      cases hnn : f.not_null.getD false <;> cases hai2 : f.auto_increment.getD false <;>
        simp [nnSeg, dfSeg, aiSeg, cmtSeg, String.data_append, List.append_assoc, data_ite,
          hcne]
  · -- default present: auto_increment must be off
    have hai0 : f.auto_increment.getD false = false := by
      rcases acceptedField_ai f hf with h | h
      · rw [h]; rfl
      · exfalso
        exact acceptedField_noAIdefault f hf ⟨by rw [h]; rfl, by rw [hdf]; rfl⟩
    rw [hdf, hai0]
    unfold _default_clause dfOf
    cases hcq : (c == "") with
    | true =>
      have hce : c = "" := by simpa using hcq
      subst hce
      unfold commentClause cmtOf
      simp only [hcq]
      cases hdig : pyIsdigit s <;> cases hnn : f.not_null.getD false <;>
        simp [nnSeg, dfSeg, aiSeg, cmtSeg, String.data_append, List.append_assoc, data_ite]
    | false =>
      have hcne : ¬(c = "") := by simpa using hcq
      unfold commentClause cmtOf
      simp only [hcq]
      cases hdig : pyIsdigit s <;> cases hnn : f.not_null.getD false <;>
        simp [nnSeg, dfSeg, aiSeg, cmtSeg, String.data_append, List.append_assoc, data_ite,
          hcne]

lemma acceptedField_enum (f : Field) (h : acceptedField f = true) :
    f.enum_values = none := by
  have ht := acceptedField_type f h
  simp only [Bool.or_eq_true, Bool.and_eq_true] at ht
  rcases ht with ((h1 | h1) | h1) | h1 <;> exact Option.isNone_iff_eq_none.mp h1.2

lemma parse_field_main (f : Field) (hf : acceptedField f = true)
    (tsegF : List Char → List Char) (tcap : List Char)
    (htshead : ∀ r, ∃ t0 t2, tsegF r = t0 :: t2 ∧ isSpaceChar t0 = false)
    (htype : ∀ rest caps k R,
      (rest = [] ∨ ∃ ch r2, rest = ' ' :: ch :: r2 ∧ isSpaceChar ch = false ∧
        charEqCI true 'u' ch = false) →
      k rest ((2, tcap) :: caps) = some R →
      reM (.group 2 (reSeqs [.plusC alphaP false,
        .opt (reSeqs [litS true "(", .plusC Char.isDigit false,
          .opt (reSeqs [litS true ",", .plusC Char.isDigit false]), litS true ")"]),
        .opt (reSeqs [.plusC isSpaceChar false, litS true "unsigned"])]))
        (tsegF rest) caps k = some R)
    (htseg : ∀ R, (typeKw f).data ++
      ((if f.unsigned.getD false = true then ' ' :: "unsigned".data else []) ++ R) = tsegF R)
    (hpft : SQLParser._parse_field_type
        (fieldBase f.name.data (f.not_null.getD false) (f.auto_increment.getD false)
          (dfOf f.default) (cmtOf f.comment)) (pyUpper ⟨tcap⟩) =
      { fieldBase f.name.data (f.not_null.getD false) (f.auto_increment.getD false)
          (dfOf f.default) (cmtOf f.comment) with
        type := f.type
        unsigned := f.unsigned
        length := f.length
        max_length := f.max_length
        precision := f.precision
        scale := f.scale }) :
    SQLParser._parse_field (fieldLineStr f) = some f := by
  have hname := acceptedField_name f hf
  have hnm := ident_chars f.name hname
  have hnmne := ident_data_ne_nil f.name hname
  obtain ⟨c, hc, hcsafe⟩ := acceptedField_comment f hf
  have hdfd : ∀ dv, dfOf f.default = some (dv, true) →
      (∀ ch ∈ dv, Char.isDigit ch = true) ∧ dv ≠ [] := by
    intro dv h
    rcases acceptedField_default f hf with hdf | ⟨s, hdf, hssafe⟩
    · rw [hdf] at h
      exact absurd h (by simp [dfOf])
    · rw [hdf] at h
      unfold dfOf at h
      rw [Option.some_inj] at h
      have h1 : s.data = dv := congrArg Prod.fst h
      have h2 : pyIsdigit s = true := congrArg Prod.snd h
      unfold pyIsdigit at h2
      simp only [Bool.and_eq_true, Bool.not_eq_true'] at h2
      constructor
      · intro ch hch
        rw [← h1] at hch
        exact List.all_eq_true.mp h2.2 ch hch
      · rw [← h1]
        intro he
        rw [he] at h2
        exact absurd h2.1 (by decide)
  have hdfq : ∀ sv, dfOf f.default = some (sv, false) →
      ∀ ch ∈ sv, safeTextChar ch = true := by
    intro sv h
    rcases acceptedField_default f hf with hdf | ⟨s, hdf, hssafe⟩
    · rw [hdf] at h
      exact absurd h (by simp [dfOf])
    · rw [hdf] at h
      unfold dfOf at h
      rw [Option.some_inj] at h
      have h1 : s.data = sv := congrArg Prod.fst h
      intro ch hch
      rw [← h1] at hch
      exact List.all_eq_true.mp hssafe ch hch
  have hcmt : ∀ cv, cmtOf f.comment = some cv →
      ∀ ch ∈ cv, safeTextChar ch = true := by
    intro cv h
    rw [hc] at h
    simp only [cmtOf] at h
    cases hcq : (c == "") with
    | true => rw [hcq] at h; exact absurd h (by simp)
    | false =>
      rw [hcq] at h
      simp only [Bool.false_eq_true, if_false, Option.some_inj] at h
      intro ch hch
      rw [← h] at hch
      exact List.all_eq_true.mp hcsafe ch hch
  have hdata := fieldLine_data f hf tsegF htseg
  have hline : fieldLineStr f = ⟨'`' :: (f.name.data ++ ('`' :: (' ' ::
      tsegF (nnSeg (f.not_null.getD false) (dfSeg (dfOf f.default)
        (aiSeg (f.auto_increment.getD false) (cmtSeg (cmtOf f.comment))))))))⟩ :=
    String.ext hdata
  rw [hline]
  rw [parse_field_shape f.name.data hnm hnmne tsegF tcap htshead htype
    (f.not_null.getD false) (f.auto_increment.getD false) (dfOf f.default)
    (cmtOf f.comment) hdfd hdfq hcmt]
  rw [hpft]
  congr 1
  have hfeta : f = Field.mk f.name f.type f.length f.max_length f.precision f.scale
      f.enum_values f.unsigned f.not_null f.required f.auto_increment f.default
      f.comment := rfl
  rw [hfeta]
  simp only [fieldBase]
  rw [Field.mk.injEq]
  refine ⟨rfl, rfl, rfl, rfl, rfl, rfl, (acceptedField_enum f hf).symm, rfl,
    flag_if f.not_null (acceptedField_not_null f hf),
    (acceptedField_required f hf).symm,
    flag_if f.auto_increment (acceptedField_ai f hf), ?_, ?_⟩
  · rcases acceptedField_default f hf with hdf | ⟨s, hdf, hssafe⟩
    · rw [hdf]; rfl
    · rw [hdf]; rfl
  · rw [hc]
    simp only [cmtOf]
    cases hcq : (c == "") with
    | true =>
      have hce : c = "" := by simpa using hcq
      subst hce
      rfl
    | false =>
      rfl

lemma alpha_not_space (c : Char) (h : alphaP c = true) : isSpaceChar c = false := by
  unfold alphaP Char.isAlpha Char.isLower Char.isUpper at h
  simp only [Bool.or_eq_true, Bool.and_eq_true, decide_eq_true_eq] at h
  unfold isSpaceChar
  simp only [Bool.or_eq_false_iff, beq_eq_false_iff_ne, ne_eq]
  refine ⟨⟨⟨⟨⟨?_, ?_⟩, ?_⟩, ?_⟩, ?_⟩, ?_⟩ <;> intro he <;> rw [he] at h <;> revert h <;>
    decide

lemma roundtrip_length_family (f : Field) (hf : acceptedField f = true)
    (kwl : List Char) (tyname : String) (n : Nat)
    (hkw : ∀ c ∈ kwl, alphaP c = true) (hkwne : kwl ≠ [])
    (hty : f.type = tyname) (hn : f.length = some n)
    (hml : f.max_length = none) (hp : f.precision = none) (hs : f.scale = none)
    (htk : (typeKw f).data = kwl ++ ('(' :: ((natToDec n).data ++ [')'])))
    (hpftT : ∀ f0 : Field, SQLParser._parse_field_type f0 (pyUpper ⟨kwl ++ ('(' ::
      ((natToDec n).data ++ (')' :: (if f.unsigned.getD false = true then
        ' ' :: "unsigned".data else []))))⟩) =
      { f0 with
        type := tyname
        unsigned := (if f.unsigned.getD false then some true else f0.unsigned)
        length := some n }) :
    SQLParser._parse_field (fieldLineStr f) = some f := by
  have huX : (if f.unsigned.getD false then some true
      else (fieldBase f.name.data (f.not_null.getD false) (f.auto_increment.getD false)
        (dfOf f.default) (cmtOf f.comment)).unsigned) = f.unsigned := by
    simp only [fieldBase]
    exact flag_if f.unsigned (acceptedField_unsigned f hf)
  have h := hpftT (fieldBase f.name.data (f.not_null.getD false)
    (f.auto_increment.getD false) (dfOf f.default) (cmtOf f.comment))
  refine parse_field_main f hf
    (fun r => kwl ++ ('(' :: ((natToDec n).data ++ (')' ::
      ((if f.unsigned.getD false = true then ' ' :: "unsigned".data else []) ++ r)))))
    (kwl ++ ('(' :: ((natToDec n).data ++ (')' ::
      (if f.unsigned.getD false = true then ' ' :: "unsigned".data else [])))))
    ?_ ?_ ?_ (h.trans ?_)
  · intro r
    obtain ⟨k0, kw2, hk⟩ : ∃ k0 kw2, kwl = k0 :: kw2 := by
      cases kwl with
      | nil => exact absurd rfl hkwne
      | cons a b => exact ⟨a, b, rfl⟩
    refine ⟨k0, kw2 ++ ('(' :: ((natToDec n).data ++ (')' ::
      ((if f.unsigned.getD false = true then ' ' :: "unsigned".data else []) ++ r)))),
      ?_, ?_⟩
    · rw [hk]
      rfl
    · exact alpha_not_space k0 (hkw k0 (by rw [hk]; simp))
  · intro rest caps k R hrest hk
    exact pf_type_par1 kwl ((natToDec n).data) (f.unsigned.getD false) rest caps k R
      hkw hkwne (natToDec_digits n) (decGo_ne_nil (n + 1) n (by omega)) hrest hk
  · intro R
    rw [htk]
    simp [List.append_assoc]
  · rw [hty, hn, hml, hp, hs, huX]
    simp only [fieldBase]

lemma roundtrip_maxlen_family (f : Field) (hf : acceptedField f = true)
    (kwl : List Char) (tyname : String) (n : Nat)
    (hkw : ∀ c ∈ kwl, alphaP c = true) (hkwne : kwl ≠ [])
    (hty : f.type = tyname) (hn : f.max_length = some n)
    (hml : f.length = none) (hp : f.precision = none) (hs : f.scale = none)
    (htk : (typeKw f).data = kwl ++ ('(' :: ((natToDec n).data ++ [')'])))
    (hpftT : ∀ f0 : Field, SQLParser._parse_field_type f0 (pyUpper ⟨kwl ++ ('(' ::
      ((natToDec n).data ++ (')' :: (if f.unsigned.getD false = true then
        ' ' :: "unsigned".data else []))))⟩) =
      { f0 with
        type := tyname
        unsigned := (if f.unsigned.getD false then some true else f0.unsigned)
        max_length := some n }) :
    SQLParser._parse_field (fieldLineStr f) = some f := by
  have huX : (if f.unsigned.getD false then some true
      else (fieldBase f.name.data (f.not_null.getD false) (f.auto_increment.getD false)
        (dfOf f.default) (cmtOf f.comment)).unsigned) = f.unsigned := by
    simp only [fieldBase]
    exact flag_if f.unsigned (acceptedField_unsigned f hf)
  have h := hpftT (fieldBase f.name.data (f.not_null.getD false)
    (f.auto_increment.getD false) (dfOf f.default) (cmtOf f.comment))
  refine parse_field_main f hf
    (fun r => kwl ++ ('(' :: ((natToDec n).data ++ (')' ::
      ((if f.unsigned.getD false = true then ' ' :: "unsigned".data else []) ++ r)))))
    (kwl ++ ('(' :: ((natToDec n).data ++ (')' ::
      (if f.unsigned.getD false = true then ' ' :: "unsigned".data else [])))))
    ?_ ?_ ?_ (h.trans ?_)
  · intro r
    obtain ⟨k0, kw2, hk⟩ : ∃ k0 kw2, kwl = k0 :: kw2 := by
      cases kwl with
      | nil => exact absurd rfl hkwne
      | cons a b => exact ⟨a, b, rfl⟩
    refine ⟨k0, kw2 ++ ('(' :: ((natToDec n).data ++ (')' ::
      ((if f.unsigned.getD false = true then ' ' :: "unsigned".data else []) ++ r)))),
      ?_, ?_⟩
    · rw [hk]
      rfl
    · exact alpha_not_space k0 (hkw k0 (by rw [hk]; simp))
  · intro rest caps k R hrest hk
    exact pf_type_par1 kwl ((natToDec n).data) (f.unsigned.getD false) rest caps k R
      hkw hkwne (natToDec_digits n) (decGo_ne_nil (n + 1) n (by omega)) hrest hk
  · intro R
    rw [htk]
    simp [List.append_assoc]
  · rw [hty, hn, hml, hp, hs, huX]
    simp only [fieldBase]

lemma roundtrip_plain_family (f : Field) (hf : acceptedField f = true)
    (kwl : List Char) (tyname : String)
    (hkw : ∀ c ∈ kwl, alphaP c = true) (hkwne : kwl ≠ [])
    (hty : f.type = tyname) (hln : f.length = none)
    (hml : f.max_length = none) (hp : f.precision = none) (hs : f.scale = none)
    (htk : (typeKw f).data = kwl)
    (hpftT : ∀ f0 : Field, SQLParser._parse_field_type f0 (pyUpper ⟨kwl ++
      (if f.unsigned.getD false = true then ' ' :: "unsigned".data else [])⟩) =
      { f0 with
        type := tyname
        unsigned := (if f.unsigned.getD false then some true else f0.unsigned) }) :
    SQLParser._parse_field (fieldLineStr f) = some f := by
  have huX : (if f.unsigned.getD false then some true
      else (fieldBase f.name.data (f.not_null.getD false) (f.auto_increment.getD false)
        (dfOf f.default) (cmtOf f.comment)).unsigned) = f.unsigned := by
    simp only [fieldBase]
    exact flag_if f.unsigned (acceptedField_unsigned f hf)
  have h := hpftT (fieldBase f.name.data (f.not_null.getD false)
    (f.auto_increment.getD false) (dfOf f.default) (cmtOf f.comment))
  refine parse_field_main f hf
    (fun r => kwl ++ ((if f.unsigned.getD false = true then
      ' ' :: "unsigned".data else []) ++ r))
    (kwl ++ (if f.unsigned.getD false = true then ' ' :: "unsigned".data else []))
    ?_ ?_ ?_ (h.trans ?_)
  · intro r
    obtain ⟨k0, kw2, hk⟩ : ∃ k0 kw2, kwl = k0 :: kw2 := by
      cases kwl with
      | nil => exact absurd rfl hkwne
      | cons a b => exact ⟨a, b, rfl⟩
    refine ⟨k0, kw2 ++ ((if f.unsigned.getD false = true then
      ' ' :: "unsigned".data else []) ++ r), ?_, ?_⟩
    · rw [hk]
      rfl
    · exact alpha_not_space k0 (hkw k0 (by rw [hk]; simp))
  · intro rest caps k R hrest hk
    exact pf_type_plain kwl (f.unsigned.getD false) rest caps k R hkw hkwne hrest hk
  · intro R
    rw [htk]
  · rw [hty, hln, hml, hp, hs, huX]
    simp only [fieldBase]

lemma roundtrip_decimal_family (f : Field) (hf : acceptedField f = true)
    (p s : Nat)
    (hty : f.type = "decimal") (hpp : f.precision = some p) (hss : f.scale = some s)
    (hln : f.length = none) (hml : f.max_length = none)
    (htk : (typeKw f).data = "decimal".data ++ ('(' :: ((natToDec p).data ++
      (',' :: ((natToDec s).data ++ [')']))))) :
    SQLParser._parse_field (fieldLineStr f) = some f := by
  have huX : (if f.unsigned.getD false then some true
      else (fieldBase f.name.data (f.not_null.getD false) (f.auto_increment.getD false)
        (dfOf f.default) (cmtOf f.comment)).unsigned) = f.unsigned := by
    simp only [fieldBase]
    exact flag_if f.unsigned (acceptedField_unsigned f hf)
  have h := pft_decimal (fieldBase f.name.data (f.not_null.getD false)
    (f.auto_increment.getD false) (dfOf f.default) (cmtOf f.comment)) p s
    (f.unsigned.getD false)
  refine parse_field_main f hf
    (fun r => "decimal".data ++ ('(' :: ((natToDec p).data ++ (',' ::
      ((natToDec s).data ++ (')' ::
        ((if f.unsigned.getD false = true then ' ' :: "unsigned".data else []) ++ r)))))))
    ("decimal".data ++ ('(' :: ((natToDec p).data ++ (',' ::
      ((natToDec s).data ++ (')' ::
        (if f.unsigned.getD false = true then ' ' :: "unsigned".data else [])))))))
    ?_ ?_ ?_ (h.trans ?_)
  · intro r
    exact ⟨'d', _, rfl, by decide⟩
  · intro rest caps k R hrest hk
    exact pf_type_par2 ("decimal".data) ((natToDec p).data) ((natToDec s).data)
      (f.unsigned.getD false) rest caps k R (by decide) (by decide)
      (natToDec_digits p) (decGo_ne_nil (p + 1) p (by omega))
      (natToDec_digits s) (decGo_ne_nil (s + 1) s (by omega)) hrest hk
  · intro R
    rw [htk]
    simp [List.append_assoc]
  · rw [hty, hpp, hss, hln, hml, huX]
    simp only [fieldBase]

lemma field_roundtrip (f : Field) (hf : acceptedField f = true) :
    SQLParser._parse_field (fieldLineStr f) = some f := by
  have ht := acceptedField_type f hf
  simp only [Bool.or_eq_true, Bool.and_eq_true, beq_iff_eq] at ht
  rcases ht with ((⟨⟨⟨⟨⟨hty4, hlen⟩, hml⟩, hp⟩, hs⟩, hev⟩ |
      ⟨⟨⟨⟨⟨hty, hmls⟩, hln⟩, hp⟩, hs⟩, hev⟩) |
      ⟨⟨⟨⟨⟨hty5, hln⟩, hml⟩, hp⟩, hs⟩, hev⟩) |
      ⟨⟨⟨⟨⟨hty, hpp⟩, hss⟩, hln⟩, hml⟩, hev⟩
  · obtain ⟨n, hn⟩ := Option.isSome_iff_exists.mp hlen
    rcases hty4 with ((hty | hty) | hty) | hty
    · exact roundtrip_length_family f hf ("int".data) "int" n (by decide) (by decide)
        hty hn (Option.isNone_iff_eq_none.mp hml) (Option.isNone_iff_eq_none.mp hp)
        (Option.isNone_iff_eq_none.mp hs)
        (by unfold typeKw; rw [hty, hn]; simp [String.data_append])
        (fun f0 => pft_int f0 n (f.unsigned.getD false))
    · exact roundtrip_length_family f hf ("bigint".data) "bigint" n (by decide) (by decide)
        hty hn (Option.isNone_iff_eq_none.mp hml) (Option.isNone_iff_eq_none.mp hp)
        (Option.isNone_iff_eq_none.mp hs)
        (by unfold typeKw; rw [hty, hn]; simp [String.data_append])
        (fun f0 => pft_bigint f0 n (f.unsigned.getD false))
    · exact roundtrip_length_family f hf ("smallint".data) "smallint" n (by decide)
        (by decide)
        hty hn (Option.isNone_iff_eq_none.mp hml) (Option.isNone_iff_eq_none.mp hp)
        (Option.isNone_iff_eq_none.mp hs)
        (by unfold typeKw; rw [hty, hn]; simp [String.data_append])
        (fun f0 => pft_smallint f0 n (f.unsigned.getD false))
    · exact roundtrip_length_family f hf ("tinyint".data) "tinyint" n (by decide)
        (by decide)
        hty hn (Option.isNone_iff_eq_none.mp hml) (Option.isNone_iff_eq_none.mp hp)
        (Option.isNone_iff_eq_none.mp hs)
        (by unfold typeKw; rw [hty, hn]; simp [String.data_append])
        (fun f0 => pft_tinyint f0 n (f.unsigned.getD false))
  · obtain ⟨n, hn⟩ := Option.isSome_iff_exists.mp hmls
    exact roundtrip_maxlen_family f hf ("varchar".data) "string" n (by decide) (by decide)
      hty hn (Option.isNone_iff_eq_none.mp hln) (Option.isNone_iff_eq_none.mp hp)
      (Option.isNone_iff_eq_none.mp hs)
      (by unfold typeKw; rw [hty, hn]; simp [String.data_append])
      (fun f0 => pft_varchar f0 n (f.unsigned.getD false))
  · rcases hty5 with (((hty | hty) | hty) | hty) | hty
    · exact roundtrip_plain_family f hf ("date".data) "date" (by decide) (by decide)
        hty (Option.isNone_iff_eq_none.mp hln) (Option.isNone_iff_eq_none.mp hml)
        (Option.isNone_iff_eq_none.mp hp) (Option.isNone_iff_eq_none.mp hs)
        (by unfold typeKw; rw [hty]; simp)
        (fun f0 => pft_date f0 (f.unsigned.getD false))
    · exact roundtrip_plain_family f hf ("datetime".data) "datetime" (by decide)
        (by decide)
        hty (Option.isNone_iff_eq_none.mp hln) (Option.isNone_iff_eq_none.mp hml)
        (Option.isNone_iff_eq_none.mp hp) (Option.isNone_iff_eq_none.mp hs)
        (by unfold typeKw; rw [hty]; simp)
        (fun f0 => pft_datetime f0 (f.unsigned.getD false))
    · exact roundtrip_plain_family f hf ("text".data) "text" (by decide) (by decide)
        hty (Option.isNone_iff_eq_none.mp hln) (Option.isNone_iff_eq_none.mp hml)
        (Option.isNone_iff_eq_none.mp hp) (Option.isNone_iff_eq_none.mp hs)
        (by unfold typeKw; rw [hty]; simp)
        (fun f0 => pft_text f0 (f.unsigned.getD false))
    · exact roundtrip_plain_family f hf ("mediumtext".data) "mediumtext" (by decide)
        (by decide)
        hty (Option.isNone_iff_eq_none.mp hln) (Option.isNone_iff_eq_none.mp hml)
        (Option.isNone_iff_eq_none.mp hp) (Option.isNone_iff_eq_none.mp hs)
        (by unfold typeKw; rw [hty]; simp)
        (fun f0 => pft_mediumtext f0 (f.unsigned.getD false))
    · exact roundtrip_plain_family f hf ("json".data) "json" (by decide) (by decide)
        hty (Option.isNone_iff_eq_none.mp hln) (Option.isNone_iff_eq_none.mp hml)
        (Option.isNone_iff_eq_none.mp hp) (Option.isNone_iff_eq_none.mp hs)
        (by unfold typeKw; rw [hty]; simp)
        (fun f0 => pft_json f0 (f.unsigned.getD false))
  · obtain ⟨p, hpv⟩ := Option.isSome_iff_exists.mp hpp
    obtain ⟨sv, hsv⟩ := Option.isSome_iff_exists.mp hss
    exact roundtrip_decimal_family f hf p sv hty hpv hsv
      (Option.isNone_iff_eq_none.mp hln) (Option.isNone_iff_eq_none.mp hml)
      (by unfold typeKw; rw [hty, hpv, hsv]; simp [String.data_append])

/-! ## Recovering field-name lists from rendered blobs -/

lemma pyStripChar_wrap (ch : Char) (sv : List Char) (h : ∀ x ∈ sv, (x == ch) = false) :
    pyStripChar ch ⟨ch :: (sv ++ [ch])⟩ = ⟨sv⟩ := by
  unfold pyStripChar
  apply congrArg String.mk
  show rstripP (fun x => x == ch) (lstripP (fun x => x == ch) (ch :: (sv ++ [ch]))) = sv
  rw [show lstripP (fun x => x == ch) (ch :: (sv ++ [ch])) =
    lstripP (fun x => x == ch) (sv ++ [ch]) from by simp [lstripP]]
  cases sv with
  | nil => simp [lstripP, rstripP]
  | cons s0 sv2 =>
    rw [lstripP_all_false _ _ (by simpa using h s0 (by simp))]
    unfold rstripP
    rw [show ((s0 :: sv2) ++ [ch]).reverse = ch :: (s0 :: sv2).reverse from by simp]
    rw [show lstripP (fun x => x == ch) (ch :: (s0 :: sv2).reverse) =
      lstripP (fun x => x == ch) ((s0 :: sv2).reverse) from by simp [lstripP]]
    have hl2 : match (s0 :: sv2).reverse with
        | [] => True
        | c :: _ => (fun x => x == ch) c = false := by
      cases hr : (s0 :: sv2).reverse with
      | nil => trivial
      | cons c rest =>
        show (c == ch) = false
        apply h
        have hm2 : c ∈ (s0 :: sv2).reverse := by rw [hr]; simp
        exact (List.mem_reverse).mp hm2
    rw [lstripP_all_false _ _ hl2]
    exact List.reverse_reverse _

lemma ident_no_backtick (n : String) (hn : pyIsIdentifier n = true) :
    ∀ x ∈ n.data, (x == '`') = false := by
  intro x hx
  have hw := ident_chars n hn x hx
  simp only [beq_eq_false_iff_ne, ne_eq]
  exact wordChar_ne x '`' (by decide) hw

lemma ident_no_space (n : String) (hn : pyIsIdentifier n = true) :
    ∀ x ∈ n.data, isSpaceChar x = false := by
  intro x hx
  exact wordChar_not_space x (ident_chars n hn x hx)

lemma strip_quoted_name (n : String) (hn : pyIsIdentifier n = true) :
    pyStripChar '`' (pyStrip ⟨'`' :: (n.data ++ ['`'])⟩) = n := by
  have hstrip : pyStrip (⟨'`' :: (n.data ++ ['`'])⟩ : String) = ⟨'`' :: (n.data ++ ['`'])⟩ := by
    unfold pyStrip
    apply congrArg String.mk
    apply pyStripL_eq_self
    intro c hc
    rcases List.mem_cons.mp hc with h | h
    · rw [h]; decide
    · rcases List.mem_append.mp h with h2 | h2
      · exact ident_no_space n hn c h2
      · simp only [List.mem_singleton] at h2
        rw [h2]; decide
  rw [hstrip]
  rw [pyStripChar_wrap '`' n.data (ident_no_backtick n hn)]

lemma strip_spaced_quoted_name (m : String) (hm : pyIsIdentifier m = true) :
    pyStripChar '`' (pyStrip ⟨' ' :: '`' :: (m.data ++ ['`'])⟩) = m := by
  have hstrip : pyStrip (⟨' ' :: '`' :: (m.data ++ ['`'])⟩ : String) =
      ⟨'`' :: (m.data ++ ['`'])⟩ := by
    unfold pyStrip
    apply congrArg String.mk
    unfold pyStripL
    rw [show lstripP isSpaceChar (' ' :: '`' :: (m.data ++ ['`'])) =
      lstripP isSpaceChar ('`' :: (m.data ++ ['`'])) from by simp [lstripP, isSpaceChar]]
    rw [lstripP_all_false isSpaceChar _ (by show isSpaceChar '`' = false; decide)]
    apply rstripP_all_false
    rw [show ('`' :: (m.data ++ ['`'])).reverse = '`' :: ('`' :: m.data).reverse from by simp]
    show isSpaceChar '`' = false
    decide
  rw [hstrip]
  rw [pyStripChar_wrap '`' m.data (ident_no_backtick m hm)]

lemma quoted_no_comma (n : String) (hn : pyIsIdentifier n = true) :
    ∀ c ∈ '`' :: (n.data ++ ['`']), (c == ',') = false := by
  intro c hc
  rcases List.mem_cons.mp hc with h | h
  · rw [h]; decide
  · rcases List.mem_append.mp h with h2 | h2
    · simp only [beq_eq_false_iff_ne, ne_eq]
      exact wordChar_ne c ',' (by decide) (ident_chars n hn c h2)
    · simp only [List.mem_singleton] at h2
      rw [h2]; decide

lemma splitGo_quoted (rest : List String) : ∀ (n : String) (cur : List Char),
    pyIsIdentifier n = true → (∀ m ∈ rest, pyIsIdentifier m = true) →
    splitGo ',' ((joinSep ", " ((n :: rest).map (fun x => "`" ++ x ++ "`"))).data) cur =
      (cur.reverse ++ ('`' :: (n.data ++ ['`']))) ::
        rest.map (fun m => ' ' :: '`' :: (m.data ++ ['`'])) := by
  induction rest with
  | nil =>
    intro n cur hn _
    rw [show (joinSep ", " ([n].map (fun x => "`" ++ x ++ "`"))).data =
      '`' :: (n.data ++ ['`']) from by simp [joinSep, String.data_append]]
    rw [splitGo_no_sep ',' _ cur (quoted_no_comma n hn)]
    simp
  | cons m rest2 ih =>
    intro n cur hn hrest
    rw [show (joinSep ", " ((n :: m :: rest2).map (fun x => "`" ++ x ++ "`"))).data =
      ('`' :: (n.data ++ ['`'])) ++ (',' :: (' ' ::
        (joinSep ", " ((m :: rest2).map (fun x => "`" ++ x ++ "`"))).data)) from by
      simp [joinSep, String.data_append, List.append_assoc]]
    rw [splitGo_sep_append ',' ('`' :: (n.data ++ ['`'])) _ cur (quoted_no_comma n hn)]
    rw [show splitGo ','
      (' ' :: (joinSep ", " ((m :: rest2).map (fun x => "`" ++ x ++ "`"))).data) [] =
      splitGo ',' (joinSep ", " ((m :: rest2).map (fun x => "`" ++ x ++ "`"))).data [' ']
      from by simp [splitGo]]
    rw [ih m [' '] (hrest m (by simp)) (fun m2 hm2 => hrest m2 (by simp [hm2]))]
    simp

lemma splitFieldNames_inv (n : String) (rest : List String)
    (hn : pyIsIdentifier n = true) (hrest : ∀ m ∈ rest, pyIsIdentifier m = true) :
    SQLParser.splitFieldNames (joinSep ", " ((n :: rest).map (fun x => "`" ++ x ++ "`"))) =
      n :: rest := by
  unfold SQLParser.splitFieldNames pySplit
  rw [splitGo_quoted rest n [] hn hrest]
  simp only [List.reverse_nil, List.nil_append, List.map_cons, List.map_map]
  rw [strip_quoted_name n hn]
  congr 1
  exact (List.map_congr_left
    (fun m hm => strip_spaced_quoted_name m (hrest m hm))).trans (List.map_id rest)

/-! ## Clause parsers on rendered lines -/

/-- Rendered `USING` tail of a primary-key line. -/
def usingSegL : Option (List Char) → List Char
  | none => []
  | some v => ' ' :: ("USING".data ++ (' ' :: v))

lemma pk_hit (blob : List Char) (hblob : ∀ c ∈ blob, notRParen c = true)
    (hbne : blob ≠ []) (it : Option (List Char))
    (hit2 : ∀ v, it = some v → (∀ c ∈ v, isWordChar c = true) ∧ v ≠ []) :
    reSearchL P_pk ("PRIMARY".data ++ (' ' :: ("KEY".data ++ (' ' :: ('(' ::
        (blob ++ (')' :: usingSegL it))))))) =
      some ((match it with | none => ([] : Caps) | some v => [(2, v)]) ++ [(1, blob)]) := by
  apply reSearchL_hit
  unfold P_pk
  simp only [reSeqs, litS]
  rw [reM_seq_def]
  refine reM_lit_hit true ("PRIMARY".data) ("PRIMARY".data) _ _ _ _ (by decide) ?_
  rw [reM_seq_def]
  refine reM_plusG_hit isSpaceChar [' '] _ _ _ _ (by decide) (by decide) ?_ ?_
  · show isSpaceChar 'K' = false
    decide
  rw [reM_seq_def]
  refine reM_lit_hit true ("KEY".data) ("KEY".data) _ _ _ _ (by decide) ?_
  rw [reM_seq_def]
  refine reM_starG_hit isSpaceChar [' '] _ _ _ _ (by decide) ?_ ?_
  · show isSpaceChar '(' = false
    decide
  rw [reM_seq_def]
  refine reM_lit_hit true ("(".data) ("(".data) _ _ _ _ (by decide) ?_
  rw [reM_seq_def, reM_group_def]
  obtain ⟨b0, b2, hb⟩ : ∃ b0 b2, blob = b0 :: b2 := by
    cases blob with
    | nil => exact absurd rfl hbne
    | cons a b => exact ⟨a, b, rfl⟩
  subst hb
  refine reM_plusG_hit notRParen (b0 :: b2) (')' :: usingSegL it) _ _ _ hblob (by simp)
    ?_ ?_
  · show notRParen ')' = false
    decide
  simp only [List.append_eq]
  rw [take_sub_append]
  rw [reM_seq_def]
  refine reM_lit_hit true (")".data) (")".data) _ _ _ _ (by decide) ?_
  cases it with
  | none =>
    refine reM_opt_skip _ _ _ _ _ ?_ ?_
    · rfl
    · rfl
  | some v =>
    obtain ⟨hvw, hvne⟩ := hit2 v rfl
    obtain ⟨v0, v2, hv⟩ : ∃ v0 v2, v = v0 :: v2 := by
      cases v with
      | nil => exact absurd rfl hvne
      | cons a b => exact ⟨a, b, rfl⟩
    subst hv
    refine reM_opt_hit _ _ _ _ _ ?_
    rw [reM_seq_def]
    refine reM_plusG_hit isSpaceChar [' '] _ _ _ _ (by decide) (by decide) ?_ ?_
    · show isSpaceChar 'U' = false
      decide
    rw [reM_seq_def]
    refine reM_lit_hit true ("USING".data) ("USING".data) _ _ _ _ (by decide) ?_
    rw [reM_seq_def]
    refine reM_plusG_hit isSpaceChar [' '] _ _ _ _ (by decide) (by decide) ?_ ?_
    · show isSpaceChar v0 = false
      exact wordChar_not_space v0 (hvw v0 (by simp))
    rw [reM_group_def]
    refine reM_plusG_hit_end isWordChar (v0 :: v2) _ _ _ hvw (by simp) ?_
    simp only [List.length_nil, Nat.sub_zero, List.take_length]
    rfl

lemma parse_pk (pk : PrimaryKey) (h : acceptedPK (some pk) = true) :
    SQLParser._parse_primary_key (pkLineStr pk) = some pk := by
  obtain ⟨hty, hne, hnames, hit⟩ := acceptedPK_some pk h
  obtain ⟨n0, ns, hfields⟩ : ∃ n0 ns, pk.fields = n0 :: ns := by
    cases hfe : pk.fields with
    | nil => rw [hfe] at hne; exact absurd hne (by decide)
    | cons a b => exact ⟨a, b, rfl⟩
  have hblob : ∀ c ∈ (joinSep ", " (pk.fields.map (fun n => "`" ++ n ++ "`"))).data,
      notRParen c = true := by
    intro c hc
    refine List.all_eq_true.mp (joinSep_all ", " notRParen (by decide) _ ?_) c hc
    intro x hx
    obtain ⟨n, hn, hx2⟩ := List.mem_map.mp hx
    subst hx2
    simp only [String.data_append, List.all_append, Bool.and_eq_true]
    refine ⟨⟨by decide, ?_⟩, by decide⟩
    refine List.all_eq_true.mpr (fun ch hch => ?_)
    unfold notRParen
    exact bne_iff_ne.mpr (wordChar_ne ch ')' (by decide) (ident_chars n (hnames n hn) ch hch))
  have hbne : (joinSep ", " (pk.fields.map (fun n => "`" ++ n ++ "`"))).data ≠ [] := by
    rw [hfields]
    simp only [List.map_cons]
    cases hns : ns.map (fun n => "`" ++ n ++ "`") with
    | nil => simp [joinSep, String.data_append]
    | cons y r => simp [joinSep, String.data_append]
  rcases hit with hit0 | ⟨hitne, hitw, hitup⟩
  · have hdata : (pkLineStr pk).data = "PRIMARY".data ++ (' ' :: ("KEY".data ++ (' ' ::
        ('(' :: ((joinSep ", " (pk.fields.map (fun n => "`" ++ n ++ "`"))).data ++
          (')' :: usingSegL none)))))) := by
      unfold pkLineStr
      rw [hit0]
      simp [String.data_append, usingSegL]
    unfold SQLParser._parse_primary_key reSearch
    rw [show pkLineStr pk = ⟨"PRIMARY".data ++ (' ' :: ("KEY".data ++ (' ' ::
        ('(' :: ((joinSep ", " (pk.fields.map (fun n => "`" ++ n ++ "`"))).data ++
          (')' :: usingSegL none))))))⟩ from String.ext hdata]
    rw [pk_hit _ hblob hbne none (by intro v hv; exact absurd hv (by simp))]
    simp only [List.nil_append, capStr, capsGet, show ((2 : Nat) == 1) = false from rfl,
      show ((2 : Nat) == 2) = true from rfl, show ((1 : Nat) == 1) = true from rfl,
      show ((1 : Nat) == 2) = false from rfl, Bool.false_eq_true, eq_self_iff_true,
      if_true, if_false, Option.map_some', Option.map_none', Option.getD_some,
      Option.getD_none]
    rw [show ((⟨(joinSep ", " (pk.fields.map (fun n => "`" ++ n ++ "`"))).data⟩ : String)) =
      joinSep ", " (pk.fields.map (fun n => "`" ++ n ++ "`")) from rfl]
    rw [hfields, splitFieldNames_inv n0 ns (hnames n0 (by rw [hfields]; simp))
      (fun m hm => hnames m (by rw [hfields]; simp [hm]))]
    rw [show pk = PrimaryKey.mk pk.fields pk.type pk.index_type from rfl]
    rw [Option.some_inj, PrimaryKey.mk.injEq]
    exact ⟨hfields.symm, hty.symm, hit0.symm⟩
  · have hdata : (pkLineStr pk).data = "PRIMARY".data ++ (' ' :: ("KEY".data ++ (' ' ::
        ('(' :: ((joinSep ", " (pk.fields.map (fun n => "`" ++ n ++ "`"))).data ++
          (')' :: usingSegL (some pk.index_type.data))))))) := by
      unfold pkLineStr
      have hitne2 : ¬(pk.index_type = "") := by
        intro he
        rw [he] at hitne
        exact hitne rfl
      rw [hitup]
      simp [String.data_append, usingSegL, hitne2]
    unfold SQLParser._parse_primary_key reSearch
    rw [show pkLineStr pk = ⟨"PRIMARY".data ++ (' ' :: ("KEY".data ++ (' ' ::
        ('(' :: ((joinSep ", " (pk.fields.map (fun n => "`" ++ n ++ "`"))).data ++
          (')' :: usingSegL (some pk.index_type.data)))))))⟩ from String.ext hdata]
    rw [pk_hit _ hblob hbne (some pk.index_type.data)
      (by intro v hv; rw [Option.some_inj] at hv; subst hv; exact ⟨hitw, hitne⟩)]
    simp only [List.nil_append, capStr, capsGet, show ((2 : Nat) == 1) = false from rfl,
      show ((2 : Nat) == 2) = true from rfl, show ((1 : Nat) == 1) = true from rfl,
      show ((1 : Nat) == 2) = false from rfl, Bool.false_eq_true, eq_self_iff_true,
      if_true, if_false, Option.map_some', Option.map_none', Option.getD_some,
      Option.getD_none]
    rw [show ((⟨(joinSep ", " (pk.fields.map (fun n => "`" ++ n ++ "`"))).data⟩ : String)) =
      joinSep ", " (pk.fields.map (fun n => "`" ++ n ++ "`")) from rfl]
    rw [hfields, splitFieldNames_inv n0 ns (hnames n0 (by rw [hfields]; simp))
      (fun m hm => hnames m (by rw [hfields]; simp [hm]))]
    rw [show pk = PrimaryKey.mk pk.fields pk.type pk.index_type from rfl]
    rw [Option.some_inj, PrimaryKey.mk.injEq]
    exact ⟨hfields.symm, hty.symm, rfl⟩

lemma uk_hit (nm : List Char) (hnm : ∀ c ∈ nm, isWordChar c = true) (hnmne : nm ≠ [])
    (blob : List Char) (hblob : ∀ c ∈ blob, notRParen c = true) (hbne : blob ≠ []) :
    reSearchL P_uk ("UNIQUE".data ++ (' ' :: ("KEY".data ++ (' ' :: (nm ++ (' ' :: ('(' ::
        (blob ++ [')'])))))))) = some [(2, blob), (1, nm)] := by
  apply reSearchL_hit
  unfold P_uk
  simp only [reSeqs, litS]
  obtain ⟨n0, nm2, hn⟩ : ∃ n0 nm2, nm = n0 :: nm2 := by
    cases nm with
    | nil => exact absurd rfl hnmne
    | cons a b => exact ⟨a, b, rfl⟩
  subst hn
  rw [reM_seq_def]
  refine reM_lit_hit true ("UNIQUE".data) ("UNIQUE".data) _ _ _ _ (by decide) ?_
  rw [reM_seq_def]
  refine reM_plusG_hit isSpaceChar [' '] _ _ _ _ (by decide) (by decide) ?_ ?_
  · show isSpaceChar 'K' = false
    decide
  rw [reM_seq_def]
  refine reM_lit_hit true ("KEY".data) ("KEY".data) _ _ _ _ (by decide) ?_
  rw [reM_seq_def]
  refine reM_plusG_hit isSpaceChar [' '] _ _ _ _ (by decide) (by decide) ?_ ?_
  · show isSpaceChar n0 = false
    exact wordChar_not_space n0 (hnm n0 (by simp))
  rw [reM_seq_def]
  refine reM_opt_skip _ _ _ _ _ ?_ ?_
  · apply reM_lit_head_fail
    show charEqCI true '`' n0 = false
    exact charEqCI_backtick_false n0 (wordChar_ne n0 '`' (by decide) (hnm n0 (by simp)))
  rw [reM_seq_def, reM_group_def]
  refine reM_plusG_hit isWordChar (n0 :: nm2)
    (' ' :: ('(' :: (blob ++ [')']))) _ _ _ hnm (by simp) ?_ ?_
  · show isWordChar ' ' = false
    decide
  simp only [List.append_eq]
  rw [take_sub_of_eq_append (n0 :: (nm2 ++ (' ' :: ('(' :: (blob ++ [')'])))))
    (n0 :: nm2) (' ' :: ('(' :: (blob ++ [')']))) (by simp)]
  rw [reM_seq_def]
  refine reM_opt_skip _ _ _ _ _ ?_ ?_
  · apply reM_lit_head_fail
    show charEqCI true '`' ' ' = false
    decide
  rw [reM_seq_def]
  refine reM_starG_hit isSpaceChar [' '] _ _ _ _ (by decide) ?_ ?_
  · show isSpaceChar '(' = false
    decide
  rw [reM_seq_def]
  refine reM_lit_hit true ("(".data) ("(".data) _ _ _ _ (by decide) ?_
  rw [reM_seq_def, reM_group_def]
  obtain ⟨b0, b2, hb⟩ : ∃ b0 b2, blob = b0 :: b2 := by
    cases blob with
    | nil => exact absurd rfl hbne
    | cons a b => exact ⟨a, b, rfl⟩
  subst hb
  refine reM_plusG_hit notRParen (b0 :: b2) [')'] _ _ _ hblob (by simp) ?_ ?_
  · show notRParen ')' = false
    decide
  simp only [List.append_eq]
  rw [take_sub_append]
  refine reM_lit_hit true (")".data) (")".data) _ _ _ _ (by decide) ?_
  rfl

lemma parse_uk (uk : UniqueKey) (h : acceptedUK uk = true) :
    SQLParser._parse_unique_key (ukLineStr uk) = some uk := by
  simp only [acceptedUK, Bool.and_eq_true] at h
  obtain ⟨⟨hn, hne⟩, hall⟩ := h
  have hnames : ∀ n ∈ uk.fields, pyIsIdentifier n = true :=
    fun n hn2 => List.all_eq_true.mp hall n hn2
  obtain ⟨n0, ns, hfields⟩ : ∃ n0 ns, uk.fields = n0 :: ns := by
    cases hfe : uk.fields with
    | nil => rw [hfe] at hne; exact absurd hne (by decide)
    | cons a b => exact ⟨a, b, rfl⟩
  have hblob : ∀ c ∈ (joinSep ", " (uk.fields.map (fun n => "`" ++ n ++ "`"))).data,
      notRParen c = true := by
    intro c hc
    refine List.all_eq_true.mp (joinSep_all ", " notRParen (by decide) _ ?_) c hc
    intro x hx
    obtain ⟨n, hn2, hx2⟩ := List.mem_map.mp hx
    subst hx2
    simp only [String.data_append, List.all_append, Bool.and_eq_true]
    refine ⟨⟨by decide, ?_⟩, by decide⟩
    refine List.all_eq_true.mpr (fun ch hch => ?_)
    unfold notRParen
    exact bne_iff_ne.mpr (wordChar_ne ch ')' (by decide) (ident_chars n (hnames n hn2) ch hch))
  have hbne : (joinSep ", " (uk.fields.map (fun n => "`" ++ n ++ "`"))).data ≠ [] := by
    rw [hfields]
    simp only [List.map_cons]
    cases hns : ns.map (fun n => "`" ++ n ++ "`") with
    | nil => simp [joinSep, String.data_append]
    | cons y r => simp [joinSep, String.data_append]
  have hdata : (ukLineStr uk).data = "UNIQUE".data ++ (' ' :: ("KEY".data ++ (' ' ::
      (uk.name.data ++ (' ' :: ('(' ::
        ((joinSep ", " (uk.fields.map (fun n => "`" ++ n ++ "`"))).data ++ [')']))))))) := by
    unfold ukLineStr
    simp [String.data_append]
  unfold SQLParser._parse_unique_key reSearch
  rw [show ukLineStr uk = ⟨"UNIQUE".data ++ (' ' :: ("KEY".data ++ (' ' ::
      (uk.name.data ++ (' ' :: ('(' ::
        ((joinSep ", " (uk.fields.map (fun n => "`" ++ n ++ "`"))).data ++ [')'])))))))⟩
    from String.ext hdata]
  rw [uk_hit uk.name.data (ident_chars uk.name hn) (ident_data_ne_nil uk.name hn)
    _ hblob hbne]
  simp only [capStr, capsGet, show ((2 : Nat) == 1) = false from rfl,
    show ((2 : Nat) == 2) = true from rfl, show ((1 : Nat) == 1) = true from rfl,
    Bool.false_eq_true, eq_self_iff_true, if_true, if_false, Option.map_some',
    Option.getD_some]
  rw [show ((⟨(joinSep ", " (uk.fields.map (fun n => "`" ++ n ++ "`"))).data⟩ : String)) =
    joinSep ", " (uk.fields.map (fun n => "`" ++ n ++ "`")) from rfl]
  rw [hfields, splitFieldNames_inv n0 ns (hnames n0 (by rw [hfields]; simp))
    (fun m hm => hnames m (by rw [hfields]; simp [hm]))]
  rw [show uk = UniqueKey.mk uk.name uk.fields from rfl]
  rw [Option.some_inj, UniqueKey.mk.injEq]
  exact ⟨rfl, hfields.symm⟩

lemma idx_hit (nm : List Char) (hnm : ∀ c ∈ nm, isWordChar c = true) (hnmne : nm ≠ [])
    (blob : List Char) (hblob : ∀ c ∈ blob, notRParen c = true) (hbne : blob ≠ [])
    (cmt : Option (List Char))
    (hcmt : ∀ cv, cmt = some cv → ∀ c ∈ cv, safeTextChar c = true) :
    reSearchL P_idx ("KEY".data ++ (' ' :: ('`' :: (nm ++ ('`' :: (' ' :: ('(' ::
        (blob ++ (')' :: cmtSeg cmt))))))))) =
      some ((match cmt with
        | none => ([] : Caps)
        | some cv => [(5, ['\'']), (4, cv), (3, ['\''])]) ++ [(2, blob), (1, nm)]) := by
  apply reSearchL_hit
  unfold P_idx
  simp only [reSeqs, litS]
  rw [reM_seq_def]
  refine reM_alt_left _ _ _ _ _ _ ?_
  refine reM_lit_hit true ("KEY".data) ("KEY".data) _ _ _ _ (by decide) ?_
  rw [reM_seq_def]
  refine reM_plusG_hit isSpaceChar [' '] _ _ _ _ (by decide) (by decide) ?_ ?_
  · show isSpaceChar '`' = false
    decide
  rw [reM_seq_def]
  refine reM_opt_hit _ _ _ _ _ ?_
  refine reM_lit_hit true ("`".data) ("`".data) _ _ _ _ (by decide) ?_
  rw [reM_seq_def, reM_group_def]
  obtain ⟨n0, nm2, hn⟩ : ∃ n0 nm2, nm = n0 :: nm2 := by
    cases nm with
    | nil => exact absurd rfl hnmne
    | cons a b => exact ⟨a, b, rfl⟩
  subst hn
  refine reM_plusG_hit isWordChar (n0 :: nm2)
    ('`' :: (' ' :: ('(' :: (blob ++ (')' :: cmtSeg cmt))))) _ _ _ hnm (by simp) ?_ ?_
  · show isWordChar '`' = false
    decide
  simp only [List.append_eq]
  rw [take_sub_append]
  rw [reM_seq_def]
  refine reM_opt_hit _ _ _ _ _ ?_
  refine reM_lit_hit true ("`".data) ("`".data) _ _ _ _ (by decide) ?_
  rw [reM_seq_def]
  refine reM_starG_hit isSpaceChar [' '] _ _ _ _ (by decide) ?_ ?_
  · show isSpaceChar '(' = false
    decide
  rw [reM_seq_def]
  refine reM_lit_hit true ("(".data) ("(".data) _ _ _ _ (by decide) ?_
  rw [reM_seq_def, reM_group_def]
  obtain ⟨b0, b2, hb⟩ : ∃ b0 b2, blob = b0 :: b2 := by
    cases blob with
    | nil => exact absurd rfl hbne
    | cons a b => exact ⟨a, b, rfl⟩
  subst hb
  refine reM_plusG_hit notRParen (b0 :: b2) (')' :: cmtSeg cmt) _ _ _ hblob (by simp)
    ?_ ?_
  · show notRParen ')' = false
    decide
  simp only [List.append_eq]
  rw [take_sub_append]
  rw [reM_seq_def]
  refine reM_lit_hit true (")".data) (")".data) _ _ _ _ (by decide) ?_
  rw [reM_seq_def]
  cases cmt with
  | none =>
    refine reM_starG_hit isSpaceChar [] [] _ _ _ (by simp) trivial ?_
    refine reM_opt_skip _ _ _ _ _ ?_ ?_
    · rfl
    · rfl
  | some cv =>
    have hsafe := hcmt cv rfl
    refine reM_starG_hit isSpaceChar [' '] _ _ _ _ (by decide) ?_ ?_
    · show isSpaceChar 'C' = false
      decide
    refine reM_opt_hit _ _ _ _ _ ?_
    rw [reM_seq_def]
    refine reM_lit_hit true ("COMMENT".data) ("COMMENT".data) _ _ _ _ (by decide) ?_
    rw [reM_seq_def]
    refine reM_plusG_hit isSpaceChar [' '] _ _ _ _ (by decide) (by decide) ?_ ?_
    · show isSpaceChar '\'' = false
      decide
    rw [reM_seq_def, reM_group_def]
    refine reM_cls_hit quoteP '\'' _ _ _ _ (by decide) ?_
    rw [take_sub_of_eq_append ('\'' :: (cv ++ ['\''])) (['\'']) (cv ++ ['\''])
      (by simp)]
    rw [reM_seq_def, reM_group_def]
    refine reM_starL_hit anyNoNl cv ['\''] _ _ _ ?_ ?_ ?_
    · intro c hc
      show (c != '\n') = true
      exact bne_iff_ne.mpr (safe_char_facts c (hsafe c hc)).2.2.2.1
    · intro i hi
      cases hdrop : cv.drop i with
      | nil =>
        exfalso
        have hlen := congrArg List.length hdrop
        simp at hlen
        omega
      | cons c r =>
        have hcm : c ∈ cv := (List.drop_suffix i cv).subset (hdrop ▸ by simp)
        rw [reM_group_def]
        refine reM_backref_fail true 3 '\'' [] _ _ _ rfl ?_
        show charEqCI true '\'' c = false
        exact charEqCI_squote_false c (safe_char_facts c (hsafe c hcm)).1
    rw [take_sub_of_eq_append (cv ++ ['\'']) cv ['\''] rfl]
    rw [reM_group_def]
    refine reM_backref_hit true 3 ['\''] ['\''] [] _ _ _ rfl (by decide) ?_
    rfl

lemma parse_idx (idx : IndexSpec) (h : acceptedIdx idx = true) :
    SQLParser._parse_index (idxLineStr idx) = some idx := by
  obtain ⟨hn, hne, hnames, hty, hsafe⟩ := acceptedIdx_parts idx h
  obtain ⟨n0, ns, hfields⟩ : ∃ n0 ns, idx.fields = n0 :: ns := by
    cases hfe : idx.fields with
    | nil => rw [hfe] at hne; exact absurd hne (by decide)
    | cons a b => exact ⟨a, b, rfl⟩
  have hblob : ∀ c ∈ (joinSep ", " (idx.fields.map (fun n => "`" ++ n ++ "`"))).data,
      notRParen c = true := by
    intro c hc
    refine List.all_eq_true.mp (joinSep_all ", " notRParen (by decide) _ ?_) c hc
    intro x hx
    obtain ⟨n, hn2, hx2⟩ := List.mem_map.mp hx
    subst hx2
    simp only [String.data_append, List.all_append, Bool.and_eq_true]
    refine ⟨⟨by decide, ?_⟩, by decide⟩
    refine List.all_eq_true.mpr (fun ch hch => ?_)
    unfold notRParen
    exact bne_iff_ne.mpr (wordChar_ne ch ')' (by decide) (ident_chars n (hnames n hn2) ch hch))
  have hbne : (joinSep ", " (idx.fields.map (fun n => "`" ++ n ++ "`"))).data ≠ [] := by
    rw [hfields]
    simp only [List.map_cons]
    cases hns : ns.map (fun n => "`" ++ n ++ "`") with
    | nil => simp [joinSep, String.data_append]
    | cons y r => simp [joinSep, String.data_append]
  have hrep : pyReplace idx.comment "'" "\\'" = idx.comment :=
    pyReplace_id idx.comment '\'' [] "'" "\\'" rfl (safe_no_squote idx.comment hsafe)
  by_cases hce : idx.comment = ""
  · have hdata : (idxLineStr idx).data = "KEY".data ++ (' ' :: ('`' :: (idx.name.data ++
        ('`' :: (' ' :: ('(' ::
          ((joinSep ", " (idx.fields.map (fun n => "`" ++ n ++ "`"))).data ++
            (')' :: cmtSeg none)))))))) := by
      unfold idxLineStr
      simp [String.data_append, cmtSeg, hce]
    unfold SQLParser._parse_index reSearch
    rw [show idxLineStr idx = ⟨"KEY".data ++ (' ' :: ('`' :: (idx.name.data ++
        ('`' :: (' ' :: ('(' ::
          ((joinSep ", " (idx.fields.map (fun n => "`" ++ n ++ "`"))).data ++
            (')' :: cmtSeg none))))))))⟩ from String.ext hdata]
    rw [idx_hit idx.name.data (ident_chars idx.name hn) (ident_data_ne_nil idx.name hn)
      _ hblob hbne none (by intro v hv; exact absurd hv (by simp))]
    simp only [List.nil_append, capStr, capsGet, show ((2 : Nat) == 1) = false from rfl,
      show ((2 : Nat) == 2) = true from rfl, show ((1 : Nat) == 1) = true from rfl,
      show ((2 : Nat) == 4) = false from rfl, show ((1 : Nat) == 4) = false from rfl,
      Bool.false_eq_true, eq_self_iff_true, if_true, if_false, Option.map_some',
      Option.map_none', Option.getD_some, Option.getD_none]
    rw [show ((⟨(joinSep ", " (idx.fields.map (fun n => "`" ++ n ++ "`"))).data⟩ : String)) =
      joinSep ", " (idx.fields.map (fun n => "`" ++ n ++ "`")) from rfl]
    rw [hfields, splitFieldNames_inv n0 ns (hnames n0 (by rw [hfields]; simp))
      (fun m hm => hnames m (by rw [hfields]; simp [hm]))]
    rw [show idx = IndexSpec.mk idx.name idx.fields idx.type idx.comment from rfl]
    rw [Option.some_inj, IndexSpec.mk.injEq]
    refine ⟨rfl, hfields.symm, hty.symm, ?_⟩
    rw [show pyReplace (pyReplace "" "\\'" "'") "\\\"" "\"" = "" from rfl]
    exact hce.symm
  · have hdata : (idxLineStr idx).data = "KEY".data ++ (' ' :: ('`' :: (idx.name.data ++
        ('`' :: (' ' :: ('(' ::
          ((joinSep ", " (idx.fields.map (fun n => "`" ++ n ++ "`"))).data ++
            (')' :: cmtSeg (some idx.comment.data))))))))) := by
      unfold idxLineStr
      rw [hrep]
      simp [String.data_append, cmtSeg, hce]
    unfold SQLParser._parse_index reSearch
    rw [show idxLineStr idx = ⟨"KEY".data ++ (' ' :: ('`' :: (idx.name.data ++
        ('`' :: (' ' :: ('(' ::
          ((joinSep ", " (idx.fields.map (fun n => "`" ++ n ++ "`"))).data ++
            (')' :: cmtSeg (some idx.comment.data)))))))))⟩ from String.ext hdata]
    rw [idx_hit idx.name.data (ident_chars idx.name hn) (ident_data_ne_nil idx.name hn)
      _ hblob hbne (some idx.comment.data)
      (by
        intro v hv
        rw [Option.some_inj] at hv
        subst hv
        exact fun c hc => List.all_eq_true.mp hsafe c hc)]
    simp only [List.cons_append, List.nil_append, capStr, capsGet,
      show ((5 : Nat) == 1) = false from rfl, show ((4 : Nat) == 1) = false from rfl,
      show ((3 : Nat) == 1) = false from rfl, show ((2 : Nat) == 1) = false from rfl,
      show ((1 : Nat) == 1) = true from rfl, show ((5 : Nat) == 2) = false from rfl,
      show ((4 : Nat) == 2) = false from rfl, show ((3 : Nat) == 2) = false from rfl,
      show ((2 : Nat) == 2) = true from rfl, show ((5 : Nat) == 4) = false from rfl,
      show ((4 : Nat) == 4) = true from rfl,
      Bool.false_eq_true, eq_self_iff_true, if_true, if_false, Option.map_some',
      Option.map_none', Option.getD_some, Option.getD_none]
    rw [show ((⟨(joinSep ", " (idx.fields.map (fun n => "`" ++ n ++ "`"))).data⟩ : String)) =
      joinSep ", " (idx.fields.map (fun n => "`" ++ n ++ "`")) from rfl]
    rw [hfields, splitFieldNames_inv n0 ns (hnames n0 (by rw [hfields]; simp))
      (fun m hm => hnames m (by rw [hfields]; simp [hm]))]
    have hcu : pyReplace (pyReplace (⟨idx.comment.data⟩ : String) "\\'" "'") "\\\"" "\"" =
        idx.comment := by
      rw [pyReplace_id ⟨idx.comment.data⟩ '\\' ("'".data) "\\'" "'" rfl
        (fun c hc => safeC_no_backslash c (List.all_eq_true.mp hsafe c hc))]
      rw [pyReplace_id ⟨idx.comment.data⟩ '\\' ("\"".data) "\\\"" "\"" rfl
        (fun c hc => safeC_no_backslash c (List.all_eq_true.mp hsafe c hc))]
    rw [hcu]
    rw [show idx = IndexSpec.mk idx.name idx.fields idx.type idx.comment from rfl]
    rw [Option.some_inj, IndexSpec.mk.injEq]
    exact ⟨rfl, hfields.symm, hty.symm, rfl⟩

/-! ## Head and tail characters of rendered clause lines -/

/-- The first character of a rendered line. -/
def headIs (c : Char) (s : String) : Prop := ∃ r, s.data = c :: r

/-- The last character is neither whitespace nor a comma (trivially true
for the empty list). -/
def lineEndOk (l : List Char) : Prop :=
  match l.reverse with
  | [] => True
  | c :: _ => isSpaceChar c = false ∧ (c == ',') = false

lemma headIs_strcat (A B : String) (c : Char) (h : headIs c A) : headIs c (A ++ B) := by
  obtain ⟨r, hr⟩ := h
  refine ⟨r ++ B.data, ?_⟩
  simp [String.data_append, hr]

lemma lineEndOk_of_all (xs : List Char)
    (h : ∀ c ∈ xs, isSpaceChar c = false ∧ (c == ',') = false) : lineEndOk xs := by
  unfold lineEndOk
  cases hr : xs.reverse with
  | nil => trivial
  | cons c r =>
    have hm : c ∈ xs := by
      have : c ∈ xs.reverse := by rw [hr]; simp
      exact (List.mem_reverse).mp this
    exact h c hm

lemma lineEndOk_strcat (A B : String) (hBne : B.data ≠ []) (hB : lineEndOk B.data) :
    lineEndOk (A ++ B).data := by
  unfold lineEndOk at hB ⊢
  cases hr : B.data.reverse with
  | nil =>
    exfalso
    apply hBne
    have := congrArg List.reverse hr
    simpa using this
  | cons c r =>
    rw [hr] at hB
    rw [show (A ++ B).data.reverse = c :: (r ++ A.data.reverse) from by
      simp [String.data_append]
      rw [show B.data.reverse = c :: r from hr]
      simp]
    exact hB

lemma lineEndOk_drop_empty (A B : String) (hB : B = "") (h : lineEndOk A.data) :
    lineEndOk (A ++ B).data := by
  subst hB
  rw [show (A ++ "").data = A.data from by simp]
  exact h

lemma data_append_ne (A B : String) (hA : A.data ≠ []) : (A ++ B).data ≠ [] := by
  rw [String.data_append]
  intro he
  rcases List.append_eq_nil.mp he with ⟨h1, _⟩
  exact hA h1

lemma lineEndOk_ident (n : String) (hn : pyIsIdentifier n = true) :
    lineEndOk n.data :=
  lineEndOk_of_all n.data (fun c hc =>
    ⟨wordChar_not_space c (ident_chars n hn c hc),
     beq_eq_false_iff_ne.mpr (wordChar_ne c ',' (by decide) (ident_chars n hn c hc))⟩)

lemma typeKw_end (f : Field) : lineEndOk (typeKw f).data ∧ (typeKw f).data ≠ [] := by
  unfold typeKw
  split
  · exact ⟨lineEndOk_strcat _ ")" (by decide) ⟨by decide, by decide⟩,
      data_append_ne _ ")" (data_append_ne "int(" _ (by decide))⟩
  · split
    · exact ⟨lineEndOk_strcat _ ")" (by decide) ⟨by decide, by decide⟩,
        data_append_ne _ ")" (data_append_ne "bigint(" _ (by decide))⟩
    · split
      · exact ⟨lineEndOk_strcat _ ")" (by decide) ⟨by decide, by decide⟩,
          data_append_ne _ ")" (data_append_ne "smallint(" _ (by decide))⟩
      · split
        · exact ⟨lineEndOk_strcat _ ")" (by decide) ⟨by decide, by decide⟩,
            data_append_ne _ ")" (data_append_ne "tinyint(" _ (by decide))⟩
        · split
          · exact ⟨lineEndOk_strcat _ ")" (by decide) ⟨by decide, by decide⟩,
              data_append_ne _ ")" (data_append_ne "varchar(" _ (by decide))⟩
          · split
            · exact ⟨lineEndOk_of_all _ (by decide), by decide⟩
            · split
              · exact ⟨lineEndOk_of_all _ (by decide), by decide⟩
              · split
                · exact ⟨lineEndOk_strcat _ ")" (by decide) ⟨by decide, by decide⟩,
                    data_append_ne _ ")" (data_append_ne _ _
                      (data_append_ne _ _ (data_append_ne "decimal(" _ (by decide))))⟩
                · split
                  · exact ⟨lineEndOk_of_all _ (by decide), by decide⟩
                  · split
                    · exact ⟨lineEndOk_of_all _ (by decide), by decide⟩
                    · exact ⟨lineEndOk_of_all _ (by decide), by decide⟩

lemma fieldLine_head (f : Field) : headIs '`' (fieldLineStr f) := by
  unfold fieldLineStr
  apply headIs_strcat
  apply headIs_strcat
  apply headIs_strcat
  apply headIs_strcat
  apply headIs_strcat
  apply headIs_strcat
  apply headIs_strcat
  apply headIs_strcat
  apply headIs_strcat
  exact ⟨[], rfl⟩

lemma fieldLine_end (f : Field) (hf : acceptedField f = true) :
    lineEndOk (fieldLineStr f).data := by
  obtain ⟨c, hc, hcsafe⟩ := acceptedField_comment f hf
  unfold fieldLineStr
  rw [hc]
  simp only [Option.getD_some]
  by_cases hce : c = ""
  · apply lineEndOk_drop_empty _ _ (by simp [commentClause, hce])
    rcases acceptedField_default f hf with hdf | ⟨s, hdf, hssafe⟩
    · rw [hdf]
      apply lineEndOk_drop_empty _ _ (by simp [_default_clause])
      cases hai2 : f.auto_increment.getD false with
      | true =>
        simp only [hai2, if_true]
        apply lineEndOk_strcat _ " AUTO_INCREMENT" (by decide)
        exact ⟨by decide, by decide⟩
      | false =>
        simp only [hai2, Bool.false_eq_true, if_false]
        apply lineEndOk_drop_empty _ _ (by simp)
        cases hnn2 : (f.not_null.getD false || f.required.getD false) with
        | true =>
          simp only [hnn2, if_true]
          apply lineEndOk_strcat _ " NOT NULL" (by decide)
          exact ⟨by decide, by decide⟩
        | false =>
          simp only [hnn2, Bool.false_eq_true, if_false]
          apply lineEndOk_drop_empty _ _ (by simp)
          cases hu2 : f.unsigned.getD false with
          | true =>
            simp only [hu2, if_true]
            apply lineEndOk_strcat _ " unsigned" (by decide)
            exact ⟨by decide, by decide⟩
          | false =>
            simp only [hu2, Bool.false_eq_true, if_false]
            apply lineEndOk_drop_empty _ _ (by simp)
            exact lineEndOk_strcat _ (typeKw f) (typeKw_end f).2 (typeKw_end f).1
    · rw [hdf]
      unfold _default_clause
      dsimp only
      by_cases hdig : pyIsdigit s = true
      · rw [if_pos hdig]
        unfold pyIsdigit at hdig
        simp only [Bool.and_eq_true, Bool.not_eq_true'] at hdig
        apply lineEndOk_strcat _ (" DEFAULT " ++ s)
        · apply data_append_ne " DEFAULT " s (by decide)
        · apply lineEndOk_strcat _ s
          · intro he
            rw [he] at hdig
            exact absurd hdig.1 (by decide)
          · refine lineEndOk_of_all _ (fun ch hch => ?_)
            have hd := List.all_eq_true.mp hdig.2 ch hch
            exact ⟨digit_not_space ch hd, digit_not_comma ch hd⟩
      · rw [if_neg hdig]
        apply lineEndOk_strcat _ (" DEFAULT '" ++ s ++ "'")
        · exact data_append_ne _ "'" (data_append_ne " DEFAULT '" _ (by decide))
        · apply lineEndOk_strcat _ "'" (by decide) ⟨by decide, by decide⟩
  · apply lineEndOk_strcat _ (commentClause c)
    · unfold commentClause
      have hcb : (c != "") = true := bne_iff_ne.mpr hce
      rw [if_pos hcb]
      exact data_append_ne _ "'" (data_append_ne " COMMENT '" _ (by decide))
    · unfold commentClause
      have hcb : (c != "") = true := bne_iff_ne.mpr hce
      rw [if_pos hcb]
      apply lineEndOk_strcat _ "'" (by decide) ⟨by decide, by decide⟩

lemma pkLine_head (pk : PrimaryKey) : headIs 'P' (pkLineStr pk) := by
  unfold pkLineStr
  apply headIs_strcat
  apply headIs_strcat
  apply headIs_strcat
  exact ⟨_, rfl⟩

lemma pkLine_end (pk : PrimaryKey) (h : acceptedPK (some pk) = true) :
    lineEndOk (pkLineStr pk).data := by
  obtain ⟨_, _, _, hit⟩ := acceptedPK_some pk h
  unfold pkLineStr
  rcases hit with h0 | ⟨hitne, hitw, hitup⟩
  · apply lineEndOk_drop_empty _ _ (by simp [h0])
    apply lineEndOk_strcat _ ")" (by decide) ⟨by decide, by decide⟩
  · have hib : (pk.index_type != "") = true := by
      refine bne_iff_ne.mpr ?_
      intro he
      rw [he] at hitne
      exact hitne rfl
    rw [if_pos hib]
    apply lineEndOk_strcat _ (" USING " ++ pyUpper pk.index_type)
    · exact data_append_ne " USING " _ (by decide)
    · apply lineEndOk_strcat _ (pyUpper pk.index_type)
      · rw [hitup]
        exact hitne
      · rw [hitup]
        refine lineEndOk_of_all _ (fun ch hch => ?_)
        exact ⟨wordChar_not_space ch (hitw ch hch),
          beq_eq_false_iff_ne.mpr (wordChar_ne ch ',' (by decide) (hitw ch hch))⟩

lemma ukLine_head (uk : UniqueKey) : headIs 'U' (ukLineStr uk) := by
  unfold ukLineStr
  apply headIs_strcat
  apply headIs_strcat
  apply headIs_strcat
  apply headIs_strcat
  exact ⟨_, rfl⟩

lemma ukLine_end (uk : UniqueKey) : lineEndOk (ukLineStr uk).data := by
  unfold ukLineStr
  apply lineEndOk_strcat _ ")" (by decide) ⟨by decide, by decide⟩

lemma idxLine_head (idx : IndexSpec) : headIs 'K' (idxLineStr idx) := by
  unfold idxLineStr
  apply headIs_strcat
  apply headIs_strcat
  apply headIs_strcat
  apply headIs_strcat
  exact ⟨_, rfl⟩

lemma idxLine_end (idx : IndexSpec) (h : acceptedIdx idx = true) :
    lineEndOk (idxLineStr idx).data := by
  unfold idxLineStr
  by_cases hce : idx.comment = ""
  · apply lineEndOk_drop_empty _ _ (by simp [hce])
    apply lineEndOk_strcat _ ")" (by decide) ⟨by decide, by decide⟩
  · have hcb : (idx.comment != "") = true := bne_iff_ne.mpr hce
    rw [if_pos hcb]
    apply lineEndOk_strcat _ (" COMMENT '" ++ pyReplace idx.comment "'" "\\'" ++ "'")
    · exact data_append_ne _ "'" (data_append_ne " COMMENT '" _ (by decide))
    · apply lineEndOk_strcat _ "'" (by decide) ⟨by decide, by decide⟩

/-! ## Line normalisation and classification -/

lemma strip_id_of_ends (s : String) (c0 : Char) (hh : headIs c0 s)
    (hc0 : isSpaceChar c0 = false) (he : lineEndOk s.data) : pyStrip s = s := by
  obtain ⟨r, hr⟩ := hh
  unfold pyStrip
  show (⟨pyStripL s.data⟩ : String) = ⟨s.data⟩
  apply congrArg String.mk
  unfold pyStripL
  rw [lstripP_all_false isSpaceChar s.data (by rw [hr]; exact hc0)]
  apply rstripP_all_false
  unfold lineEndOk at he
  cases hrev : s.data.reverse with
  | nil => trivial
  | cons c rest =>
    rw [hrev] at he
    exact he.1

lemma rstripComma_id (s : String) (he : lineEndOk s.data) :
    pyRstripChar ',' s = s := by
  unfold pyRstripChar
  show (⟨_⟩ : String) = ⟨s.data⟩
  apply congrArg String.mk
  apply rstripP_all_false
  unfold lineEndOk at he
  cases hrev : s.data.reverse with
  | nil => trivial
  | cons c rest =>
    rw [hrev] at he
    exact he.2

lemma rstripComma_append (s : String) (he : lineEndOk s.data) :
    pyRstripChar ',' (s ++ ",") = s := by
  unfold pyRstripChar
  show (⟨_⟩ : String) = ⟨s.data⟩
  apply congrArg String.mk
  unfold rstripP
  rw [show (s ++ ",").data.reverse = ',' :: s.data.reverse from by
    simp [String.data_append]]
  rw [show lstripP (fun x => x == ',') (',' :: s.data.reverse) =
    lstripP (fun x => x == ',') s.data.reverse from by simp [lstripP]]
  rw [lstripP_all_false _ _ (by
    unfold lineEndOk at he
    cases hrev : s.data.reverse with
    | nil => trivial
    | cons c rest =>
      rw [hrev] at he
      exact he.2)]
  exact List.reverse_reverse _

lemma strip_indent_of (clause : String) (c0 : Char) (hh : headIs c0 clause)
    (hc0 : isSpaceChar c0 = false) (he : lineEndOk clause.data) :
    pyStrip ("    " ++ clause) = clause := by
  obtain ⟨r, hr⟩ := hh
  unfold pyStrip
  show (⟨pyStripL ("    " ++ clause).data⟩ : String) = ⟨clause.data⟩
  apply congrArg String.mk
  rw [show ("    " ++ clause).data = ("    " : String).data ++ clause.data from by
    simp [String.data_append]]
  apply pyStripL_indent
  · rw [hr]
    exact hc0
  · unfold lineEndOk at he
    cases hrev : clause.data.reverse with
    | nil => trivial
    | cons c rest =>
      rw [hrev] at he
      exact he.1

lemma strip_indent_comma_of (clause : String) (c0 : Char) (hh : headIs c0 clause)
    (hc0 : isSpaceChar c0 = false) :
    pyStrip ("    " ++ clause ++ ",") = clause ++ "," := by
  obtain ⟨r, hr⟩ := hh
  unfold pyStrip
  show (⟨pyStripL ("    " ++ clause ++ ",").data⟩ : String) = ⟨(clause ++ ",").data⟩
  apply congrArg String.mk
  rw [show ("    " ++ clause ++ ",").data =
    ("    " : String).data ++ (clause ++ ",").data from by
    simp [String.data_append]]
  apply pyStripL_indent
  · rw [show (clause ++ ",").data = c0 :: (r ++ [',']) from by
      simp [String.data_append, hr]]
    exact hc0
  · rw [show (clause ++ ",").data.reverse = ',' :: clause.data.reverse from by
      simp [String.data_append]]
    show isSpaceChar ',' = false
    decide

lemma ne_empty_beq (s : String) (c0 : Char) (hh : headIs c0 s) : (s == "") = false := by
  obtain ⟨r, hr⟩ := hh
  refine beq_eq_false_iff_ne.mpr ?_
  intro he
  rw [he] at hr
  exact List.noConfusion hr

lemma reM_alt_none (a b : RE) (cs : List Char) (caps : Caps)
    (k : List Char → Caps → Option Caps)
    (ha : reM a cs caps k = none) (hb : reM b cs caps k = none) :
    reM (.alt a b) cs caps k = none := by
  simp [reM, ha, hb]

lemma pkHead_fail (s : String) (c0 : Char) (hh : headIs c0 s)
    (hc : charEqCI true 'P' c0 = false) : reMatch P_pkHead s = none := by
  obtain ⟨r, hr⟩ := hh
  unfold reMatch reMatchL P_pkHead
  simp only [reSeqs, litS]
  rw [hr, reM_seq_def]
  exact reM_lit_head_fail true 'P' _ _ _ _ hc

lemma ukHead_fail (s : String) (c0 : Char) (hh : headIs c0 s)
    (hc : charEqCI true 'U' c0 = false) : reMatch P_ukHead s = none := by
  obtain ⟨r, hr⟩ := hh
  unfold reMatch reMatchL P_ukHead
  simp only [reSeqs, litS]
  rw [hr, reM_seq_def]
  exact reM_lit_head_fail true 'U' _ _ _ _ hc

lemma idxHead_fail (s : String) (c0 : Char) (hh : headIs c0 s)
    (hI : charEqCI true 'I' c0 = false) (hK : charEqCI true 'K' c0 = false) :
    reMatch P_idxHead s = none := by
  obtain ⟨r, hr⟩ := hh
  unfold reMatch reMatchL P_idxHead
  rw [hr, reM_group_def]
  apply reM_alt_none
  · exact reM_lit_head_fail true 'I' _ _ _ _ hI
  · exact reM_lit_head_fail true 'K' _ _ _ _ hK

lemma pkHead_hit_pk (pk : PrimaryKey) :
    reMatch P_pkHead (pkLineStr pk) = some [] := by
  have hdata : (pkLineStr pk).data = "PRIMARY".data ++ (' ' :: ("KEY".data ++
      (" (" ++ joinSep ", " (pk.fields.map (fun n => "`" ++ n ++ "`")) ++ ")" ++
        (if pk.index_type != "" then " USING " ++ pyUpper pk.index_type else "")).data)) := by
    unfold pkLineStr
    simp [String.data_append]
  unfold reMatch reMatchL P_pkHead
  simp only [reSeqs, litS]
  rw [hdata, reM_seq_def]
  refine reM_lit_hit true ("PRIMARY".data) ("PRIMARY".data) _ _ _ _ (by decide) ?_
  rw [reM_seq_def]
  refine reM_plusG_hit isSpaceChar [' '] _ _ _ _ (by decide) (by decide) ?_ ?_
  · show isSpaceChar 'K' = false
    decide
  refine reM_lit_hit true ("KEY".data) ("KEY".data) _ _ _ _ (by decide) ?_
  rfl

lemma ukHead_hit_uk (uk : UniqueKey) :
    reMatch P_ukHead (ukLineStr uk) = some [] := by
  have hdata : (ukLineStr uk).data = "UNIQUE".data ++ (' ' :: ("KEY".data ++
      (" " ++ uk.name ++ " (" ++
        joinSep ", " (uk.fields.map (fun n => "`" ++ n ++ "`")) ++ ")").data)) := by
    unfold ukLineStr
    simp [String.data_append]
  unfold reMatch reMatchL P_ukHead
  simp only [reSeqs, litS]
  rw [hdata, reM_seq_def]
  refine reM_lit_hit true ("UNIQUE".data) ("UNIQUE".data) _ _ _ _ (by decide) ?_
  rw [reM_seq_def]
  refine reM_plusG_hit isSpaceChar [' '] _ _ _ _ (by decide) (by decide) ?_ ?_
  · show isSpaceChar 'K' = false
    decide
  refine reM_lit_hit true ("KEY".data) ("KEY".data) _ _ _ _ (by decide) ?_
  rfl

lemma idxHead_hit_idx (idx : IndexSpec) :
    reMatch P_idxHead (idxLineStr idx) = some [(1, ['K', 'E', 'Y'])] := by
  have hdata : (idxLineStr idx).data = 'K' :: ('E' :: ('Y' :: (" `" ++ idx.name ++ "` (" ++
      joinSep ", " (idx.fields.map (fun n => "`" ++ n ++ "`")) ++ ")" ++
      (if idx.comment != "" then
        " COMMENT '" ++ pyReplace idx.comment "'" "\\'" ++ "'" else "")).data)) := by
    unfold idxLineStr
    simp [String.data_append]
  unfold reMatch reMatchL P_idxHead
  rw [hdata, reM_group_def]
  refine reM_alt_right _ _ _ _ _ _ ?_ ?_
  · apply reM_lit_head_fail
    show charEqCI true 'I' 'K' = false
    decide
  · refine reM_lit_hit true ("KEY".data) ("KEY".data) _ _ _ _ (by decide) ?_
    rw [take_sub_of_eq_append ('K' :: ('E' :: ('Y' :: (" `" ++ idx.name ++ "` (" ++
      joinSep ", " (idx.fields.map (fun n => "`" ++ n ++ "`")) ++ ")" ++
      (if idx.comment != "" then
        " COMMENT '" ++ pyReplace idx.comment "'" "\\'" ++ "'" else "")).data)))
      (['K', 'E', 'Y']) _ (by simp)]

/-! ## One loop iteration per clause kind -/

lemma procLine_field (st : SQLParser.ParseState) (f : Field) (hf : acceptedField f = true) :
    SQLParser.procLine st (fieldLineStr f) = { st with fields := st.fields ++ [f] } := by
  simp only [SQLParser.procLine]
  rw [strip_id_of_ends _ '`' (fieldLine_head f) (by decide) (fieldLine_end f hf),
      ne_empty_beq _ '`' (fieldLine_head f),
      pkHead_fail _ '`' (fieldLine_head f) (by decide),
      ukHead_fail _ '`' (fieldLine_head f) (by decide),
      idxHead_fail _ '`' (fieldLine_head f) (by decide) (by decide),
      field_roundtrip f hf]
  rfl

lemma procLine_pk (st : SQLParser.ParseState) (pk : PrimaryKey)
    (h : acceptedPK (some pk) = true) :
    SQLParser.procLine st (pkLineStr pk) = { st with pk_info := some pk } := by
  simp only [SQLParser.procLine]
  rw [strip_id_of_ends _ 'P' (pkLine_head pk) (by decide) (pkLine_end pk h),
      ne_empty_beq _ 'P' (pkLine_head pk),
      pkHead_hit_pk pk, parse_pk pk h]
  rfl

lemma procLine_uk (st : SQLParser.ParseState) (uk : UniqueKey) (h : acceptedUK uk = true) :
    SQLParser.procLine st (ukLineStr uk) =
      { st with unique_keys := st.unique_keys ++ [uk] } := by
  simp only [SQLParser.procLine]
  rw [strip_id_of_ends _ 'U' (ukLine_head uk) (by decide) (ukLine_end uk),
      ne_empty_beq _ 'U' (ukLine_head uk),
      pkHead_fail _ 'U' (ukLine_head uk) (by decide),
      ukHead_hit_uk uk, parse_uk uk h]
  rfl

lemma procLine_idx (st : SQLParser.ParseState) (idx : IndexSpec) (h : acceptedIdx idx = true) :
    SQLParser.procLine st (idxLineStr idx) = { st with indexes := st.indexes ++ [idx] } := by
  simp only [SQLParser.procLine]
  rw [strip_id_of_ends _ 'K' (idxLine_head idx) (by decide) (idxLine_end idx h),
      ne_empty_beq _ 'K' (idxLine_head idx),
      pkHead_fail _ 'K' (idxLine_head idx) (by decide),
      ukHead_fail _ 'K' (idxLine_head idx) (by decide),
      idxHead_hit_idx idx, parse_idx idx h]
  rfl

/-! ## Folding the clause lines -/

lemma foldl_fields :
    ∀ (l : List Field), (∀ f ∈ l, acceptedField f = true) → ∀ st : SQLParser.ParseState,
    (l.map fieldLineStr).foldl SQLParser.procLine st =
      { st with fields := st.fields ++ l } := by
  intro l
  induction l with
  | nil =>
    intro _ st
    simp only [List.map_nil, List.foldl_nil, List.append_nil]
  | cons f l2 ih =>
    intro hall st
    simp only [List.map_cons, List.foldl_cons]
    rw [procLine_field st f (hall f (by simp))]
    rw [ih (fun g hg => hall g (by simp [hg])) _]
    simp [List.append_assoc]

lemma foldl_uks :
    ∀ (l : List UniqueKey), (∀ u ∈ l, acceptedUK u = true) → ∀ st : SQLParser.ParseState,
    (l.map ukLineStr).foldl SQLParser.procLine st =
      { st with unique_keys := st.unique_keys ++ l } := by
  intro l
  induction l with
  | nil =>
    intro _ st
    simp only [List.map_nil, List.foldl_nil, List.append_nil]
  | cons u l2 ih =>
    intro hall st
    simp only [List.map_cons, List.foldl_cons]
    rw [procLine_uk st u (hall u (by simp))]
    rw [ih (fun g hg => hall g (by simp [hg])) _]
    simp [List.append_assoc]

lemma foldl_idxs :
    ∀ (l : List IndexSpec), (∀ i ∈ l, acceptedIdx i = true) → ∀ st : SQLParser.ParseState,
    (l.map idxLineStr).foldl SQLParser.procLine st =
      { st with indexes := st.indexes ++ l } := by
  intro l
  induction l with
  | nil =>
    intro _ st
    simp only [List.map_nil, List.foldl_nil, List.append_nil]
  | cons i l2 ih =>
    intro hall st
    simp only [List.map_cons, List.foldl_cons]
    rw [procLine_idx st i (hall i (by simp))]
    rw [ih (fun g hg => hall g (by simp [hg])) _]
    simp [List.append_assoc]

lemma foldl_clauses (tc : TableConfig) (h : Accepted tc) :
    (clauseList tc).foldl SQLParser.procLine {} =
      ⟨all_field_list tc, tc.unique_keys, tc.indexes, tc.primary_key⟩ := by
  obtain ⟨hname, hcmt, hflds, hnd, hapk, huks, hidxs, _, _, _, _, _⟩ := h
  have huks2 : ∀ u ∈ tc.unique_keys, acceptedUK u = true := huks
  have hidxs2 : ∀ i ∈ tc.indexes, acceptedIdx i = true := hidxs
  unfold clauseList
  rw [List.foldl_append, List.foldl_append, List.foldl_append]
  rw [foldl_fields _ hflds {}]
  cases hpkc : tc.primary_key with
  | none =>
    simp only [List.foldl_nil]
    rw [foldl_uks _ huks2 _, foldl_idxs _ hidxs2 _]
    rfl
  | some pk =>
    rw [hpkc] at hapk
    have hne : pk.fields.isEmpty = false := by
      simp only [acceptedPK, Bool.and_eq_true, Bool.not_eq_true'] at hapk
      exact hapk.1.1.2
    simp only [hne, Bool.false_eq_true, if_false, List.foldl_cons, List.foldl_nil]
    rw [procLine_pk _ pk hapk]
    rw [foldl_uks _ huks2 _, foldl_idxs _ hidxs2 _]
    rfl

/-! ## Normalising the split body lines -/

lemma clause_head_end (tc : TableConfig) (h : Accepted tc) :
    ∀ c ∈ clauseList tc,
      ∃ c0, headIs c0 c ∧ isSpaceChar c0 = false ∧ lineEndOk c.data := by
  obtain ⟨hname, hcmt, hfields, hnodup, hpk, huks, hidxs, _, _, _, _, _⟩ := h
  intro c hc
  unfold clauseList at hc
  rcases List.mem_append.mp hc with hl1 | hl4
  rcases List.mem_append.mp hl1 with hl2 | hl3
  rcases List.mem_append.mp hl2 with hlf | hlpk
  · obtain ⟨f, hf, he⟩ := List.mem_map.mp hlf
    exact ⟨'`', he ▸ fieldLine_head f, by decide, he ▸ fieldLine_end f (hfields f hf)⟩
  · cases hp : tc.primary_key with
    | none => rw [hp] at hlpk; simp at hlpk
    | some pk =>
      rw [hp] at hlpk
      dsimp only at hlpk
      have hne := (acceptedPK_some pk (hp ▸ hpk)).2.1
      rw [hne] at hlpk
      simp only [Bool.false_eq_true, if_false, List.mem_singleton] at hlpk
      exact ⟨'P', hlpk ▸ pkLine_head pk, by decide, hlpk ▸ pkLine_end pk (hp ▸ hpk)⟩
  · obtain ⟨uk, huk, he⟩ := List.mem_map.mp hl3
    exact ⟨'U', he ▸ ukLine_head uk, by decide, he ▸ ukLine_end uk⟩
  · obtain ⟨idx, hidx, he⟩ := List.mem_map.mp hl4
    exact ⟨'K', he ▸ idxLine_head idx, by decide, he ▸ idxLine_end idx (hidxs idx hidx)⟩

lemma no_nl_indent_comma (c : String) (h : ∀ ch ∈ c.data, (ch == '\n') = false) :
    ∀ ch ∈ ("    " ++ c ++ ",").data, (ch == '\n') = false := by
  intro ch hch
  rw [show ("    " ++ c ++ ",").data = "    ".data ++ (c.data ++ ",".data) from by
    simp [String.data_append]] at hch
  rcases List.mem_append.mp hch with hs | hcm
  · rcases hs with _ | ⟨_, _ | ⟨_, _ | ⟨_, _ | ⟨_, h0⟩⟩⟩⟩ <;> first | rfl | cases h0
  · rcases List.mem_append.mp hcm with hc2 | hcomma
    · exact h ch hc2
    · rcases hcomma with _ | ⟨_, h0⟩
      · rfl
      · cases h0

lemma no_nl_indent (c : String) (h : ∀ ch ∈ c.data, (ch == '\n') = false) :
    ∀ ch ∈ ("    " ++ c).data, (ch == '\n') = false := by
  intro ch hch
  rw [show ("    " ++ c).data = "    ".data ++ c.data from by simp [String.data_append]] at hch
  rcases List.mem_append.mp hch with hs | hc2
  · rcases hs with _ | ⟨_, _ | ⟨_, _ | ⟨_, _ | ⟨_, h0⟩⟩⟩⟩ <;> first | rfl | cases h0
  · exact h ch hc2

lemma split_body (ms : List String) (y : String)
    (hnl : ∀ l ∈ ms ++ [y], ∀ c ∈ l.data, (c == '\n') = false) :
    pySplit '\n' ("\n" ++ (joinSep ",\n" (ms ++ [y]) ++ "\n")) =
      "" :: (ms.map (fun s => s ++ ",") ++ [y, ""]) := by
  have hj : "\n" ++ (joinSep ",\n" (ms ++ [y]) ++ "\n") =
      joinSep "\n" ("" :: (ms.map (fun s => s ++ ",") ++ [y, ""])) := by
    rw [joinSep_ne_nil_cons "\n" "" _ (by simp)]
    rw [show ms.map (fun s => s ++ ",") ++ [y, ""] =
      ms.map (fun s => s ++ ",") ++ [y, ""] from rfl]
    rw [join_comma_tail ms y ""]
    apply String.ext
    simp [String.data_append]
  rw [hj]
  apply pySplit_joinSep
  · simp
  · intro l hl c hc
    rcases List.mem_cons.mp hl with rfl | hl2
    · exact absurd hc (by simp)
    rcases List.mem_append.mp hl2 with hlm | hly
    · obtain ⟨m, hm, he⟩ := List.mem_map.mp hlm
      subst he
      rw [show (m ++ ",").data = m.data ++ ",".data from by simp [String.data_append]] at hc
      rcases List.mem_append.mp hc with hcm | hcc
      · exact hnl m (by simp [hm]) c hcm
      · rcases hcc with _ | ⟨_, h0⟩
        · rfl
        · cases h0
    · rcases hly with _ | ⟨_, hly2⟩
      · exact hnl y (by simp) c hc
      · rcases hly2 with _ | ⟨_, h0⟩
        · exact absurd hc (by simp)
        · cases h0

lemma normalize_mid :
    ∀ (cls : List String) (clast : String),
    (∀ c ∈ cls ++ [clast], ∃ c0, headIs c0 c ∧ isSpaceChar c0 = false ∧ lineEndOk c.data) →
    ((((cls.map (fun c => "    " ++ c)).map (fun s => s ++ ",")) ++
        ["    " ++ clast, ""]).filter (fun l => pyStrip l != "")).map
      (fun l => pyRstripChar ',' (pyStrip l)) = cls ++ [clast] := by
  intro cls
  induction cls with
  | nil =>
    intro clast hf
    obtain ⟨c0, hh, hs, he⟩ := hf clast (by simp)
    have h1 : (pyStrip ("    " ++ clast) != "") = true := by
      rw [strip_indent_of clast c0 hh hs he]
      simp [bne, ne_empty_beq clast c0 hh]
    have h0 : (pyStrip "" != "") = false := by decide
    simp only [List.map_nil, List.nil_append, List.filter_cons, List.filter_nil, h0, h1,
      Bool.false_eq_true, if_false, if_true, List.map_cons]
    rw [strip_indent_of clast c0 hh hs he, rstripComma_id clast he]
  | cons c cls2 ih =>
    intro clast hf
    obtain ⟨c0, hh, hs, he⟩ := hf c (by simp)
    have hhc : headIs c0 (c ++ ",") := headIs_strcat c "," c0 hh
    have h2 : (pyStrip ("    " ++ c ++ ",") != "") = true := by
      rw [strip_indent_comma_of c c0 hh hs]
      simp [bne, ne_empty_beq _ c0 hhc]
    simp only [List.map_cons, List.cons_append, List.filter_cons, h2, if_true, List.map_cons]
    rw [strip_indent_comma_of c c0 hh hs, rstripComma_append c he]
    rw [ih clast (fun g hg => hf g (by simp at hg ⊢; tauto))]

/-! ## The parser state after processing the rendered body -/

lemma clauseList_nil_parts (tc : TableConfig) (hnil : clauseList tc = [])
    (hpk : acceptedPK tc.primary_key = true) :
    all_field_list tc = [] ∧ tc.primary_key = none ∧
      tc.unique_keys = [] ∧ tc.indexes = [] := by
  unfold clauseList at hnil
  obtain ⟨h12, h4⟩ := List.append_eq_nil.mp hnil
  obtain ⟨h12b, h3⟩ := List.append_eq_nil.mp h12
  obtain ⟨h1, h2⟩ := List.append_eq_nil.mp h12b
  refine ⟨List.map_eq_nil_iff.mp h1, ?_, List.map_eq_nil_iff.mp h3, List.map_eq_nil_iff.mp h4⟩
  cases hp : tc.primary_key with
  | none => rfl
  | some pk =>
    rw [hp] at h2
    dsimp only at h2
    have hne := (acceptedPK_some pk (hp ▸ hpk)).2.1
    rw [hne] at h2
    simp at h2

lemma parse_tdef (tc : TableConfig) (h : Accepted tc) :
    SQLParser._parse_table_definition (bodyStr tc) =
      ⟨all_field_list tc, tc.unique_keys, tc.indexes, tc.primary_key⟩ := by
  unfold SQLParser._parse_table_definition
  rcases List.eq_nil_or_concat (clauseList tc) with hnil | ⟨ys, ylast, hcl⟩
  · have hmid : midLines tc = [] := by unfold midLines; rw [hnil]; rfl
    have hb : bodyStr tc = "\n" := by
      unfold bodyStr
      rw [if_pos hmid]
      apply String.ext
      simp [String.data_append]
    rw [hb]
    rw [show pySplit '\n' "\n" = ["", ""] from by decide]
    rw [show List.filter (fun l => pyStrip l != "") ["", ""] = [] from by decide]
    simp only [List.map_nil, List.foldl_nil]
    obtain ⟨hafl, hpke, huke, hidxe⟩ := clauseList_nil_parts tc hnil h.2.2.2.2.1
    rw [hafl, hpke, huke, hidxe]
  · rw [List.concat_eq_append] at hcl
    have hfacts := clause_head_end tc h
    have hlc := clauseList_lineChar tc h
    have hmid : midLines tc = (ys.map (fun c => "    " ++ c)) ++ ["    " ++ ylast] := by
      unfold midLines
      rw [hcl]
      simp
    have hmidne : ¬(midLines tc = []) := by rw [hmid]; simp
    have hb : bodyStr tc = "\n" ++
        (joinSep ",\n" ((ys.map (fun c => "    " ++ c)) ++ ["    " ++ ylast]) ++ "\n") := by
      unfold bodyStr
      rw [if_neg hmidne, hmid]
    have hnlc : ∀ l ∈ ys ++ [ylast], ∀ c ∈ l.data, (c == '\n') = false := by
      intro l hl c hc
      exact lineChar_no_nl c (List.all_eq_true.mp (hlc l (hcl ▸ hl)) c hc)
    have hnl : ∀ l ∈ (ys.map (fun c => "    " ++ c)) ++ ["    " ++ ylast],
        ∀ c ∈ l.data, (c == '\n') = false := by
      intro l hl
      rcases List.mem_append.mp hl with hlm | hly
      · obtain ⟨m, hm, he⟩ := List.mem_map.mp hlm
        exact he ▸ no_nl_indent m (hnlc m (by simp [hm]))
      · rcases hly with _ | ⟨_, h0⟩
        · exact no_nl_indent ylast (hnlc ylast (by simp))
        · cases h0
    rw [hb, split_body _ _ hnl]
    have hfacts2 : ∀ c ∈ ys ++ [ylast],
        ∃ c0, headIs c0 c ∧ isSpaceChar c0 = false ∧ lineEndOk c.data :=
      fun c hc => hfacts c (hcl ▸ hc)
    rw [show List.filter (fun l => pyStrip l != "")
        ("" :: ((ys.map (fun c => "    " ++ c)).map (fun s => s ++ ",") ++
          ["    " ++ ylast, ""])) =
        List.filter (fun l => pyStrip l != "")
        ((ys.map (fun c => "    " ++ c)).map (fun s => s ++ ",") ++
          ["    " ++ ylast, ""]) from by
      rw [List.filter_cons]
      rw [show (pyStrip "" != "") = false from by decide]
      simp]
    rw [normalize_mid ys ylast hfacts2]
    rw [← hcl]
    exact foldl_clauses tc h

/-! ## Reassembling the parsed table -/

lemma contains_true (l : List String) (a : String) (h : a ∈ l) : l.contains a = true := by
  simpa using h

lemma contains_false (l : List String) (a : String) (h : a ∉ l) : l.contains a = false := by
  simpa using h

lemma filter_names_all (P : String → Bool) (l : List Field)
    (h : ∀ f ∈ l, P f.name = true) : l.filter (fun f => P f.name) = l :=
  List.filter_eq_self.mpr h

lemma filter_names_none (P : String → Bool) (l : List Field)
    (h : ∀ f ∈ l, P f.name = false) : l.filter (fun f => P f.name) = [] :=
  List.filter_eq_nil_iff.mpr (fun f hf => by simp [h f hf])

lemma parse_render (tc : TableConfig) (h : Accepted tc) :
    sql_to_ddl (renderText tc) = .ok tc := by
  have h1 := extractTableName_render tc h.1
  have hbody : SQLParser.extractBody (renderText tc) = some (bodyStr tc, tc.table_comment) := by
    by_cases htc : tc.table_comment = ""
    · rw [extractBody_render_nocmt tc h htc, htc]
    · exact extractBody_render_cmt tc h htc
  have htdef := parse_tdef tc h
  obtain ⟨hname, hcmt, hflds, hnd, hapk, huks, hidxs, hid, hnonid, hkey, hval, hstat⟩ := h
  have hkeyf : (tc.key_fields ++ tc.value_fields).filter
      (fun f => (SQLParser.normalIndexFields tc.indexes).contains f.name) = tc.key_fields := by
    rw [List.filter_append]
    rw [filter_names_all (fun n => (SQLParser.normalIndexFields tc.indexes).contains n) _
      (fun f hf => contains_true _ _ (hkey f hf))]
    rw [filter_names_none (fun n => (SQLParser.normalIndexFields tc.indexes).contains n) _
      (fun f hf => contains_false _ _ (hval f hf))]
    simp
  have hvalf : (tc.key_fields ++ tc.value_fields).filter
      (fun f => !(SQLParser.normalIndexFields tc.indexes).contains f.name) =
      tc.value_fields := by
    rw [List.filter_append]
    rw [filter_names_none (fun n => !(SQLParser.normalIndexFields tc.indexes).contains n) _
      (fun f hf => by
        show (!(SQLParser.normalIndexFields tc.indexes).contains f.name) = false
        rw [contains_true _ _ (hkey f hf)]; rfl)]
    rw [filter_names_all (fun n => !(SQLParser.normalIndexFields tc.indexes).contains n) _
      (fun f hf => by
        show (!(SQLParser.normalIndexFields tc.indexes).contains f.name) = true
        rw [contains_false _ _ (hval f hf)]; rfl)]
    simp
  unfold sql_to_ddl SQLParser.parse_create_table
  simp only [h1, hbody, htdef]
  cases hpkc : tc.primary_key with
  | none =>
    have hpknames : pkNames tc = [] := by unfold pkNames; rw [hpkc]
    have hid0 : tc.id_fields = [] := by
      apply List.eq_nil_iff_forall_not_mem.mpr
      intro f hf
      exact absurd (hpknames ▸ hid f hf) (List.not_mem_nil _)
    have hidf : (all_field_list tc).filter
        (fun f => ([] : List String).contains f.name) = tc.id_fields := by
      rw [hid0]
      exact filter_names_none (fun n => ([] : List String).contains n) _ (fun f _ => rfl)
    have hnonf : (all_field_list tc).filter
        (fun f => !([] : List String).contains f.name) =
        tc.key_fields ++ tc.value_fields := by
      rw [filter_names_all (fun n => !([] : List String).contains n) _ (fun f _ => rfl)]
      show tc.id_fields ++ tc.key_fields ++ tc.value_fields ++ tc.status_fields = _
      rw [hid0, hstat, List.nil_append, List.append_nil]
    simp only [SQLParser._classify_fields]
    rw [hidf, hnonf, hkeyf, hvalf]
    rw [← hstat, ← hpkc]
  | some pk =>
    have hpknames : pkNames tc = pk.fields := by unfold pkNames; rw [hpkc]
    have hidf : (all_field_list tc).filter
        (fun f => pk.fields.contains f.name) = tc.id_fields := by
      show (tc.id_fields ++ tc.key_fields ++ tc.value_fields ++ tc.status_fields).filter
        (fun f => pk.fields.contains f.name) = tc.id_fields
      rw [hstat, List.append_nil, List.filter_append, List.filter_append]
      rw [filter_names_all (fun n => pk.fields.contains n) _
        (fun f hf => contains_true _ _ (hpknames ▸ hid f hf))]
      rw [filter_names_none (fun n => pk.fields.contains n) tc.key_fields
        (fun f hf => contains_false _ _
          (fun hm => hnonid f (List.mem_append_left _ hf) (hpknames ▸ hm)))]
      rw [filter_names_none (fun n => pk.fields.contains n) tc.value_fields
        (fun f hf => contains_false _ _
          (fun hm => hnonid f (List.mem_append_right _ hf) (hpknames ▸ hm)))]
      simp
    have hnonf : (all_field_list tc).filter
        (fun f => !pk.fields.contains f.name) = tc.key_fields ++ tc.value_fields := by
      show (tc.id_fields ++ tc.key_fields ++ tc.value_fields ++ tc.status_fields).filter
        (fun f => !pk.fields.contains f.name) = tc.key_fields ++ tc.value_fields
      rw [hstat, List.append_nil, List.filter_append, List.filter_append]
      rw [filter_names_none (fun n => !pk.fields.contains n) tc.id_fields
        (fun f hf => by
          show (!pk.fields.contains f.name) = false
          rw [contains_true _ _ (hpknames ▸ hid f hf)]; rfl)]
      rw [filter_names_all (fun n => !pk.fields.contains n) tc.key_fields
        (fun f hf => by
          show (!pk.fields.contains f.name) = true
          rw [contains_false _ _
            (fun hm => hnonid f (List.mem_append_left _ hf) (hpknames ▸ hm))]
          rfl)]
      rw [filter_names_all (fun n => !pk.fields.contains n) tc.value_fields
        (fun f hf => by
          show (!pk.fields.contains f.name) = true
          rw [contains_false _ _
            (fun hm => hnonid f (List.mem_append_right _ hf) (hpknames ▸ hm))]
          rfl)]
      simp
    simp only [SQLParser._classify_fields]
    rw [hidf, hnonf, hkeyf, hvalf]
    rw [← hstat, ← hpkc]

/-! ## The round trip over the accepted subset -/

/-- A representative accepted schema: auto-increment primary key,
indexed key column, defaulted and decimal value columns, a unique key,
a commented index and a table comment. -/
def tcRT : TableConfig :=
  { table_name := "t_user"
    table_comment := "user table"
    id_fields := [{ name := "id", type := "bigint", length := some 20
                    not_null := some true
                    auto_increment := some true
                    comment := some "pk" }]
    key_fields := [{ name := "age", type := "int", length := some 11
                     unsigned := some true
                     comment := some "" }]
    value_fields := [{ name := "uname", type := "string", max_length := some 64
                       default := some (.str "anon")
                       comment := some "the name" },
                     { name := "bal", type := "decimal", precision := some 10
                       scale := some 2
                       comment := some "" }]
    status_fields := []
    primary_key := some { fields := ["id"], type := "primary", index_type := "BTREE" }
    unique_keys := [{ name := "uk_uname", fields := ["uname"] }]
    indexes := [{ name := "idx_age", fields := ["age"], type := "normal",
                  comment := "by age" }] }

/-- C1, amended to the explicit accepted subset: for every schema in
`Accepted` (well-formed identifiers, subset-safe comment/default text,
exact type parameters, flags absent or `True`, `required` absent, no
default on an auto-increment column, distinct column names, and
classification data consistent with the primary key and the normal
indexes), serialising with `ddl_to_sql` and parsing the produced text
with `sql_to_ddl` reproduces the original schema exactly. -/
theorem roundtrip_C1 (tc : TableConfig) (h : Accepted tc) :
    (ddl_to_sql tc true).bind sql_to_ddl = .ok tc := by
  rw [render_ok tc h]
  show sql_to_ddl (renderText tc) = .ok tc
  exact parse_render tc h

/-- Witness: the round trip at the concrete accepted schema `tcRT`. -/
theorem roundtrip_C1_witness :
    Accepted tcRT ∧ (ddl_to_sql tcRT true).bind sql_to_ddl = .ok tcRT :=
  ⟨by decide, roundtrip_C1 tcRT (by decide)⟩

end Ddl
